import Mathlib

/-!
Mosh datagram transport (`src/network/network.cc`, `src/network/network.h`)

A shallow embedding of the connection layer of the mobile shell: the packet
codec, the per-socket state, the connection state with its socket deque, the
send / receive / port-hop operations, the retransmission timeout and the
port-range parser, followed by theorems about them.

Conventions of the embedding

* `uint16_t` and `uint64_t` values are natural numbers; every place where the
  C++ arithmetic can wrap carries an explicit `% 2 ^ 16` or `% 2 ^ 64`.
* `double` values (`SRTT`, `RTTVAR`, the sample `R`) are rationals.
* A `Socket *` is an index into `Connection.heap`, the list of every socket
  object the connection has allocated; `socks` and `send_socket` hold such
  indices, so aliasing between the deque and `send_socket` is kept.
* The clock (`timestamp()`, i.e. `frozen_timestamp()`) is an argument `now`
  of every operation that reads it.
* The cryptographic session (`crypto.h`) is a parameter: a pair of functions
  `encrypt` / `decrypt`.
* What the operating system answers (`sendto`, `recvmsg`, `bind`,
  `getnameinfo`) is an argument of the operation that asks.
-/

namespace Network

/-! ## Basic types -/

/-- One octet of a `std::string`. -/
abbrev Byte := Fin 256

/-- Source `enum Direction` of `network.h`. -/
inductive Direction where
  | TO_SERVER
  | TO_CLIENT
  deriving DecidableEq, Repr

/-- Source `Crypto::Message`: a nonce (`Nonce::val()`, a `uint64_t`) and a text. -/
structure Message where
  nonce : Nat
  text : List Byte
  deriving DecidableEq, Repr

/-- Source `Crypto::Session`, of which only the interface is used: `encrypt` turns a
message into a coded string, `decrypt` gives the message back or throws
(`none`). -/
structure Session where
  encrypt : Message → List Byte
  decrypt : List Byte → Option Message

/-- Source `class Packet` of `network.h`. -/
structure Packet where
  seq : Nat
  direction : Direction
  timestamp : Nat
  timestamp_reply : Nat
  sock_id : Nat
  flags : Nat
  payload : List Byte
  deriving DecidableEq, Repr

/-- Source `const uint64_t DIRECTION_MASK = uint64_t(1) << 63`. -/
def DIRECTION_MASK : Nat := (1 <<< 63) % 2 ^ 64

/-- Source `const uint64_t SEQUENCE_MASK = uint64_t(-1) ^ DIRECTION_MASK`. -/
def SEQUENCE_MASK : Nat := (2 ^ 64 - 1) ^^^ DIRECTION_MASK

/-- Source `const uint16_t PROBE_FLAG = 1`. -/
def PROBE_FLAG : Nat := 1

/-- The two octets of `htobe16 x` in memory order, most significant first. -/
def htobe16 (x : Nat) : List Byte :=
  [Fin.ofNat (x / 256), Fin.ofNat x]

/-- Host value of `be16toh` applied to two octets in memory order. -/
def be16toh (hi lo : Byte) : Nat :=
  hi.val * 256 + lo.val

/-- The local `direction_seq` of `Packet::tostring`: the nonce of the packet,
`(uint64_t( direction == TO_CLIENT ) << 63) | (seq & SEQUENCE_MASK)`. -/
def Packet.direction_seq (p : Packet) : Nat :=
  (((if p.direction = Direction.TO_CLIENT then 1 else 0) <<< 63) % 2 ^ 64)
    ||| (p.seq &&& SEQUENCE_MASK)

/-- The text that `Packet::tostring` hands to the session:
`timestamps + id_string + flags_string + payload`. -/
def Packet.cleartext (p : Packet) : List Byte :=
  (htobe16 p.timestamp ++ htobe16 p.timestamp_reply) ++ htobe16 p.sock_id
    ++ htobe16 p.flags ++ p.payload

/-- Source `Packet::tostring`. -/
def Packet.tostring (p : Packet) (session : Session) : List Byte :=
  session.encrypt ⟨p.direction_seq, p.cleartext⟩

/-- The decoding constructor `Packet::Packet( string coded_packet, Session *session )`.
`none` stands for the exception thrown by `session->decrypt` or by
`dos_assert( message.text.size() >= 4 * sizeof( uint16_t ) )`. -/
def Packet.decode (coded_packet : List Byte) (session : Session) : Option Packet :=
  match session.decrypt coded_packet with
  | none => none
  | some message =>
    let direction :=
      if message.nonce &&& DIRECTION_MASK ≠ 0 then Direction.TO_CLIENT else Direction.TO_SERVER
    let seq := message.nonce &&& SEQUENCE_MASK
    match message.text with
    | d0 :: d1 :: d2 :: d3 :: d4 :: d5 :: d6 :: d7 :: rest =>
      some { seq := seq
             direction := direction
             timestamp := be16toh d0 d1
             timestamp_reply := be16toh d2 d3
             sock_id := be16toh d4 d5
             flags := be16toh d6 d7
             payload := rest }
    | _ => none

/-- Source `Packet::is_probe`: `flags & PROBE_FLAG`. -/
def Packet.is_probe (p : Packet) : Bool :=
  p.flags &&& PROBE_FLAG ≠ 0

/-- A session that does not encrypt: the coded string is the nonce in eight
octets, most significant first, followed by the text. It is used to run the
operations on concrete inputs. -/
def clearSession : Session where
  encrypt := fun m =>
    [Fin.ofNat (m.nonce / 2 ^ 56), Fin.ofNat (m.nonce / 2 ^ 48), Fin.ofNat (m.nonce / 2 ^ 40),
      Fin.ofNat (m.nonce / 2 ^ 32), Fin.ofNat (m.nonce / 2 ^ 24), Fin.ofNat (m.nonce / 2 ^ 16),
      Fin.ofNat (m.nonce / 2 ^ 8), Fin.ofNat m.nonce] ++ m.text
  decrypt := fun coded =>
    match coded with
    | n0 :: n1 :: n2 :: n3 :: n4 :: n5 :: n6 :: n7 :: text =>
      some ⟨((((((n0.val * 256 + n1.val) * 256 + n2.val) * 256 + n3.val) * 256 + n4.val) * 256
        + n5.val) * 256 + n6.val) * 256 + n7.val, text⟩
    | _ => none

/-! ## Clock helpers -/

/-- Subtraction of two `uint64_t` values, as in `now - last_port_choice`. -/
def u64_sub (a b : Nat) : Nat :=
  (a % 2 ^ 64 + (2 ^ 64 - b % 2 ^ 64)) % 2 ^ 64

/-- Source `Network::timestamp16` at clock value `now`. -/
def timestamp16 (now : Nat) : Nat :=
  let ts := now % 65536
  if ts = 65535 then (ts + 1) % 65536 else ts

/-- Source `Network::timestamp_diff`. The difference is taken in `int`; `none` stands
for a failed `assert`. -/
def timestamp_diff (tsnew tsold : Nat) : Option Nat :=
  let diff : Int := (tsnew : Int) - (tsold : Int)
  let diff := if diff < 0 then diff + 65536 else diff
  if diff ≥ 0 ∧ diff ≤ 65535 then some (diff.toNat % 65536) else none

/-! ## Sockets and connections -/

/-- The exceptions that travel through the connection layer:
`NetworkException( function, the_errno )` and the `CryptoException` thrown by
the session and by `dos_assert`. -/
inductive Exception where
  | network (function : String) (the_errno : Int)
  | crypto
  deriving DecidableEq, Repr

/-- Source `class Connection::Socket`, without the descriptor `_fd` and the two
address members that `network.cc` never touches. -/
structure Socket where
  MTU : Int
  saved_timestamp : Nat
  saved_timestamp_received_at : Nat
  RTT_hit : Bool
  SRTT : ℚ
  RTTVAR : ℚ
  next_seq : Nat
  sock_id : Nat
  deriving DecidableEq

def DEFAULT_SEND_MTU : Int := 1300
def MIN_RTO : Nat := 50
def MAX_RTO : Nat := 1000
def PORT_RANGE_LOW : Int := 60001
def PORT_RANGE_HIGH : Int := 60999
def SERVER_ASSOCIATION_TIMEOUT : Nat := 40000
def PORT_HOP_INTERVAL : Nat := 10000
def MAX_PORTS_OPEN : Nat := 10
def MAX_OLD_SOCKET_AGE : Nat := 60000
def CONGESTION_TIMESTAMP_PENALTY : Int := 500

/-- The value of `EMSGSIZE` (Linux). -/
def EMSGSIZE : Int := 90
/-- The value of `EAGAIN` (Linux). -/
def EAGAIN : Int := 11
/-- The value of `EWOULDBLOCK` (Linux). -/
def EWOULDBLOCK : Int := 11

/-- Source `Connection::Socket::Socket( int family, uint16_t id )` when `socket(2)`
hands out a descriptor (otherwise the constructor throws and there is no
object). The family only selects the kind of descriptor. -/
def Socket.new (id : Nat) : Socket where
  MTU := DEFAULT_SEND_MTU
  saved_timestamp := 65535
  saved_timestamp_received_at := 0
  RTT_hit := false
  SRTT := 1000
  RTTVAR := 500
  next_seq := 0
  sock_id := id

/-- The octets of an `Addr`. -/
abbrev Addr := List Byte

/-- One `sendto` call: the socket whose descriptor was used, the packet that
was built, its coded form and the destination. -/
structure Datagram where
  sock : Nat
  packet : Packet
  coded : List Byte
  addr : Addr
  addr_len : Nat
  deriving DecidableEq

/-- Source `std::map< uint16_t, uint64_t >` as an association list without repeated
keys. -/
abbrev SeqMap := List (Nat × Nat)

/-- Reading `m[k]`: the stored value, or the default `0` of a fresh entry. -/
def SeqMap.get (m : SeqMap) (k : Nat) : Nat :=
  match m with
  | [] => 0
  | (k1, v) :: rest => if k1 = k then v else SeqMap.get rest k

/-- The assignment `m[k] = v`. -/
def SeqMap.set (m : SeqMap) (k v : Nat) : SeqMap :=
  (k, v) :: m.filter (fun e => e.1 ≠ k)

/-- Source `class Connection`. `heap` holds every socket object allocated so far and
a `Socket *` is an index into it; `wire` records the `sendto` calls made so
far, oldest first. The key and the session are a parameter of the operations. -/
structure Connection where
  heap : List Socket
  socks : List Nat
  next_sock_id : Nat
  send_socket : Option Nat
  remote_addr : Addr
  remote_addr_len : Nat
  server : Bool
  direction : Direction
  expected_receiver_seq : SeqMap
  last_heard : Nat
  last_port_choice : Nat
  last_roundtrip_success : Nat
  have_send_exception : Bool
  send_exception : Exception
  wire : List Datagram
  deriving DecidableEq

/-- How a call that can throw ends: it returns, it throws (the connection is
left in the state reached at the throw), or an `assert` fails. -/
inductive Outcome (α : Type) where
  | ok (c : Connection) (a : α)
  | throw (c : Connection) (e : Exception)
  | abort

/-- The connection a call leaves behind, if the process survives it. -/
def Outcome.state {α : Type} : Outcome α → Option Connection
  | Outcome.ok c _ => some c
  | Outcome.throw c _ => some c
  | Outcome.abort => none

/-- Source `Connection::has_remote_addr`. -/
def has_remote_addr (c : Connection) : Bool :=
  c.send_socket.isSome

/-- Source `Connection::sock`: `none` when `assert( !socks.empty() )` fails. -/
def sock (c : Connection) : Option Nat :=
  if c.socks = [] then none
  else match c.send_socket with
    | some h => some h
    | none => c.socks.getLast?

/-- Source `Connection::setup`. -/
def setup (now : Nat) (c : Connection) : Connection :=
  { c with last_port_choice := now }

/-- Source `Connection::new_packet` on the socket object `sk`, with the connection's
`direction`; it returns the socket object as it is left and the packet. -/
def new_packet (direction : Direction) (now : Nat) (sk : Socket) (flags : Nat)
    (s_payload : List Byte) : Socket × Packet :=
  let held := u64_sub now sk.saved_timestamp_received_at
  let outgoing_timestamp_reply :=
    if held < 1000 then (sk.saved_timestamp + held) % 65536 else 65535
  let sk1 :=
    if held < 1000 then
      { sk with saved_timestamp := 65535, saved_timestamp_received_at := 0 }
    else sk
  ({ sk1 with next_seq := (sk1.next_seq + 1) % 2 ^ 64 },
   { seq := sk1.next_seq
     direction := direction
     timestamp := timestamp16 now
     timestamp_reply := outgoing_timestamp_reply
     sock_id := sk1.sock_id
     flags := flags
     payload := s_payload })

/-- Source `Connection::prune_sockets`; `pop_front` repeated `k` times is `List.drop k`. -/
def prune_sockets (now : Nat) (c : Connection) : Connection :=
  if c.socks.length > 1 then
    let c1 :=
      if u64_sub now c.last_port_choice > MAX_OLD_SOCKET_AGE then
        { c with socks := c.socks.drop (c.socks.length - 1) }
      else c
    if c1.socks.length > MAX_PORTS_OPEN then
      { c1 with socks := c1.socks.drop (c1.socks.length - MAX_PORTS_OPEN) }
    else c1
  else c

/-- Source `Connection::hop_port`; `none` when one of its two `assert`s fails. -/
def hop_port (now : Nat) (c : Connection) : Option Connection :=
  if c.server then none
  else
    let c1 := setup now c
    if c1.remote_addr_len = 0 then none
    else
      let sock := c1.heap.length
      let c2 := { c1 with heap := c1.heap ++ [Socket.new c1.next_sock_id]
                          next_sock_id := (c1.next_sock_id + 1) % 65536
                          socks := c1.socks ++ [sock] }
      some (prune_sockets now c2)

/-- The client constructor `Connection( key_str, ip, port )` at clock value
`now`, once `getaddrinfo` has resolved the peer to `addr` of length `addr_len`. -/
def Connection.client (now : Nat) (addr : Addr) (addr_len : Nat) : Connection :=
  let c0 : Connection :=
    { heap := []
      socks := []
      next_sock_id := 0
      send_socket := none
      remote_addr := []
      remote_addr_len := 0
      server := false
      direction := Direction.TO_SERVER
      expected_receiver_seq := []
      last_heard := 2 ^ 64 - 1
      last_port_choice := 2 ^ 64 - 1
      last_roundtrip_success := 2 ^ 64 - 1
      have_send_exception := false
      send_exception := Exception.network "<none>" 0
      wire := [] }
  let c1 := setup now c0
  let c2 := { c1 with remote_addr_len := addr_len, remote_addr := addr }
  let sock := c2.heap.length
  { c2 with heap := c2.heap ++ [Socket.new c2.next_sock_id]
            next_sock_id := (c2.next_sock_id + 1) % 65536
            send_socket := some sock
            socks := c2.socks ++ [sock] }

/-- Source `Connection::send_probe` on the socket `sock`; `none` when `sock` is not a
socket object. The flag it returns depends only on `sendto` and is dropped,
as `send_probes` does. -/
def send_probe (session : Session) (now : Nat) (sock : Nat) (addr : Addr) (addr_len : Nat)
    (c : Connection) : Option Connection :=
  match c.heap[sock]? with
  | none => none
  | some sk =>
    let r := new_packet c.direction now sk PROBE_FLAG []
    some { c with heap := c.heap.set sock r.1
                  wire := c.wire ++ [Datagram.mk sock r.2 (r.2.tostring session) addr addr_len] }

/-- The loop of `Connection::send_probes` over the sockets still to visit. -/
def send_probes_loop (session : Session) (now : Nat) :
    List Nat → Connection → Option Connection
  | [], c => some c
  | it :: rest, c =>
    if some it ≠ c.send_socket then
      match send_probe session now it c.remote_addr c.remote_addr_len c with
      | none => none
      | some c1 => send_probes_loop session now rest c1
    else send_probes_loop session now rest c

/-- Source `Connection::send_probes`. -/
def send_probes (session : Session) (now : Nat) (c : Connection) : Option Connection :=
  send_probes_loop session now c.socks c

/-- What `sendto` answers: the number of octets sent and `errno`. -/
structure SendtoResult where
  bytes_sent : Int
  errno : Int
  deriving DecidableEq

/-- Source `Connection::send( string s )` at clock value `now`; `none` when an
`assert` fails or `send_socket` is not a socket object. -/
def send (session : Session) (now : Nat) (os : SendtoResult) (s : List Byte)
    (c : Connection) : Option Connection :=
  match c.send_socket with
  | none => some c
  | some h =>
    match c.heap[h]? with
    | none => none
    | some sk =>
      let r := new_packet c.direction now sk 0 s
      let p := r.2.tostring session
      if c.socks = [] then none
      else
        let c1 := { c with heap := c.heap.set h r.1
                           wire := c.wire ++ [Datagram.mk h r.2 p c.remote_addr c.remote_addr_len] }
        let c2 :=
          if os.bytes_sent = (p.length : Int) then
            { c1 with have_send_exception := false }
          else
            { c1 with have_send_exception := true
                      send_exception := Exception.network "sendto" os.errno
                      heap := if os.errno = EMSGSIZE then
                                c1.heap.set h { r.1 with MTU := 500 }
                              else c1.heap }
        if c2.server then
          if u64_sub now c2.last_heard > SERVER_ASSOCIATION_TIMEOUT then
            some { c2 with send_socket := none }
          else some c2
        else if u64_sub now c2.last_port_choice > PORT_HOP_INTERVAL
            ∧ u64_sub now c2.last_roundtrip_success > PORT_HOP_INTERVAL then
          hop_port now c2
        else some c2

/-- What `recvmsg` answers in `recv_one`: a negative length with `errno`, or
a datagram: whether `MSG_TRUNC` is set, the value of `errno` at that moment,
the octet of the first control header when that header is an `IP_TOS` one of
level `IPPROTO_IP`, the octets received, the source address with its length
`msg_namelen`, and the code `getnameinfo` would return for that address. -/
inductive RecvMsg where
  | failed (errno : Int)
  | datagram (trunc : Bool) (errno : Int) (ecn_octet : Option Nat) (msg_payload : List Byte)
      (packet_remote_addr : Addr) (msg_namelen : Nat) (getnameinfo_errcode : Int)
  deriving DecidableEq

/-- The RTT estimator step of `recv_one` (the statement `if ( R < 5000 ) ...`)
on the socket object `sk` for the sample `R`. -/
def update_rtt (R : ℚ) (sk : Socket) : Socket :=
  if R < 5000 then
    if !sk.RTT_hit then
      { sk with SRTT := R, RTTVAR := R / 2, RTT_hit := true }
    else
      let alpha : ℚ := 1 / 8
      let beta : ℚ := 1 / 4
      { sk with RTTVAR := (1 - beta) * sk.RTTVAR + (beta * |sk.SRTT - R|)
                SRTT := (1 - alpha) * sk.SRTT + (alpha * R) }
  else sk

/-- The assignment to `saved_timestamp` in `recv_one` for an accepted packet
whose timestamp is `ts`: `ts`, less `CONGESTION_TIMESTAMP_PENALTY` in 16 bits
when congestion was experienced. -/
def saved_timestamp_for (ts : Nat) (congestion_experienced : Bool) : Nat :=
  if congestion_experienced then
    (((ts : Int) - CONGESTION_TIMESTAMP_PENALTY) % 65536).toNat
  else ts

/-- The block of `recv_one` guarded by the replay gate
`if ( p.seq >= expected_receiver_seq[p.sock_id] )`, with the `return`
statements inside and after it: `p` is the decoded packet, `sk` the socket
object behind `sock`. -/
def recv_one_accepted (session : Session) (now : Nat) (sock : Nat) (sk : Socket)
    (congestion_experienced : Bool) (p : Packet) (packet_remote_addr : Addr)
    (msg_namelen : Nat) (getnameinfo_errcode : Int) (c : Connection) : Outcome (List Byte) :=
  let c1 := { c with expected_receiver_seq :=
                c.expected_receiver_seq.set p.sock_id ((p.seq + 1) % 2 ^ 64) }
  let sk1 :=
    if p.timestamp ≠ 65535 then
      { sk with saved_timestamp := saved_timestamp_for p.timestamp congestion_experienced
                saved_timestamp_received_at := now }
    else sk
  let sk2? : Option Socket :=
    if p.timestamp_reply ≠ 65535 then
      match timestamp_diff (timestamp16 now) p.timestamp_reply with
      | none => none
      | some R => some (update_rtt (R : ℚ) sk1)
    else some sk1
  match sk2? with
  | none => Outcome.abort
  | some sk2 =>
    let c2 := { c1 with heap := c1.heap.set sock sk2, last_heard := now }
    if p.is_probe then
      if c2.server then
        match send_probe session now sock packet_remote_addr c2.remote_addr_len c2 with
        | none => Outcome.abort
        | some c3 => Outcome.ok c3 p.payload
      else Outcome.ok c2 p.payload
    else if c2.server then
      let c3 := { c2 with send_socket := some sock }
      if c3.remote_addr_len ≠ msg_namelen
          ∨ c3.remote_addr.take c3.remote_addr_len
              ≠ packet_remote_addr.take c3.remote_addr_len then
        let c4 := { c3 with remote_addr := packet_remote_addr
                            remote_addr_len := msg_namelen }
        if getnameinfo_errcode ≠ 0 then
          Outcome.throw c4 (Exception.network "recv_one: getnameinfo" 0)
        else Outcome.ok c4 p.payload
      else Outcome.ok c3 p.payload
    else Outcome.ok c2 p.payload

/-- Source `Connection::recv_one` on the socket `sock` at clock value `now`, given what
`recvmsg` answers. -/
def recv_one (session : Session) (now : Nat) (sock : Nat) (_nonblocking : Bool)
    (msg : RecvMsg) (c : Connection) : Outcome (List Byte) :=
  match c.heap[sock]? with
  | none => Outcome.abort
  | some sk =>
    match msg with
    | RecvMsg.failed errno => Outcome.throw c (Exception.network "recvmsg" errno)
    | RecvMsg.datagram trunc errno ecn_octet msg_payload packet_remote_addr msg_namelen
        getnameinfo_errcode =>
      if trunc then Outcome.throw c (Exception.network "Received oversize datagram" errno)
      else
        let congestion_experienced : Bool :=
          match ecn_octet with
          | some o => o &&& 0x03 = 0x03
          | none => false
        match Packet.decode msg_payload session with
        | none => Outcome.throw c Exception.crypto
        | some p =>
          if p.direction ≠ (if c.server then Direction.TO_SERVER else Direction.TO_CLIENT) then
            Outcome.throw c Exception.crypto
          else if p.seq ≥ c.expected_receiver_seq.get p.sock_id then
            recv_one_accepted session now sock sk congestion_experienced p packet_remote_addr
              msg_namelen getnameinfo_errcode c
          else Outcome.ok c p.payload

/-- The loop of `Connection::recv` over the sockets still to visit; `rx` tells
what `recvmsg` answers on each socket. -/
def recv_loop (session : Session) (now : Nat) (rx : Nat → RecvMsg) :
    List Nat → Connection → Outcome (List Byte)
  | [], _ => Outcome.abort
  | it :: rest, c =>
    let islast : Bool := rest.isEmpty
    match recv_one session now it (!islast) (rx it) c with
    | Outcome.ok c1 payload => Outcome.ok (prune_sockets now c1) payload
    | Outcome.throw c1 (Exception.network function the_errno) =>
      if the_errno = EAGAIN ∨ the_errno = EWOULDBLOCK then
        if islast then Outcome.abort else recv_loop session now rx rest c1
      else Outcome.throw c1 (Exception.network function the_errno)
    | Outcome.throw c1 Exception.crypto => Outcome.throw c1 Exception.crypto
    | Outcome.abort => Outcome.abort

/-- Source `Connection::recv`. -/
def recv (session : Session) (now : Nat) (rx : Nat → RecvMsg) (c : Connection) :
    Outcome (List Byte) :=
  if c.socks = [] then Outcome.abort else recv_loop session now rx c.socks c

/-- Source `Connection::set_last_roundtrip_success`. -/
def set_last_roundtrip_success (s_success : Nat) (c : Connection) : Connection :=
  { c with last_roundtrip_success := s_success % 2 ^ 64 }

/-- One call on a connection, with the clock value and what the operating
system answers during the call. -/
inductive Op where
  | send (now : Nat) (os : SendtoResult) (s : List Byte)
  | send_probes (now : Nat)
  | recv (now : Nat) (rx : Nat → RecvMsg)
  | recv_one (now : Nat) (sock : Nat) (nonblocking : Bool) (msg : RecvMsg)
  | hop_port (now : Nat)
  | prune_sockets (now : Nat)
  | set_last_roundtrip_success (s_success : Nat)

/-- The connection after one call, whether the call returned or threw; `none`
when an `assert` failed. -/
def step (session : Session) (op : Op) (c : Connection) : Option Connection :=
  match op with
  | Op.send now os s => send session now os s c
  | Op.send_probes now => send_probes session now c
  | Op.recv now rx => (recv session now rx c).state
  | Op.recv_one now sock nonblocking msg => (recv_one session now sock nonblocking msg c).state
  | Op.hop_port now => hop_port now c
  | Op.prune_sockets now => some (prune_sockets now c)
  | Op.set_last_roundtrip_success s_success => some (set_last_roundtrip_success s_success c)

/-- The connection after a sequence of calls. -/
def run (session : Session) : List Op → Connection → Option Connection
  | [], c => some c
  | op :: rest, c =>
    match step session op c with
    | none => none
    | some c1 => run session rest c1

/-- Source `Connection::timeout`: `lrint( ceil( SRTT + 4 * RTTVAR ) )` of the socket
`sock()` converted to `uint64_t`, then clamped. `none` when `sock()` fails. -/
def timeout (c : Connection) : Option Nat :=
  match sock c with
  | none => none
  | some h =>
    match c.heap[h]? with
    | none => none
    | some sk =>
      let RTO : Nat := (⌈sk.SRTT + 4 * sk.RTTVAR⌉ % 2 ^ 64).toNat
      if RTO < MIN_RTO then some MIN_RTO
      else if RTO > MAX_RTO then some MAX_RTO
      else some RTO

/-- Source `Connection::get_SRTT`. -/
def get_SRTT (c : Connection) : Option ℚ :=
  match c.send_socket with
  | some h => (c.heap[h]?).map Socket.SRTT
  | none => (c.socks.getLast?.bind (fun h => c.heap[h]?)).map Socket.SRTT

/-! ## The port-range parser -/

/-- Library `isspace` in the C locale. -/
def isspace (c : Char) : Bool :=
  c = ' ' || (9 ≤ c.toNat && c.toNat ≤ 13)

/-- The character a `char *` points at when the rest of the string is `s`: its
first character, or the terminating NUL. -/
def peek (s : List Char) : Char :=
  s.headD (Char.ofNat 0)

/-- The value of a run of decimal digits, most significant first. -/
def digits_value (ds : List Char) : Nat :=
  ds.foldl (fun acc c => acc * 10 + (c.toNat - 48)) 0

def LONG_MAX : Int := 2 ^ 63 - 1
def LONG_MIN : Int := -(2 ^ 63)
/-- The value of `ERANGE` (Linux). -/
def ERANGE : Int := 34
/-- The value of `EINVAL` (Linux). -/
def EINVAL : Int := 22

/-- What `strtol( nptr, &end, 10 )` leaves: the value, the rest of the string
at `end`, and `errno` (which the caller has set to 0 before the call). -/
structure Strtol where
  value : Int
  endp : List Char
  errno : Int
  deriving DecidableEq

/-- The library function `strtol( nptr, &end, 10 )` with a 64-bit `long`: white
space is skipped, then an optional sign, then the longest run of digits is
converted. Without a digit nothing is converted: the value is 0 and `end` is
`nptr`; the C library then leaves `errno` alone (glibc) or sets it to `EINVAL`
(BSD, musl), which is the argument `noconv_errno`. -/
def strtol (noconv_errno : Int) (nptr : List Char) : Strtol :=
  let s1 := nptr.dropWhile isspace
  let negative : Bool := peek s1 = '-'
  let s2 := if peek s1 = '-' ∨ peek s1 = '+' then s1.tail else s1
  let ds := s2.takeWhile Char.isDigit
  if ds = [] then ⟨0, nptr, noconv_errno⟩
  else
    let v : Int := if negative then -(digits_value ds : Int) else (digits_value ds : Int)
    if v > LONG_MAX then ⟨LONG_MAX, s2.dropWhile Char.isDigit, ERANGE⟩
    else if v < LONG_MIN then ⟨LONG_MIN, s2.dropWhile Char.isDigit, ERANGE⟩
    else ⟨v, s2.dropWhile Char.isDigit, 0⟩

/-- Source `Connection::parse_portrange`: `some (desired_port_low, desired_port_high)`
when it returns true, `none` when it returns false. -/
def parse_portrange (noconv_errno : Int) (desired_port : List Char) : Option (Int × Int) :=
  let r := strtol noconv_errno desired_port
  if r.errno ≠ 0 ∨ (peek r.endp ≠ Char.ofNat 0 ∧ peek r.endp ≠ ':') then none
  else if r.value < 0 ∨ r.value > 65535 then none
  else
    let desired_port_low := r.value
    if peek r.endp = Char.ofNat 0 then some (desired_port_low, desired_port_low)
    else
      let cp := r.endp.tail
      let r2 := strtol noconv_errno cp
      if r2.errno ≠ 0 ∨ peek r2.endp ≠ Char.ofNat 0 then none
      else if r2.value < 0 ∨ r2.value > 65535 then none
      else
        let desired_port_high := r2.value
        if desired_port_low > desired_port_high then none
        else some (desired_port_low, desired_port_high)

/-- A numeral as `strtol` reads it: white space, an optional sign, and a
non-empty run of decimal digits; `v` is its value. -/
def IsNumeral (t : List Char) (v : Int) : Prop :=
  ∃ ws sg ds, t = ws ++ sg ++ ds ∧ (∀ c ∈ ws, isspace c = true) ∧
    (sg = [] ∨ sg = ['+'] ∨ sg = ['-']) ∧ ds ≠ [] ∧ (∀ c ∈ ds, c.isDigit = true) ∧
    v = if sg = ['-'] then -(digits_value ds : Int) else (digits_value ds : Int)

/-- One side of a port range: a numeral, or nothing at all (read as 0). -/
def IsPortNumber (t : List Char) (v : Int) : Prop :=
  IsNumeral t v ∨ (t = [] ∧ v = 0)

/-- The strings outside of which `parse_portrange` fails: one port number, or
two separated by a colon, each in `[0, 65535]` and the first not above the
second. -/
def PortSyntax (s : List Char) (low high : Int) : Prop :=
  0 ≤ low ∧ low ≤ high ∧ high ≤ 65535 ∧
    ((IsPortNumber s low ∧ high = low) ∨
      ∃ t1 t2, s = t1 ++ ':' :: t2 ∧ IsPortNumber t1 low ∧ IsPortNumber t2 high)

/-- The socket object `sk` after the RTT samples `Rs`, oldest first, have gone
through the estimator step of `recv_one`. -/
def after_samples (sk : Socket) (Rs : List Nat) : Socket :=
  Rs.foldl (fun s R => update_rtt (R : ℚ) s) sk

/-! ## The accepted path of `recv_one`, in two steps -/

/-- The socket object `recv_one` has built when it reaches
`last_heard = timestamp()` on an accepted packet `p`: `sk` after the timestamp
store and the estimator step; `none` when an `assert` of `timestamp_diff`
fails. It is the local `sk2?` of `recv_one_accepted`. -/
def accepted_socket (now : Nat) (sk : Socket) (congestion_experienced : Bool) (p : Packet) :
    Option Socket :=
  let sk1 :=
    if p.timestamp ≠ 65535 then
      { sk with saved_timestamp := saved_timestamp_for p.timestamp congestion_experienced
                saved_timestamp_received_at := now }
    else sk
  if p.timestamp_reply ≠ 65535 then
    match timestamp_diff (timestamp16 now) p.timestamp_reply with
    | none => none
    | some R => some (update_rtt (R : ℚ) sk1)
  else some sk1

/-- The connection `recv_one` has built when it reaches the probe test on an
accepted packet `p`, the socket object behind `sock` being `sk2` by then. It
is the local `c2` of `recv_one_accepted`. -/
def accepted_connection (now sock : Nat) (sk2 : Socket) (p : Packet) (c : Connection) :
    Connection :=
  { c with expected_receiver_seq :=
             c.expected_receiver_seq.set p.sock_id ((p.seq + 1) % 2 ^ 64)
           heap := c.heap.set sock sk2
           last_heard := now }

/-- From `c` to `c1` the role and the direction are kept, and every datagram
sent in between carries the direction of the connection. -/
def keeps_direction (c c1 : Connection) : Prop :=
  c1.server = c.server ∧ c1.direction = c.direction ∧
    ∃ ds : List Datagram, c1.wire = c.wire ++ ds ∧ ∀ d ∈ ds, d.packet.direction = c.direction

/-- Whether a call ended on a failed `assert`. -/
def Outcome.aborted {α : Type} : Outcome α → Bool
  | Outcome.abort => true
  | _ => false

/-- The connection `send` has built when it reaches `uint64_t now = timestamp()`:
the packet is built on the socket `h` (whose object was `sk`) and sent, and
the answer of `sendto` is recorded. It is the local `c2` of `send`. -/
def send_posted (session : Session) (now : Nat) (os : SendtoResult) (s : List Byte)
    (h : Nat) (sk : Socket) (c : Connection) : Connection :=
  let r := new_packet c.direction now sk 0 s
  let p := r.2.tostring session
  let c1 := { c with heap := c.heap.set h r.1
                     wire := c.wire ++ [Datagram.mk h r.2 p c.remote_addr c.remote_addr_len] }
  if os.bytes_sent = (p.length : Int) then
    { c1 with have_send_exception := false }
  else
    { c1 with have_send_exception := true
              send_exception := Exception.network "sendto" os.errno
              heap := if os.errno = EMSGSIZE then
                        c1.heap.set h { r.1 with MTU := 500 }
                      else c1.heap }

/-- The packets sent on the socket `h` so far, oldest first. -/
def sent_on (h : Nat) (wire : List Datagram) : List Packet :=
  (wire.filter (fun d => decide (d.sock = h))).map Datagram.packet

/-- The numbering of the packets of every socket: each datagram was sent on a
socket object, and on every socket object the packets sent so far carry
`seq = 0, 1, 2, ...` in `uint64_t` and `next_seq` is their number. -/
def seq_invariant (heap : List Socket) (wire : List Datagram) : Prop :=
  (∀ d ∈ wire, d.sock < heap.length) ∧
    ∀ h sk, heap[h]? = some sk →
      sk.next_seq = (sent_on h wire).length % 2 ^ 64 ∧
      ∀ k p, (sent_on h wire)[k]? = some p → p.seq = k % 2 ^ 64

/-! ## The server constructor -/

/-- The address family of the address `getaddrinfo` returns. -/
inductive Family where
  | AF_INET
  | AF_INET6
  | other
  deriving DecidableEq, Repr

/-- What the operating system answers during one `try_bind`: the code of
`getaddrinfo`, the family of the address it returns, whether `bind` succeeds
on port `i`, the value of `errno` after a failed `bind`, and the code of
`getnameinfo`. -/
structure BindEnv where
  getaddrinfo_errcode : Int
  family : Family
  bind_ok : Int → Bool
  errno : Int
  getnameinfo_errcode : Int

/-- How the `for` loop of `try_bind` ends. -/
inductive BindLoop where
  | bound
  | last_failed
  | unknown_family
  | fell_through
  deriving DecidableEq, Repr

/-- The loop `for ( int i = search_low; i <= search_high; i++ )` of `try_bind`,
from `i` on, with `n` iterations left. -/
def try_bind_loop (env : BindEnv) (search_high : Int) : Nat → Int → BindLoop
  | 0, _ => BindLoop.fell_through
  | n + 1, i =>
    if env.family = Family.other then BindLoop.unknown_family
    else if env.bind_ok i then BindLoop.bound
    else if i = search_high then BindLoop.last_failed
    else try_bind_loop env search_high n (i + 1)

/-- Source `Connection::try_bind( const char *addr, int port_low, int port_high )`. -/
def try_bind (env : BindEnv) (port_low port_high : Int) (c : Connection) : Outcome Bool :=
  if env.getaddrinfo_errcode ≠ 0 then Outcome.throw c (Exception.network "Bad IP address" 0)
  else
    let search_low := if port_low ≠ 0 then port_low else PORT_RANGE_LOW
    let search_high := if port_high ≠ 0 then port_high else PORT_RANGE_HIGH
    let sock_tmp := c.heap.length
    let c1 := { c with heap := c.heap ++ [Socket.new c.next_sock_id]
                       next_sock_id := (c.next_sock_id + 1) % 65536
                       socks := c.socks ++ [sock_tmp] }
    match try_bind_loop env search_high (search_high + 1 - search_low).toNat search_low with
    | BindLoop.bound => Outcome.ok c1 true
    | BindLoop.unknown_family =>
      Outcome.throw c1 (Exception.network "Unknown address family" 0)
    | BindLoop.last_failed =>
      let c2 := { c1 with socks := c1.socks.dropLast }
      if env.getnameinfo_errcode ≠ 0 then
        Outcome.throw c2 (Exception.network "bind: getnameinfo" 0)
      else Outcome.throw c2 (Exception.network "bind" env.errno)
    | BindLoop.fell_through => Outcome.abort

/-- The server constructor `Connection( desired_ip, desired_port )` at clock
value `now`; `env_ip` and `env_any` are what the operating system answers
during the bind to the desired address and during the bind to any address.
A `throw` means that no connection is constructed. -/
def Connection.as_server (now : Nat) (noconv_errno : Int) (desired_ip : Option (List Char))
    (desired_port : Option (List Char)) (env_ip env_any : BindEnv) : Outcome Unit :=
  let c0 : Connection :=
    { heap := []
      socks := []
      next_sock_id := 0
      send_socket := none
      remote_addr := []
      remote_addr_len := 0
      server := true
      direction := Direction.TO_CLIENT
      expected_receiver_seq := []
      last_heard := 2 ^ 64 - 1
      last_port_choice := 2 ^ 64 - 1
      last_roundtrip_success := 2 ^ 64 - 1
      have_send_exception := false
      send_exception := Exception.network "<none>" 0
      wire := [] }
  let c1 := setup now c0
  let ports : Option (Int × Int) :=
    match desired_port with
    | none => some (0, 0)
    | some s => parse_portrange noconv_errno s
  match ports with
  | none => Outcome.throw c1 (Exception.network "Invalid port range" 0)
  | some (desired_port_low, desired_port_high) =>
    let first : Outcome Bool :=
      match desired_ip with
      | some _ => try_bind env_ip desired_port_low desired_port_high c1
      | none => Outcome.ok c1 false
    match first with
    | Outcome.ok c2 true => Outcome.ok c2 ()
    | Outcome.abort => Outcome.abort
    | Outcome.throw c2 Exception.crypto => Outcome.throw c2 Exception.crypto
    | Outcome.ok c2 false | Outcome.throw c2 (Exception.network _ _) =>
      match try_bind env_any desired_port_low desired_port_high c2 with
      | Outcome.ok c3 true => Outcome.ok c3 ()
      | Outcome.ok _ false => Outcome.abort
      | Outcome.throw c3 e => Outcome.throw c3 e
      | Outcome.abort => Outcome.abort

/-! ## Concrete inputs -/

/-- A client constructed at clock value 0 for the peer `127.0.0.1`. -/
def example_client : Connection :=
  Connection.client 0 [127, 0, 0, 1] 4

/-- A datagram from the server as `clearSession` codes it: direction
`TO_CLIENT`, the given `seq` (below 256), timestamp 7, no echo, `sock_id` 0,
no flag, and one octet of payload. -/
def example_datagram (seq payload : Byte) : RecvMsg :=
  RecvMsg.datagram false 0 none
    [128, 0, 0, 0, 0, 0, 0, seq, 0, 7, 255, 255, 0, 0, 0, 0, payload] [127, 0, 0, 1] 4 0

/-- The client after it has received the datagram with `seq = 5`. -/
def example_client_heard : Connection :=
  ((recv_one clearSession 500 0 false (example_datagram 5 42) example_client).state).getD
    example_client

/-- The same client after a `send` that follows. -/
def example_client_replied : Connection :=
  (run clearSession [Op.send 1000 ⟨17, 0⟩ [1]] example_client_heard).getD example_client_heard

/-- An operating system on which every call of `try_bind` succeeds at once. -/
def example_bind_env : BindEnv where
  getaddrinfo_errcode := 0
  family := Family.AF_INET
  bind_ok := fun _ => true
  errno := 0
  getnameinfo_errcode := 0

/-- A server constructed at clock value 0, with no address and no port asked. -/
def example_server : Connection :=
  ((Connection.as_server 0 0 none none example_bind_env example_bind_env).state).getD
    example_client

/-- The server after it has answered a probe from `10.0.0.2`, accepted a data
packet from there and sent one octet back. -/
def example_server_attached : Connection :=
  (run clearSession
    [Op.recv_one 70000 0 false (RecvMsg.datagram false 0 none
        [0, 0, 0, 0, 0, 0, 0, 1, 0, 7, 255, 255, 0, 0, 0, 1] [10, 0, 0, 2] 4 0),
      Op.recv_one 70001 0 false (RecvMsg.datagram false 0 none
        [0, 0, 0, 0, 0, 0, 0, 2, 0, 8, 255, 255, 0, 0, 0, 0, 42] [10, 0, 0, 2] 4 0),
      Op.send 70002 ⟨17, 0⟩ [1]]
    example_server).getD example_server

/-! ## Theorems -/

theorem DIRECTION_MASK_eq : DIRECTION_MASK = 2 ^ 63 := by decide

theorem SEQUENCE_MASK_eq : SEQUENCE_MASK = 2 ^ 63 - 1 := by decide

theorem and_SEQUENCE_MASK (x : Nat) : x &&& SEQUENCE_MASK = x % 2 ^ 63 := by
  rw [SEQUENCE_MASK_eq]
  exact Nat.and_pow_two_sub_one_eq_mod x 63

theorem be16toh_htobe16 (x : Nat) (hx : x < 65536) :
    ∃ hi lo, htobe16 x = [hi, lo] ∧ be16toh hi lo = x := by
  refine ⟨Fin.ofNat (x / 256), Fin.ofNat x, rfl, ?_⟩
  simp only [be16toh, Fin.ofNat]
  omega

theorem and_DIRECTION_MASK_ne_zero (x : Nat) :
    x &&& DIRECTION_MASK ≠ 0 ↔ x.testBit 63 = true := by
  rw [DIRECTION_MASK_eq]
  constructor
  · intro h
    by_contra hb
    apply h
    apply Nat.eq_of_testBit_eq
    intro i
    rw [Nat.testBit_and, Nat.testBit_two_pow, Nat.zero_testBit]
    by_cases hi : 63 = i
    · subst hi
      simp [hb]
    · simp [hi]
  · intro hb h
    have h2 : (x &&& 2 ^ 63).testBit 63 = true := by
      rw [Nat.testBit_and, Nat.testBit_two_pow_self, hb]
      rfl
    rw [h, Nat.zero_testBit] at h2
    exact Bool.noConfusion h2

/-- The nonce in arithmetic form: the direction bit times `2 ^ 63` plus the low
63 bits of the sequence number. -/
theorem direction_seq_eq (p : Packet) :
    p.direction_seq =
      (if p.direction = Direction.TO_CLIENT then 2 ^ 63 else 0) + p.seq % 2 ^ 63 := by
  unfold Packet.direction_seq
  rw [and_SEQUENCE_MASK]
  have hlt : p.seq % 2 ^ 63 < 2 ^ 63 := Nat.mod_lt _ (by norm_num)
  by_cases hd : p.direction = Direction.TO_CLIENT
  · rw [if_pos hd, if_pos hd]
    have h1 : ((1 <<< 63) % 2 ^ 64 : Nat) = 2 ^ 63 * 1 := by decide
    rw [h1, ← Nat.mul_add_lt_is_or hlt 1, Nat.mul_one]
  · rw [if_neg hd, if_neg hd]
    have h0 : ((0 <<< 63) % 2 ^ 64 : Nat) = 0 := by decide
    rw [h0, Nat.zero_or, Nat.zero_add]

theorem direction_seq_testBit (p : Packet) :
    p.direction_seq.testBit 63 = decide (p.direction = Direction.TO_CLIENT) := by
  rw [direction_seq_eq]
  have hlt : p.seq % 2 ^ 63 < 2 ^ 63 := Nat.mod_lt _ (by norm_num)
  by_cases hd : p.direction = Direction.TO_CLIENT
  · rw [if_pos hd, Nat.testBit_two_pow_add_eq, Nat.testBit_lt_two_pow hlt]
    simp [hd]
  · rw [if_neg hd, Nat.zero_add, Nat.testBit_lt_two_pow hlt]
    simp [hd]

theorem direction_seq_mod (p : Packet) : p.direction_seq % 2 ^ 63 = p.seq % 2 ^ 63 := by
  rw [direction_seq_eq]
  by_cases hd : p.direction = Direction.TO_CLIENT
  · rw [if_pos hd, Nat.add_mod, Nat.mod_self, Nat.zero_add, Nat.mod_mod, Nat.mod_mod]
  · rw [if_neg hd, Nat.zero_add, Nat.mod_mod]

theorem decode_cleartext (p : Packet) (nonce : Nat) (session : Session) (coded : List Byte)
    (hdec : session.decrypt coded = some ⟨nonce, p.cleartext⟩)
    (h1 : p.timestamp < 65536) (h2 : p.timestamp_reply < 65536)
    (h3 : p.sock_id < 65536) (h4 : p.flags < 65536) :
    Packet.decode coded session =
      some { seq := nonce &&& SEQUENCE_MASK
             direction := if nonce &&& DIRECTION_MASK ≠ 0 then Direction.TO_CLIENT
                          else Direction.TO_SERVER
             timestamp := p.timestamp
             timestamp_reply := p.timestamp_reply
             sock_id := p.sock_id
             flags := p.flags
             payload := p.payload } := by
  obtain ⟨a1, b1, e1, v1⟩ := be16toh_htobe16 p.timestamp h1
  obtain ⟨a2, b2, e2, v2⟩ := be16toh_htobe16 p.timestamp_reply h2
  obtain ⟨a3, b3, e3, v3⟩ := be16toh_htobe16 p.sock_id h3
  obtain ⟨a4, b4, e4, v4⟩ := be16toh_htobe16 p.flags h4
  unfold Packet.decode
  rw [hdec]
  simp only [Packet.cleartext, e1, e2, e3, e4, List.cons_append, List.nil_append, v1, v2, v3, v4]

/-- C1 (codec round-trip). For every packet whose fields are in their ranges
(a 63-bit `seq`, 16-bit `timestamp`, `timestamp_reply`, `sock_id` and `flags`,
any direction and payload) and every session whose `decrypt` gives back the
nonce and text handed to `encrypt`, decoding `P.tostring session` yields `P`
itself, field for field. -/
theorem codec_roundtrip (session : Session) (P : Packet)
    (hsession : session.decrypt (session.encrypt ⟨P.direction_seq, P.cleartext⟩)
      = some ⟨P.direction_seq, P.cleartext⟩)
    (hseq : P.seq < 2 ^ 63) (hts : P.timestamp < 2 ^ 16)
    (htr : P.timestamp_reply < 2 ^ 16) (hid : P.sock_id < 2 ^ 16)
    (hfl : P.flags < 2 ^ 16) :
    Packet.decode (P.tostring session) session = some P := by
  have hd := decode_cleartext P P.direction_seq session (P.tostring session)
    hsession (by simpa using hts) (by simpa using htr) (by simpa using hid)
    (by simpa using hfl)
  rw [hd]
  have hs : P.direction_seq &&& SEQUENCE_MASK = P.seq := by
    rw [and_SEQUENCE_MASK, direction_seq_mod, Nat.mod_eq_of_lt hseq]
  have hdir : (if P.direction_seq &&& DIRECTION_MASK ≠ 0 then Direction.TO_CLIENT
      else Direction.TO_SERVER) = P.direction := by
    by_cases hc : P.direction = Direction.TO_CLIENT
    · rw [if_pos ((and_DIRECTION_MASK_ne_zero _).2 (by rw [direction_seq_testBit]; simp [hc]))]
      exact hc.symm
    · rw [if_neg (fun h => by
        have := (and_DIRECTION_MASK_ne_zero _).1 h
        rw [direction_seq_testBit] at this
        exact hc (by simpa using this))]
      cases hP : P.direction with
      | TO_SERVER => rfl
      | TO_CLIENT => exact absurd hP hc
  rw [hs, hdir]



/-- Witness of C1: a probe from the server, through the session that does not
encrypt. -/
theorem codec_roundtrip_witness :
    Packet.decode
        ((Packet.mk 5 Direction.TO_CLIENT 20000 65535 3 1 [7, 9]).tostring clearSession)
        clearSession
      = some (Packet.mk 5 Direction.TO_CLIENT 20000 65535 3 1 [7, 9]) :=
  codec_roundtrip clearSession (Packet.mk 5 Direction.TO_CLIENT 20000 65535 3 1 [7, 9])
    (by decide) (by decide) (by decide) (by decide) (by decide) (by decide)

/-! ### The port-range parser -/

theorem isDigit_iff (c : Char) : c.isDigit = true ↔ 48 ≤ c.toNat ∧ c.toNat ≤ 57 := by
  simp only [Char.isDigit, Char.toNat, Bool.and_eq_true, decide_eq_true_eq, ge_iff_le]
  rw [UInt32.le_def, UInt32.le_def]
  simp [UInt32.toNat, BitVec.le_def]

theorem isspace_of_isDigit (c : Char) (h : c.isDigit = true) : isspace c = false := by
  have h1 := (isDigit_iff c).1 h
  have hne : c ≠ ' ' := by
    intro hc
    subst hc
    exact absurd h (by decide)
  simp only [isspace, Bool.or_eq_false_iff, decide_eq_false_iff_not, Bool.and_eq_false_iff]
  exact ⟨hne, Or.inr (by omega)⟩

theorem ne_sign_of_isDigit (c : Char) (h : c.isDigit = true) : c ≠ '-' ∧ c ≠ '+' := by
  constructor <;> intro hc <;> subst hc <;> exact absurd h (by decide)

theorem digitChar_spec : ∀ k < 10,
    (Nat.digitChar k).isDigit = true ∧ (Nat.digitChar k).toNat - 48 = k := by
  decide

theorem digits_value_snoc (ds : List Char) (c : Char) :
    digits_value (ds ++ [c]) = digits_value ds * 10 + (c.toNat - 48) := by
  simp [digits_value, List.foldl_append]

/-- The decimal text of `n` is a non-empty run of digits whose value is `n`. -/
theorem toDigitsCore_spec : ∀ (fuel n : Nat) (acc : List Char), n < fuel →
    ∃ ds, Nat.toDigitsCore 10 fuel n acc = ds ++ acc ∧ ds ≠ [] ∧
      (∀ c ∈ ds, c.isDigit = true) ∧ digits_value ds = n := by
  intro fuel
  induction fuel with
  | zero => intro n acc h; exact absurd h (Nat.not_lt_zero n)
  | succ fuel ih =>
    intro n acc h
    have hd := digitChar_spec (n % 10) (Nat.mod_lt n (by norm_num))
    rw [Nat.toDigitsCore]
    by_cases h0 : n / 10 = 0
    · simp only [h0, if_true]
      refine ⟨[Nat.digitChar (n % 10)], rfl, by simp, ?_, ?_⟩
      · intro c hc
        rw [List.mem_singleton] at hc
        rw [hc]
        exact hd.1
      · simp only [digits_value, List.foldl_cons, List.foldl_nil, hd.2]
        omega
    · simp only [h0, if_false]
      obtain ⟨ds, he, _, hall, hv⟩ := ih (n / 10) (Nat.digitChar (n % 10) :: acc) (by omega)
      refine ⟨ds ++ [Nat.digitChar (n % 10)], ?_, by simp, ?_, ?_⟩
      · rw [he]
        simp
      · intro c hc
        rcases List.mem_append.1 hc with hc | hc
        · exact hall c hc
        · rw [List.mem_singleton] at hc
          rw [hc]
          exact hd.1
      · rw [digits_value_snoc, hv, hd.2]
        omega

theorem toDigits_spec (n : Nat) :
    Nat.toDigits 10 n ≠ [] ∧ (∀ c ∈ Nat.toDigits 10 n, c.isDigit = true) ∧
      digits_value (Nat.toDigits 10 n) = n := by
  obtain ⟨ds, he, hne, hall, hv⟩ := toDigitsCore_spec (n + 1) n [] (Nat.lt_succ_self n)
  rw [List.append_nil] at he
  rw [Nat.toDigits, he]
  exact ⟨hne, hall, hv⟩

theorem takeWhile_run (p : Char → Bool) (ds rest : List Char)
    (hds : ∀ c ∈ ds, p c = true) (hrest : rest = [] ∨ p (peek rest) = false) :
    (ds ++ rest).takeWhile p = ds ∧ (ds ++ rest).dropWhile p = rest := by
  induction ds with
  | nil =>
    rcases hrest with h | h
    · subst h
      simp
    · cases rest with
      | nil => simp
      | cons r rs =>
        simp only [peek, List.headD_cons] at h
        simp [List.takeWhile, List.dropWhile, h]
  | cons d ds ih =>
    have hd : p d = true := hds d (List.mem_cons_self d ds)
    have := ih (fun c hc => hds c (List.mem_cons_of_mem d hc))
    simp [List.takeWhile, List.dropWhile, hd, this]

/-- Value of `strtol` on a non-empty run of digits followed by something that is not a
digit: the value of the run, `end` right after it, `errno` untouched. -/
theorem strtol_digits (e : Int) (ds rest : List Char) (hne : ds ≠ [])
    (hds : ∀ c ∈ ds, c.isDigit = true)
    (hrest : rest = [] ∨ (peek rest).isDigit = false)
    (hv : (digits_value ds : Int) ≤ LONG_MAX) :
    strtol e (ds ++ rest) = ⟨(digits_value ds : Int), rest, 0⟩ := by
  cases ds with
  | nil => exact absurd rfl hne
  | cons d ds =>
    have hd : d.isDigit = true := hds d (List.mem_cons_self d ds)
    have hsp := isspace_of_isDigit d hd
    have hsg := ne_sign_of_isDigit d hd
    have htd := takeWhile_run Char.isDigit (d :: ds) rest hds hrest
    have hnonneg : (0 : Int) ≤ (digits_value (d :: ds) : Int) := Int.natCast_nonneg _
    have hmin : ¬ ((digits_value (d :: ds) : Int) < LONG_MIN) := by
      unfold LONG_MIN
      omega
    have hs1 : (d :: ds ++ rest).dropWhile isspace = d :: ds ++ rest := by
      simp [List.dropWhile, hsp]
    unfold strtol
    simp only [hs1]
    have hpk : peek (d :: ds ++ rest) = d := rfl
    simp only [hpk, hsg.1, hsg.2, or_self, if_false, decide_False, htd.1, htd.2,
      reduceCtorEq, Bool.false_eq_true, not_lt.2 hv, hmin]

/-- C4 (port-parser acceptance). For all `a ≤ b ≤ 65535`, whatever the C
library does with `errno` when nothing is converted, `parse_portrange` on the
decimal text `a:b` succeeds with `(a, b)` and on the decimal text `a` succeeds
with `(a, a)`. -/
theorem parse_portrange_accepts (noconv_errno : Int) (a b : Nat) (hab : a ≤ b)
    (hb : b ≤ 65535) :
    parse_portrange noconv_errno (Nat.toDigits 10 a ++ ':' :: Nat.toDigits 10 b)
        = some ((a : Int), (b : Int)) ∧
      parse_portrange noconv_errno (Nat.toDigits 10 a) = some ((a : Int), (a : Int)) := by
  obtain ⟨hane, haall, hav⟩ := toDigits_spec a
  obtain ⟨hbne, hball, hbv⟩ := toDigits_spec b
  have hmaxa : (digits_value (Nat.toDigits 10 a) : Int) ≤ LONG_MAX := by
    rw [hav]; unfold LONG_MAX; omega
  have hmaxb : (digits_value (Nat.toDigits 10 b) : Int) ≤ LONG_MAX := by
    rw [hbv]; unfold LONG_MAX; omega
  have hcolon : (peek (':' :: Nat.toDigits 10 b)).isDigit = false := by
    rw [peek, List.headD_cons]
    decide
  have h1 := strtol_digits noconv_errno (Nat.toDigits 10 a) (':' :: Nat.toDigits 10 b)
    hane haall (Or.inr hcolon) hmaxa
  have h2 := strtol_digits noconv_errno (Nat.toDigits 10 b) [] hbne hball (Or.inl rfl) hmaxb
  have h3 := strtol_digits noconv_errno (Nat.toDigits 10 a) [] hane haall (Or.inl rfl) hmaxa
  rw [List.append_nil] at h2 h3
  rw [hav] at h1 h3
  rw [hbv] at h2
  constructor
  · unfold parse_portrange
    simp only [h1, List.tail_cons, h2]
    have hp1 : peek (':' :: Nat.toDigits 10 b) = ':' := rfl
    have hp2 : peek ([] : List Char) = Char.ofNat 0 := rfl
    have hc : (':' : Char) ≠ Char.ofNat 0 := by decide
    simp only [hp1, hp2, hc]
    simp
    omega
  · unfold parse_portrange
    simp only [h3]
    have hp2 : peek ([] : List Char) = Char.ofNat 0 := rfl
    simp only [hp2]
    simp
    omega

/-- Witness of C4 at `a = 60001`, `b = 60999`. -/
theorem parse_portrange_accepts_witness :
    60001 ≤ 60999 ∧ 60999 ≤ 65535 ∧
      parse_portrange 0 (Nat.toDigits 10 60001 ++ ':' :: Nat.toDigits 10 60999)
        = some (((60001 : Nat) : Int), ((60999 : Nat) : Int)) ∧
      parse_portrange 0 (Nat.toDigits 10 60001) = some (((60001 : Nat) : Int), ((60001 : Nat) : Int)) :=
  ⟨by decide, by decide, parse_portrange_accepts 0 60001 60999 (by decide) (by decide)⟩


theorem peek_eq_nul (s : List Char) (hnul : Char.ofNat 0 ∉ s) (h : peek s = Char.ofNat 0) :
    s = [] := by
  cases s with
  | nil => rfl
  | cons c t =>
    rw [peek, List.headD_cons] at h
    exact absurd (h ▸ List.mem_cons_self c t) hnul

theorem peek_eq_cons (s : List Char) (c : Char) (hc : c ≠ Char.ofNat 0) (h : peek s = c) :
    s = c :: s.tail := by
  cases s with
  | nil => exact absurd h.symm hc
  | cons d t =>
    rw [peek, List.headD_cons] at h
    rw [h, List.tail_cons]

/-- What `strtol` returns: either nothing was converted, or the string splits
into white space, sign, digits and the rest at `end`, and the value is the
signed value of the digits unless `errno` is set. -/
theorem strtol_sound (e : Int) (s : List Char) :
    strtol e s = ⟨0, s, e⟩ ∨
      ∃ t, s = t ++ (strtol e s).endp ∧
        ((strtol e s).errno = 0 → IsNumeral t (strtol e s).value) := by
  have hws : ∀ c ∈ s.takeWhile isspace, isspace c = true := fun c hc =>
    (List.mem_takeWhile_imp hc)
  have hsplit1 : s = s.takeWhile isspace ++ s.dropWhile isspace :=
    (List.takeWhile_append_dropWhile isspace s).symm
  generalize hs1 : s.dropWhile isspace = s1 at hsplit1
  -- the sign
  have hsign : ∃ sg, (sg = [] ∨ sg = ['+'] ∨ sg = ['-']) ∧
      s1 = sg ++ (if peek s1 = '-' ∨ peek s1 = '+' then s1.tail else s1) ∧
      (sg = ['-'] ↔ peek s1 = '-') := by
    by_cases hm : peek s1 = '-'
    · refine ⟨['-'], Or.inr (Or.inr rfl), ?_, by simp [hm]⟩
      rw [if_pos (Or.inl hm)]
      exact peek_eq_cons s1 '-' (by decide) hm
    · by_cases hp : peek s1 = '+'
      · refine ⟨['+'], Or.inr (Or.inl rfl), ?_, ?_⟩
        · rw [if_pos (Or.inr hp)]
          exact peek_eq_cons s1 '+' (by decide) hp
        · simp [hm]
      · refine ⟨[], Or.inl rfl, ?_, by simp [hm]⟩
        rw [if_neg (by simp [hm, hp])]
        rfl
  obtain ⟨sg, hsg, hsplit2, hneg⟩ := hsign
  generalize hs2 : (if peek s1 = '-' ∨ peek s1 = '+' then s1.tail else s1) = s2 at hsplit2
  have hsplit3 : s2 = s2.takeWhile Char.isDigit ++ s2.dropWhile Char.isDigit :=
    (List.takeWhile_append_dropWhile Char.isDigit s2).symm
  have hds : ∀ c ∈ s2.takeWhile Char.isDigit, c.isDigit = true := fun c hc =>
    (List.mem_takeWhile_imp hc)
  have hunf : strtol e s =
      if s2.takeWhile Char.isDigit = [] then ⟨0, s, e⟩
      else
        if (if decide (peek s1 = '-') = true then -(digits_value (s2.takeWhile Char.isDigit) : Int)
            else (digits_value (s2.takeWhile Char.isDigit) : Int)) > LONG_MAX then
          ⟨LONG_MAX, s2.dropWhile Char.isDigit, ERANGE⟩
        else if (if decide (peek s1 = '-') = true then
              -(digits_value (s2.takeWhile Char.isDigit) : Int)
            else (digits_value (s2.takeWhile Char.isDigit) : Int)) < LONG_MIN then
          ⟨LONG_MIN, s2.dropWhile Char.isDigit, ERANGE⟩
        else ⟨(if decide (peek s1 = '-') = true then
              -(digits_value (s2.takeWhile Char.isDigit) : Int)
            else (digits_value (s2.takeWhile Char.isDigit) : Int)),
            s2.dropWhile Char.isDigit, 0⟩ := by
    unfold strtol
    simp only [hs1, hs2]
  by_cases hnil : s2.takeWhile Char.isDigit = []
  · left
    rw [hunf, if_pos hnil]
  · right
    have hend : (strtol e s).endp = s2.dropWhile Char.isDigit := by
      rw [hunf, if_neg hnil]
      split_ifs <;> rfl
    refine ⟨s.takeWhile isspace ++ sg ++ s2.takeWhile Char.isDigit, ?_, ?_⟩
    · rw [hend, List.append_assoc, List.append_assoc, ← hsplit3, ← hsplit2, ← hsplit1]
    · intro herr
      refine ⟨s.takeWhile isspace, sg, s2.takeWhile Char.isDigit, rfl, hws, hsg, hnil, hds, ?_⟩
      rw [hunf, if_neg hnil] at herr ⊢
      have hER : ERANGE ≠ 0 := by decide
      split_ifs at herr ⊢ with h1 h2 h3 h4 h5 h6 h7
      all_goals first
        | exact absurd herr hER
        | rfl
        | (exfalso; simp only [decide_eq_true_eq] at *; tauto)


theorem strtol_port_number (e : Int) (s : List Char) (herr : (strtol e s).errno = 0) :
    ∃ t, s = t ++ (strtol e s).endp ∧ IsPortNumber t (strtol e s).value := by
  rcases strtol_sound e s with h | ⟨t, hsplit, hnum⟩
  · refine ⟨[], ?_, Or.inr ⟨rfl, ?_⟩⟩
    · rw [h]
      rfl
    · rw [h]
  · exact ⟨t, hsplit, Or.inl (hnum herr)⟩

theorem parse_portrange_sound (e : Int) (s : List Char) (low high : Int)
    (hnul : Char.ofNat 0 ∉ s) (h : parse_portrange e s = some (low, high)) :
    PortSyntax s low high := by
  unfold parse_portrange at h
  simp only at h
  split_ifs at h with c1 c2 c3 c4 c5 c6
  · rw [not_or] at c1 c2
    obtain ⟨t, hsplit, hnum⟩ := strtol_port_number e s (not_not.1 c1.1)
    have hend : (strtol e s).endp = [] := by
      apply peek_eq_nul _ _ c3
      intro hmem
      exact hnul (hsplit ▸ List.mem_append_right t hmem)
    rw [hend, List.append_nil] at hsplit
    simp only [Option.some.injEq, Prod.mk.injEq] at h
    obtain ⟨hl, hh⟩ := h
    rw [← hsplit, hl] at hnum
    refine ⟨?_, ?_, ?_, Or.inl ⟨hnum, by rw [← hh, hl]⟩⟩ <;> omega
  · rw [not_or] at c1 c2 c4 c5
    obtain ⟨t1, hsplit1, hnum1⟩ := strtol_port_number e s (not_not.1 c1.1)
    have hcolon : peek (strtol e s).endp = ':' := by
      by_contra hne
      exact c1.2 ⟨c3, hne⟩
    have hend1 := peek_eq_cons _ ':' (by decide) hcolon
    obtain ⟨t2, hsplit2, hnum2⟩ :=
      strtol_port_number e (strtol e s).endp.tail (not_not.1 c4.1)
    have hs : s = t1 ++ ':' :: (strtol e s).endp.tail := by
      rw [← hend1]
      exact hsplit1
    have hend2 : (strtol e (strtol e s).endp.tail).endp = [] := by
      apply peek_eq_nul _ _ (not_not.1 c4.2)
      intro hmem
      apply hnul
      rw [hs]
      apply List.mem_append_right
      apply List.mem_cons_of_mem
      rw [hsplit2]
      exact List.mem_append_right t2 hmem
    rw [hend2, List.append_nil] at hsplit2
    simp only [Option.some.injEq, Prod.mk.injEq] at h
    obtain ⟨hl, hh⟩ := h
    rw [hl] at hnum1
    rw [hh, ← hsplit2] at hnum2
    refine ⟨?_, ?_, ?_, Or.inr ⟨t1, (strtol e s).endp.tail, hs, hnum1, hnum2⟩⟩ <;> omega

theorem IsNumeral_getLast (t : List Char) (v : Int) (h : IsNumeral t v) :
    ∃ c, t.getLast? = some c ∧ c.isDigit = true := by
  obtain ⟨ws, sg, ds, ht, _, _, hne, hds, _⟩ := h
  refine ⟨ds.getLast hne, ?_, hds _ (List.getLast_mem hne)⟩
  rw [ht, List.getLast?_append_of_ne_nil _ hne, List.getLast?_eq_getLast _ hne]

/-- C5, amended (port-parser rejection). On a C string (no NUL inside),
`parse_portrange` fails on every string that is not one port number or two
port numbers separated by a colon, where a port number is optional white
space, an optional sign and a non-empty run of decimal digits, or nothing at
all, each value lies in `[0, 65535]` and the first is not above the second. -/
theorem parse_portrange_rejects (noconv_errno : Int) (s : List Char)
    (hnul : Char.ofNat 0 ∉ s) (hform : ¬ ∃ low high, PortSyntax s low high) :
    parse_portrange noconv_errno s = none := by
  cases h : parse_portrange noconv_errno s with
  | none => rfl
  | some r =>
    exact absurd ⟨r.1, r.2, parse_portrange_sound noconv_errno s r.1 r.2 hnul h⟩ hform

/-- Witness of the amended C5: the string `x`. -/
theorem parse_portrange_rejects_witness :
    Char.ofNat 0 ∉ ['x'] ∧ (¬ ∃ low high, PortSyntax ['x'] low high) ∧
      parse_portrange 0 ['x'] = none :=
  have hnul : Char.ofNat 0 ∉ ['x'] := by decide
  have hform : ¬ ∃ low high, PortSyntax ['x'] low high := by
    rintro ⟨low, high, _, _, _, h⟩
    have hnum : ∀ v, ¬ IsPortNumber ['x'] v := by
      intro v hv
      rcases hv with hv | ⟨hv, _⟩
      · obtain ⟨c, hc, hd⟩ := IsNumeral_getLast _ _ hv
        simp only [List.getLast?_singleton, Option.some.injEq] at hc
        subst hc
        exact absurd hd (by decide)
      · exact absurd hv (by simp)
    rcases h with ⟨h, _⟩ | ⟨t1, t2, h, _, _⟩
    · exact hnum low h
    · have hmem : ':' ∈ ['x'] := by
        rw [h]
        exact List.mem_append_right t1 (List.mem_cons_self ':' t2)
      exact absurd hmem (by decide)
  ⟨hnul, hform, parse_portrange_rejects 0 ['x'] hnul hform⟩

/-- Counterexample to C5 as stated: leading white space and a sign are
accepted whatever the C library, and with a C library that leaves `errno`
alone when nothing is converted so are the empty string and a missing low
side of the colon. -/
theorem parse_portrange_rejects_counterexample :
    parse_portrange 0 [' ', '8', '0'] = some (80, 80) ∧
      parse_portrange EINVAL [' ', '8', '0'] = some (80, 80) ∧
      parse_portrange 0 ['+', '8', '0'] = some (80, 80) ∧
      parse_portrange EINVAL ['+', '8', '0'] = some (80, 80) ∧
      parse_portrange 0 [] = some (0, 0) ∧
      parse_portrange 0 [':', '5'] = some (0, 5) := by
  decide

/-! ### Pruning and port hopping -/

/-- For clock values as they occur (`last_port_choice ≤ now < 2 ^ 64`) the
`uint64_t` difference is the plain difference. -/
theorem u64_sub_eq (a b : Nat) (hba : b ≤ a) (ha : a < 2 ^ 64) : u64_sub a b = a - b := by
  unfold u64_sub
  have hb : b < 2 ^ 64 := Nat.lt_of_le_of_lt hba ha
  rw [Nat.mod_eq_of_lt ha, Nat.mod_eq_of_lt hb]
  omega

theorem u64_sub_self (a : Nat) : u64_sub a a = 0 := by
  unfold u64_sub
  have h : a % 2 ^ 64 < 2 ^ 64 := Nat.mod_lt _ (by norm_num)
  omega

theorem prune_sockets_socks (now : Nat) (c : Connection) :
    (prune_sockets now c).socks =
      if c.socks.length > 1 ∧ u64_sub now c.last_port_choice > MAX_OLD_SOCKET_AGE then
        c.socks.drop (c.socks.length - 1)
      else c.socks.drop (c.socks.length - min c.socks.length MAX_PORTS_OPEN) := by
  unfold prune_sockets MAX_PORTS_OPEN
  by_cases h1 : c.socks.length > 1
  · by_cases h2 : u64_sub now c.last_port_choice > MAX_OLD_SOCKET_AGE
    · have hlen : (c.socks.drop (c.socks.length - 1)).length = 1 := by
        rw [List.length_drop]
        omega
      simp only [h1, h2, if_true, and_self, hlen]
      rfl
    · simp only [h1, h2, if_true, if_false, and_false]
      by_cases h3 : c.socks.length > 10
      · simp only [h3, if_true]
        congr 2
        omega
      · simp only [h3, if_false]
        have : c.socks.length - min c.socks.length 10 = 0 := by omega
        rw [this, List.drop_zero]
  · simp only [h1, if_false, false_and]
    have : c.socks.length - min c.socks.length 10 = 0 := by omega
    rw [this, List.drop_zero]

theorem prune_sockets_eq (now : Nat) (c : Connection) :
    prune_sockets now c = { c with socks := (prune_sockets now c).socks } := by
  simp only [prune_sockets]
  split_ifs <;> rfl

theorem hop_port_eq (now : Nat) (c : Connection) (hs : c.server = false)
    (hl : c.remote_addr_len ≠ 0) :
    hop_port now c = some (prune_sockets now
      { c with last_port_choice := now
               heap := c.heap ++ [Socket.new c.next_sock_id]
               next_sock_id := (c.next_sock_id + 1) % 65536
               socks := c.socks ++ [c.heap.length] }) := by
  simp [hop_port, setup, hs, hl]

theorem hop_port_some (now : Nat) (c c1 : Connection) (h : hop_port now c = some c1) :
    c.server = false ∧ c.remote_addr_len ≠ 0 := by
  have hs : c.server = false := by
    cases hsv : c.server with
    | false => rfl
    | true => simp [hop_port, hsv] at h
  refine ⟨hs, ?_⟩
  intro h0
  simp [hop_port, setup, hs, h0] at h

/-- What `hop_port` leaves in `socks`: the old deque with the new socket
appended, cut down to its last `MAX_PORTS_OPEN` elements. -/
theorem hop_port_socks (now : Nat) (c c1 : Connection) (h : hop_port now c = some c1) :
    c1.socks = (c.socks ++ [c.heap.length]).drop
      ((c.socks ++ [c.heap.length]).length
        - min (c.socks ++ [c.heap.length]).length MAX_PORTS_OPEN) := by
  obtain ⟨hs, hl⟩ := hop_port_some now c c1 h
  rw [hop_port_eq now c hs hl, Option.some.injEq] at h
  rw [← h, prune_sockets_socks]
  simp only [u64_sub_self]
  rw [if_neg (by simp)]

theorem getLast?_drop_of_lt {α : Type} (l : List α) (k : Nat) (h : k < l.length) :
    (l.drop k).getLast? = l.getLast? := by
  have hsplit := List.take_append_drop k l
  have hne : l.drop k ≠ [] := by
    intro h0
    have := congrArg List.length h0
    rw [List.length_drop, List.length_nil] at this
    omega
  conv_rhs => rw [← hsplit]
  rw [List.getLast?_append_of_ne_nil _ hne]

/-- C10 (`prune_sockets` keeps the newest). For a non-empty `socks` of length
`n`: when `n > 1` and `now - last_port_choice > 60000` (the difference being
the `uint64_t` one) `prune_sockets` leaves exactly the last element; otherwise
it leaves the last `min n 10` elements, in their order. In both cases what is
left is a suffix of the old deque with the same last element, and no other
member of the connection changes. -/
theorem prune_sockets_keeps_newest (now : Nat) (c : Connection) (hne : c.socks ≠ []) :
    (prune_sockets now c).socks =
        (if c.socks.length > 1 ∧ u64_sub now c.last_port_choice > 60000 then
          [c.socks.getLast hne]
        else c.socks.drop (c.socks.length - min c.socks.length 10)) ∧
      (prune_sockets now c).socks <:+ c.socks ∧
      (prune_sockets now c).socks.getLast? = some (c.socks.getLast hne) ∧
      prune_sockets now c = { c with socks := (prune_sockets now c).socks } := by
  have hpos : 0 < c.socks.length := List.length_pos.2 hne
  have hs := prune_sockets_socks now c
  simp only [MAX_OLD_SOCKET_AGE, MAX_PORTS_OPEN] at hs
  have hlast : c.socks.drop (c.socks.length - 1) = [c.socks.getLast hne] := by
    have hsplit := List.dropLast_append_getLast hne
    have hlen : c.socks.dropLast.length = c.socks.length - 1 := List.length_dropLast _
    conv_lhs => rw [← hsplit, List.length_append, List.length_singleton, Nat.add_sub_cancel]
    exact List.drop_left' rfl
  refine ⟨?_, ?_, ?_, ?_⟩
  · rw [hs]
    split_ifs
    · exact hlast
    · rfl
  · rw [hs]
    split_ifs <;> exact List.drop_suffix _ _
  · rw [hs, ← List.getLast?_eq_getLast _ hne]
    split_ifs <;> exact getLast?_drop_of_lt _ _ (by omega)
  · exact prune_sockets_eq now c

/-- Witness of C10: eleven sockets, the last port choice 70 s old. -/
theorem prune_sockets_keeps_newest_witness :
    (prune_sockets 70000
        { Connection.client 0 [127, 0, 0, 1] 4 with socks := [0, 1, 2, 3, 4, 5, 6, 7, 8, 9, 10] }).socks
      = [10] := by
  have h := (prune_sockets_keeps_newest 70000
    { Connection.client 0 [127, 0, 0, 1] 4 with socks := [0, 1, 2, 3, 4, 5, 6, 7, 8, 9, 10] }
    (by decide)).1
  rw [h]
  decide

theorem hop_port_invariant (now : Nat) (c : Connection) (hs : c.server = false)
    (hl : c.remote_addr_len ≠ 0) (h10 : c.socks.length ≤ MAX_PORTS_OPEN) :
    ∃ c1, hop_port now c = some c1 ∧ c1.server = false ∧ c1.remote_addr_len ≠ 0 ∧
      1 ≤ c1.socks.length ∧ c1.socks.length ≤ MAX_PORTS_OPEN := by
  have he := hop_port_eq now c hs hl
  refine ⟨_, he, ?_, ?_, ?_⟩
  · rw [prune_sockets_eq]
    exact hs
  · rw [prune_sockets_eq]
    exact hl
  · rw [hop_port_socks now c _ he, List.length_drop, List.length_append, List.length_singleton]
    unfold MAX_PORTS_OPEN at *
    omega

theorem run_hop_port_invariant (session : Session) (nows : List Nat) :
    ∀ c : Connection, c.server = false → c.remote_addr_len ≠ 0 → 1 ≤ c.socks.length →
      c.socks.length ≤ MAX_PORTS_OPEN →
      ∃ c1, run session (nows.map Op.hop_port) c = some c1 ∧
        1 ≤ c1.socks.length ∧ c1.socks.length ≤ MAX_PORTS_OPEN := by
  induction nows with
  | nil =>
    intro c _ _ h1 h10
    exact ⟨c, rfl, h1, h10⟩
  | cons now rest ih =>
    intro c hs hl _ h10
    obtain ⟨c1, he, hs1, hl1, h1, h10'⟩ := hop_port_invariant now c hs hl h10
    obtain ⟨c2, hr, hb⟩ := ih c1 hs1 hl1 h1 h10'
    refine ⟨c2, ?_, hb⟩
    simp only [List.map_cons, run, step, he]
    exact hr

/-- C9 (socket cap). Starting from a freshly constructed client (whose peer
address has a non-zero length), every finite sequence of `hop_port` calls, at
any clock values, runs to the end without a failed `assert` and leaves
between 1 and `MAX_PORTS_OPEN = 10` sockets in `socks`. -/
theorem socket_cap (session : Session) (now0 : Nat) (addr : Addr) (addr_len : Nat)
    (nows : List Nat) (hlen : addr_len ≠ 0) :
    ∃ c, run session (nows.map Op.hop_port) (Connection.client now0 addr addr_len) = some c ∧
      1 ≤ c.socks.length ∧ c.socks.length ≤ 10 :=
  run_hop_port_invariant session nows (Connection.client now0 addr addr_len) rfl hlen
    (by simp [Connection.client, setup]) (by simp [Connection.client, setup, MAX_PORTS_OPEN])

/-- Witness of C9: twelve hops in a row. -/
theorem socket_cap_witness :
    ∃ c, run clearSession
        ([1, 2, 3, 4, 5, 6, 7, 8, 9, 10, 11, 12].map Op.hop_port)
        (Connection.client 0 [127, 0, 0, 1] 4) = some c ∧
      1 ≤ c.socks.length ∧ c.socks.length ≤ 10 :=
  socket_cap clearSession 0 [127, 0, 0, 1] 4 [1, 2, 3, 4, 5, 6, 7, 8, 9, 10, 11, 12] (by decide)

/-! ### The retransmission timeout -/

theorem update_rtt_bounds (R : Nat) (sk : Socket)
    (h : 0 ≤ sk.SRTT ∧ sk.SRTT ≤ 5000 ∧ 0 ≤ sk.RTTVAR ∧ sk.RTTVAR ≤ 5000) :
    0 ≤ (update_rtt (R : ℚ) sk).SRTT ∧ (update_rtt (R : ℚ) sk).SRTT ≤ 5000 ∧
      0 ≤ (update_rtt (R : ℚ) sk).RTTVAR ∧ (update_rtt (R : ℚ) sk).RTTVAR ≤ 5000 := by
  obtain ⟨h1, h2, h3, h4⟩ := h
  have hR : (0 : ℚ) ≤ (R : ℚ) := Nat.cast_nonneg R
  unfold update_rtt
  split_ifs with hlt hhit
  · simp only
    refine ⟨hR, le_of_lt hlt, ?_, ?_⟩ <;> linarith
  · simp only
    have habs1 : 0 ≤ |sk.SRTT - (R : ℚ)| := abs_nonneg _
    have habs2 : |sk.SRTT - (R : ℚ)| ≤ 5000 := abs_le.2 ⟨by linarith, by linarith⟩
    refine ⟨?_, ?_, ?_, ?_⟩ <;> linarith
  · exact ⟨h1, h2, h3, h4⟩

theorem after_samples_bounds (Rs : List Nat) : ∀ sk : Socket,
    (0 ≤ sk.SRTT ∧ sk.SRTT ≤ 5000 ∧ 0 ≤ sk.RTTVAR ∧ sk.RTTVAR ≤ 5000) →
    0 ≤ (after_samples sk Rs).SRTT ∧ (after_samples sk Rs).SRTT ≤ 5000 ∧
      0 ≤ (after_samples sk Rs).RTTVAR ∧ (after_samples sk Rs).RTTVAR ≤ 5000 := by
  induction Rs with
  | nil => intro sk h; exact h
  | cons R rest ih =>
    intro sk h
    exact ih (update_rtt (R : ℚ) sk) (update_rtt_bounds R sk h)

theorem Socket_new_bounds (id : Nat) :
    0 ≤ (Socket.new id).SRTT ∧ (Socket.new id).SRTT ≤ 5000 ∧
      0 ≤ (Socket.new id).RTTVAR ∧ (Socket.new id).RTTVAR ≤ 5000 := by
  simp only [Socket.new]
  norm_num

/-- C8 (RTO bounds). When the estimator of the active socket (the one `sock()`
returns) has been reached from the defaults `SRTT = 1000`, `RTTVAR = 500`
through any sequence of RTT samples, `timeout()` returns
`ceil( SRTT + 4 * RTTVAR )` clamped to `[50, 1000]`, and so
`MIN_RTO = 50 ≤ timeout() ≤ MAX_RTO = 1000`. -/
theorem timeout_bounds (c : Connection) (h : Nat) (sk : Socket) (id : Nat) (Rs : List Nat)
    (hsock : sock c = some h) (hsk : c.heap[h]? = some sk)
    (hsrtt : sk.SRTT = (after_samples (Socket.new id) Rs).SRTT)
    (hvar : sk.RTTVAR = (after_samples (Socket.new id) Rs).RTTVAR) :
    ∃ t, timeout c = some t ∧
      (t : Int) = max 50 (min 1000 ⌈sk.SRTT + 4 * sk.RTTVAR⌉) ∧ 50 ≤ t ∧ t ≤ 1000 := by
  obtain ⟨h1, h2, h3, h4⟩ := after_samples_bounds Rs (Socket.new id) (Socket_new_bounds id)
  rw [← hsrtt] at h1 h2
  rw [← hvar] at h3 h4
  have hlo : (0 : Int) ≤ ⌈sk.SRTT + 4 * sk.RTTVAR⌉ := Int.ceil_nonneg (by linarith)
  have hhi : ⌈sk.SRTT + 4 * sk.RTTVAR⌉ ≤ 25000 := by
    apply Int.ceil_le.2
    push_cast
    linarith
  unfold timeout
  simp only [hsock, hsk, MIN_RTO, MAX_RTO]
  generalize ⌈sk.SRTT + 4 * sk.RTTVAR⌉ = z at hlo hhi
  have hmod : z % 2 ^ 64 = z := Int.emod_eq_of_lt hlo (by omega)
  rw [hmod]
  split_ifs with c1 c2
  · exact ⟨50, rfl, by omega, by omega, by omega⟩
  · exact ⟨1000, rfl, by omega, by omega, by omega⟩
  · exact ⟨z.toNat, rfl, by omega, by omega, by omega⟩

/-- Witness of C8: a fresh client after the samples 40 and 60 on its socket. -/
theorem timeout_bounds_witness :
    ∃ t, timeout { Connection.client 0 [127, 0, 0, 1] 4 with
                   heap := [after_samples (Socket.new 0) [40, 60]] } = some t ∧
      (t : Int) = max 50 (min 1000 ⌈(after_samples (Socket.new 0) [40, 60]).SRTT
        + 4 * (after_samples (Socket.new 0) [40, 60]).RTTVAR⌉) ∧ 50 ≤ t ∧ t ≤ 1000 :=
  timeout_bounds
    { Connection.client 0 [127, 0, 0, 1] 4 with heap := [after_samples (Socket.new 0) [40, 60]] }
    0 (after_samples (Socket.new 0) [40, 60]) 0 [40, 60] rfl rfl rfl rfl

/-! ### The replay gate -/

theorem SeqMap_get_filter (m : SeqMap) (k k1 : Nat) (h : k ≠ k1) :
    SeqMap.get (m.filter (fun e => e.1 ≠ k)) k1 = SeqMap.get m k1 := by
  induction m with
  | nil => rfl
  | cons e rest ih =>
    obtain ⟨a, v⟩ := e
    by_cases ha : a = k
    · subst ha
      simp only [List.filter, ne_eq, not_true_eq_false, decide_False, SeqMap.get, if_neg h]
      exact ih
    · simp only [List.filter, ne_eq, ha, not_false_eq_true, decide_True, SeqMap.get]
      rw [ih]

theorem SeqMap_get_set (m : SeqMap) (k v k1 : Nat) :
    (m.set k v).get k1 = if k = k1 then v else m.get k1 := by
  unfold SeqMap.set
  by_cases h : k = k1
  · simp only [SeqMap.get, h, if_true]
  · simp only [SeqMap.get, h, if_false]
    exact SeqMap_get_filter m k k1 h

theorem decode_seq_lt (data : List Byte) (session : Session) (p : Packet)
    (h : Packet.decode data session = some p) : p.seq < 2 ^ 63 := by
  have hseq : ∃ nonce, p.seq = nonce &&& SEQUENCE_MASK := by
    unfold Packet.decode at h
    cases hd : session.decrypt data with
    | none => simp [hd] at h
    | some message =>
      simp only [hd] at h
      split at h
      · simp only [Option.some.injEq] at h
        exact ⟨message.nonce, by rw [← h]⟩
      · exact absurd h (by simp)
  obtain ⟨nonce, hn⟩ := hseq
  rw [hn, and_SEQUENCE_MASK]
  exact Nat.mod_lt _ (by norm_num)

theorem send_probe_frame (session : Session) (now sock : Nat) (addr : Addr) (addr_len : Nat)
    (c c1 : Connection) (h : send_probe session now sock addr addr_len c = some c1) :
    c1.expected_receiver_seq = c.expected_receiver_seq ∧ c1.socks = c.socks ∧
      c1.send_socket = c.send_socket ∧ c1.heap.length = c.heap.length := by
  unfold send_probe at h
  split at h
  · exact absurd h (by simp)
  · simp only [Option.some.injEq] at h
    rw [← h]
    simp

theorem hop_port_frame (now : Nat) (c c1 : Connection) (h : hop_port now c = some c1) :
    c1.expected_receiver_seq = c.expected_receiver_seq := by
  obtain ⟨hs, hl⟩ := hop_port_some now c c1 h
  rw [hop_port_eq now c hs hl, Option.some.injEq] at h
  rw [← h, prune_sockets_eq]

theorem send_frame (session : Session) (now : Nat) (os : SendtoResult) (s : List Byte)
    (c c1 : Connection) (h : send session now os s c = some c1) :
    c1.expected_receiver_seq = c.expected_receiver_seq := by
  unfold send at h
  split at h
  · simp only [Option.some.injEq] at h
    rw [h]
  · split at h
    · exact absurd h (by simp)
    · simp only at h
      split_ifs at h
      all_goals first
        | (simp only [Option.some.injEq] at h; rw [← h])
        | (rw [hop_port_frame _ _ _ h])

theorem send_probes_loop_frame (session : Session) (now : Nat) (l : List Nat) :
    ∀ c c1 : Connection, send_probes_loop session now l c = some c1 →
      c1.expected_receiver_seq = c.expected_receiver_seq := by
  induction l with
  | nil =>
    intro c c1 h
    simp only [send_probes_loop, Option.some.injEq] at h
    rw [h]
  | cons it rest ih =>
    intro c c1 h
    simp only [send_probes_loop] at h
    split_ifs at h
    · split at h
      · exact absurd h (by simp)
      · rename_i c2 hp
        rw [ih c2 c1 h, (send_probe_frame _ _ _ _ _ _ _ hp).1]
    · exact ih c c1 h

/-- An accepted packet moves the replay window of its `sock_id` to `seq + 1`
and leaves the other entries alone. -/
theorem recv_one_accepted_expected (session : Session) (now sock : Nat) (sk : Socket)
    (cong : Bool) (p : Packet) (addr : Addr) (namelen : Nat) (gni : Int) (c c1 : Connection)
    (h : (recv_one_accepted session now sock sk cong p addr namelen gni c).state = some c1) :
    c1.expected_receiver_seq = c.expected_receiver_seq.set p.sock_id ((p.seq + 1) % 2 ^ 64) := by
  unfold recv_one_accepted at h
  simp only at h
  split at h
  · exact absurd h (by simp [Outcome.state])
  · split_ifs at h
    all_goals first
      | (simp only [Outcome.state, Option.some.injEq] at h; rw [← h])
      | (split at h
         · exact absurd h (by simp [Outcome.state])
         · rename_i c3 hp
           simp only [Outcome.state, Option.some.injEq] at h
           rw [← h, (send_probe_frame _ _ _ _ _ _ _ hp).1])

/-- Unfolding of `recv_one` on a datagram that is not truncated and decodes to `p`: the
direction check, then the replay gate. -/
theorem recv_one_datagram (session : Session) (now sock : Nat) (nb : Bool) (errno : Int)
    (ecn : Option Nat) (data : List Byte) (addr : Addr) (namelen : Nat) (gni : Int)
    (c : Connection) (sk : Socket) (p : Packet)
    (hsk : c.heap[sock]? = some sk) (hdec : Packet.decode data session = some p) :
    recv_one session now sock nb (RecvMsg.datagram false errno ecn data addr namelen gni) c =
      if p.direction ≠ (if c.server then Direction.TO_SERVER else Direction.TO_CLIENT) then
        Outcome.throw c Exception.crypto
      else if p.seq ≥ c.expected_receiver_seq.get p.sock_id then
        recv_one_accepted session now sock sk
          (match ecn with
            | some o => decide (o &&& 0x03 = 0x03)
            | none => false) p addr namelen gni c
      else Outcome.ok c p.payload := by
  unfold recv_one
  simp only [hsk, hdec, Bool.false_eq_true, if_false]

/-- The replay window never moves backwards in `recv_one`. -/
theorem recv_one_expected_mono (session : Session) (now sock : Nat) (nb : Bool)
    (msg : RecvMsg) (c c1 : Connection)
    (h : (recv_one session now sock nb msg c).state = some c1) (k : Nat) :
    c.expected_receiver_seq.get k ≤ c1.expected_receiver_seq.get k := by
  cases hsk : c.heap[sock]? with
  | none =>
    simp only [recv_one, hsk, Outcome.state] at h
    exact absurd h (by simp)
  | some sk =>
    cases msg with
    | failed errno =>
      simp only [recv_one, hsk, Outcome.state, Option.some.injEq] at h
      rw [h]
    | datagram trunc errno ecn data addr namelen gni =>
      cases trunc with
      | true =>
        simp only [recv_one, hsk, if_true, Outcome.state, Option.some.injEq] at h
        rw [h]
      | false =>
        cases hdec : Packet.decode data session with
        | none =>
          simp only [recv_one, hsk, hdec, Bool.false_eq_true, if_false, Outcome.state,
            Option.some.injEq] at h
          rw [h]
        | some p =>
          rw [recv_one_datagram session now sock nb errno ecn data addr namelen gni c sk p
            hsk hdec] at h
          by_cases hdir : p.direction ≠
              (if c.server then Direction.TO_SERVER else Direction.TO_CLIENT)
          · rw [if_pos hdir] at h
            simp only [Outcome.state, Option.some.injEq] at h
            rw [h]
          · rw [if_neg hdir] at h
            by_cases hgate : p.seq ≥ c.expected_receiver_seq.get p.sock_id
            · rw [if_pos hgate] at h
              rw [recv_one_accepted_expected _ _ _ _ _ _ _ _ _ _ _ h, SeqMap_get_set]
              split_ifs with hk
              · subst hk
                have hlt := decode_seq_lt _ _ _ hdec
                have : (p.seq + 1) % 2 ^ 64 = p.seq + 1 := Nat.mod_eq_of_lt (by omega)
                omega
              · exact Nat.le_refl _
            · rw [if_neg hgate] at h
              simp only [Outcome.state, Option.some.injEq] at h
              rw [h]

theorem recv_loop_expected_mono (session : Session) (now : Nat) (rx : Nat → RecvMsg)
    (l : List Nat) : ∀ c c1 : Connection, (recv_loop session now rx l c).state = some c1 →
      ∀ k, c.expected_receiver_seq.get k ≤ c1.expected_receiver_seq.get k := by
  induction l with
  | nil =>
    intro c c1 h
    exact absurd h (by simp [recv_loop, Outcome.state])
  | cons it rest ih =>
    intro c c1 h k
    simp only [recv_loop] at h
    split at h
    · rename_i c2 payload hr
      simp only [Outcome.state, Option.some.injEq] at h
      have h2 := recv_one_expected_mono session now it _ (rx it) c c2
        (by rw [hr]; rfl) k
      rw [← h, prune_sockets_eq]
      exact h2
    · rename_i c2 function the_errno hr
      have h2 := recv_one_expected_mono session now it _ (rx it) c c2
        (by rw [hr]; rfl) k
      split_ifs at h
      · exact absurd h (by simp [Outcome.state])
      · exact Nat.le_trans h2 (ih c2 c1 h k)
      · simp only [Outcome.state, Option.some.injEq] at h
        rw [← h]
        exact h2
    · rename_i c2 hr
      have h2 := recv_one_expected_mono session now it _ (rx it) c c2
        (by rw [hr]; rfl) k
      simp only [Outcome.state, Option.some.injEq] at h
      rw [← h]
      exact h2
    · exact absurd h (by simp [Outcome.state])

theorem step_expected_mono (session : Session) (op : Op) (c c1 : Connection)
    (h : step session op c = some c1) (k : Nat) :
    c.expected_receiver_seq.get k ≤ c1.expected_receiver_seq.get k := by
  cases op with
  | send now os s => rw [send_frame session now os s c c1 h]
  | send_probes now => rw [send_probes_loop_frame session now c.socks c c1 h]
  | recv now rx =>
    simp only [step, recv] at h
    split_ifs at h
    · exact absurd h (by simp [Outcome.state])
    · exact recv_loop_expected_mono session now rx c.socks c c1 h k
  | recv_one now sock nb msg => exact recv_one_expected_mono session now sock nb msg c c1 h k
  | hop_port now => rw [hop_port_frame now c c1 h]
  | prune_sockets now =>
    simp only [step, Option.some.injEq] at h
    rw [← h, prune_sockets_eq]
  | set_last_roundtrip_success v =>
    simp only [step, Option.some.injEq] at h
    rw [← h]
    rfl

theorem run_expected_mono (session : Session) (ops : List Op) :
    ∀ c c1 : Connection, run session ops c = some c1 →
      ∀ k, c.expected_receiver_seq.get k ≤ c1.expected_receiver_seq.get k := by
  induction ops with
  | nil =>
    intro c c1 h k
    simp only [run, Option.some.injEq] at h
    rw [h]
  | cons op rest ih =>
    intro c c1 h k
    simp only [run] at h
    split at h
    · exact absurd h (by simp)
    · rename_i c2 hs
      exact Nat.le_trans (step_expected_mono session op c c2 hs k) (ih c2 c1 h k)

/-- C3 (replay protection). Let `recv_one` have taken a datagram with
`(sock_id, seq) = (s, n)` through the replay gate, and let any sequence of
calls (`send`, `send_probes`, `recv`, `recv_one`, `hop_port`, `prune_sockets`,
`set_last_roundtrip_success`) follow. Then `recv_one` on a datagram of the
peer that decodes to `sock_id = s` and a `seq ≤ n` returns that datagram's
payload and leaves the whole connection as it was: `saved_timestamp` and
`saved_timestamp_received_at` of every socket, `last_heard`, `remote_addr`,
`send_socket`, the RTT estimators and `expected_receiver_seq`. -/
theorem replay_protection (session : Session) (c0 c1 c2 : Connection)
    (now0 sock0 : Nat) (nb0 : Bool) (errno0 : Int) (ecn0 : Option Nat) (data0 : List Byte)
    (addr0 : Addr) (namelen0 : Nat) (gni0 : Int) (p0 : Packet)
    (hdec0 : Packet.decode data0 session = some p0)
    (hdir0 : p0.direction = if c0.server then Direction.TO_SERVER else Direction.TO_CLIENT)
    (hgate0 : p0.seq ≥ c0.expected_receiver_seq.get p0.sock_id)
    (hrecv0 : (recv_one session now0 sock0 nb0
      (RecvMsg.datagram false errno0 ecn0 data0 addr0 namelen0 gni0) c0).state = some c1)
    (ops : List Op) (hrun : run session ops c1 = some c2)
    (now sock : Nat) (nb : Bool) (errno : Int) (ecn : Option Nat) (data : List Byte)
    (addr : Addr) (namelen : Nat) (gni : Int) (p : Packet)
    (hsock : sock < c2.heap.length)
    (hdec : Packet.decode data session = some p)
    (hdir : p.direction = if c2.server then Direction.TO_SERVER else Direction.TO_CLIENT)
    (hid : p.sock_id = p0.sock_id) (hseq : p.seq ≤ p0.seq) :
    recv_one session now sock nb (RecvMsg.datagram false errno ecn data addr namelen gni) c2
      = Outcome.ok c2 p.payload := by
  -- the window after the first datagram
  have hwin1 : c1.expected_receiver_seq.get p0.sock_id = p0.seq + 1 := by
    have hlt := decode_seq_lt _ _ _ hdec0
    cases hsk0 : c0.heap[sock0]? with
    | none =>
      simp only [recv_one, hsk0, Outcome.state] at hrecv0
      exact absurd hrecv0 (by simp)
    | some sk0 =>
      rw [recv_one_datagram session now0 sock0 nb0 errno0 ecn0 data0 addr0 namelen0 gni0 c0
        sk0 p0 hsk0 hdec0, if_neg (not_not.2 hdir0), if_pos hgate0] at hrecv0
      rw [recv_one_accepted_expected _ _ _ _ _ _ _ _ _ _ _ hrecv0, SeqMap_get_set, if_pos rfl]
      exact Nat.mod_eq_of_lt (by omega)
  have hwin2 := run_expected_mono session ops c1 c2 hrun p0.sock_id
  have hgate : ¬ p.seq ≥ c2.expected_receiver_seq.get p.sock_id := by
    rw [hid]
    omega
  have hheap : c2.heap[sock]? = some (c2.heap[sock]) := List.getElem?_eq_getElem hsock
  rw [recv_one_datagram session now sock nb errno ecn data addr namelen gni c2 _ p hheap hdec,
    if_neg (not_not.2 hdir), if_neg hgate]

/-- Witness of C3: the client accepts `seq = 5`, sends, and is then handed a
datagram with `seq = 3` on the same `sock_id`. -/
theorem replay_protection_witness :
    recv_one clearSession 2000 0 false (example_datagram 3 43) example_client_replied
      = Outcome.ok example_client_replied [43] :=
  replay_protection clearSession example_client example_client_heard example_client_replied
    500 0 false 0 none [128, 0, 0, 0, 0, 0, 0, 5, 0, 7, 255, 255, 0, 0, 0, 0, 42]
    [127, 0, 0, 1] 4 0 ⟨5, Direction.TO_CLIENT, 7, 65535, 0, 0, [42]⟩
    (by decide) (by decide) (by decide) (by rfl)
    [Op.send 1000 ⟨17, 0⟩ [1]] (by rfl)
    2000 0 false 0 none [128, 0, 0, 0, 0, 0, 0, 3, 0, 7, 255, 255, 0, 0, 0, 0, 43]
    [127, 0, 0, 1] 4 0 ⟨3, Direction.TO_CLIENT, 7, 65535, 0, 0, [43]⟩
    (by decide) (by decide) (by decide) (by decide) (by decide)

/-! ### Port hopping and the sending socket -/

/-- Frame of `hop_port`: it never assigns `send_socket`: after it the sending socket is the
one it was before, while the newly created socket is the last of `socks`. -/
theorem hop_port_send_socket (now : Nat) (c c1 : Connection) (h : hop_port now c = some c1) :
    c1.send_socket = c.send_socket ∧ c1.socks.getLast? = some c.heap.length ∧
      c1.heap = c.heap ++ [Socket.new c.next_sock_id] ∧ c1.last_port_choice = now := by
  obtain ⟨hs, hl⟩ := hop_port_some now c c1 h
  have hsocks := hop_port_socks now c c1 h
  rw [hop_port_eq now c hs hl, Option.some.injEq] at h
  refine ⟨?_, ?_, ?_, ?_⟩
  · rw [← h, prune_sockets_eq]
  · rw [hsocks, getLast?_drop_of_lt _ _ (by
      rw [List.length_append, List.length_singleton]; unfold MAX_PORTS_OPEN; omega)]
    simp
  · rw [← h, prune_sockets_eq]
  · rw [← h, prune_sockets_eq]

/-- C7, the code at a failing input: `hop_port` at clock value 20000 on a fresh
client. The new socket (index 1, `sock_id` 1, `next_seq` 0) is the last of
`socks` and `last_port_choice` is 20000, but `send_socket` is still the first
socket, index 0. -/
theorem hop_port_does_not_activate :
    (hop_port 20000 example_client).map
        (fun c => (c.socks, c.heap.map (fun sk => (sk.sock_id, sk.next_seq)),
          c.last_port_choice, c.send_socket))
      = some ([0, 1], [(0, 0), (1, 0)], 20000, some 0) := by
  decide

/-- C6, the code at a failing input: a fresh client sends at clock value 20000
(which hops to a second socket) and receives a datagram at clock value 90000
(which prunes). Afterwards `socks` holds only the second socket, while
`send_socket` is still the first one, which is no longer in `socks`. -/
theorem send_socket_outside_socks :
    (run clearSession
        [Op.send 20000 ⟨17, 0⟩ [1], Op.recv 90000 (fun _ => example_datagram 0 42)]
        example_client).map (fun c => (c.socks, c.send_socket, decide (0 ∈ c.socks)))
      = some ([1], some 0, false) := by
  decide

/-- C2, the code at a failing input: a fresh client sends at clock value 20000
(which hops to a second socket) and then calls `send_probes`. The data packet
left on the first socket and the probe on the second one; both carry
`seq = 0`, so the two different packets are encrypted under the same nonce 0. -/
theorem nonce_reused_across_sockets :
    (run clearSession [Op.send 20000 ⟨17, 0⟩ [1], Op.send_probes 20001] example_client).map
        (fun c => c.wire.map
          (fun d => (d.sock, d.packet.sock_id, d.packet.flags, d.packet.seq,
            d.packet.direction_seq)))
      = some [(0, 0, 0, 0, 0), (1, 1, 1, 0, 0)] := by
  decide

/-! ### The packet codec, field by field -/

theorem be16toh_lt (hi lo : Byte) : be16toh hi lo < 65536 := by
  have h1 := hi.isLt
  have h2 := lo.isLt
  unfold be16toh
  omega

/-- What a successful decoding says about the decrypted message. -/
theorem decode_some (coded : List Byte) (session : Session) (p : Packet)
    (h : Packet.decode coded session = some p) :
    ∃ m d0 d1 d2 d3 d4 d5 d6 d7, session.decrypt coded = some m ∧
      m.text = d0 :: d1 :: d2 :: d3 :: d4 :: d5 :: d6 :: d7 :: p.payload ∧
      p.seq = m.nonce &&& SEQUENCE_MASK ∧
      p.direction = (if m.nonce &&& DIRECTION_MASK ≠ 0 then Direction.TO_CLIENT
        else Direction.TO_SERVER) ∧
      p.timestamp = be16toh d0 d1 ∧ p.timestamp_reply = be16toh d2 d3 ∧
      p.sock_id = be16toh d4 d5 ∧ p.flags = be16toh d6 d7 := by
  unfold Packet.decode at h
  cases hd : session.decrypt coded with
  | none => simp [hd] at h
  | some m =>
    simp only [hd] at h
    split at h
    · rename_i d0 d1 d2 d3 d4 d5 d6 d7 rest htext
      simp only [Option.some.injEq] at h
      refine ⟨m, d0, d1, d2, d3, d4, d5, d6, d7, rfl, ?_, ?_, ?_, ?_, ?_, ?_, ?_⟩
      all_goals rw [← h]
      exact htext
    · exact absurd h (by simp)

theorem decode_fields_lt (coded : List Byte) (session : Session) (p : Packet)
    (h : Packet.decode coded session = some p) :
    p.timestamp < 65536 ∧ p.timestamp_reply < 65536 ∧ p.sock_id < 65536 ∧ p.flags < 65536 := by
  obtain ⟨m, d0, d1, d2, d3, d4, d5, d6, d7, _, _, _, _, h1, h2, h3, h4⟩ := decode_some _ _ _ h
  rw [h1, h2, h3, h4]
  exact ⟨be16toh_lt _ _, be16toh_lt _ _, be16toh_lt _ _, be16toh_lt _ _⟩

theorem decode_none_iff (coded : List Byte) (session : Session) (m : Message)
    (hdec : session.decrypt coded = some m) :
    Packet.decode coded session = none ↔ m.text.length < 8 := by
  unfold Packet.decode
  simp only [hdec]
  rcases hm : m.text with _ | ⟨d0, _ | ⟨d1, _ | ⟨d2, _ | ⟨d3, _ | ⟨d4, _ | ⟨d5, _ | ⟨d6, _ | ⟨d7, rest⟩⟩⟩⟩⟩⟩⟩⟩
  all_goals simp

/-- C19 (encode layout). For every packet, `tostring` hands to the session the
nonce `(2 ^ 63 if direction = TO_CLIENT else 0) OR (seq AND (2 ^ 63 - 1))`,
which is that direction bit plus `seq mod 2 ^ 63`, and a text whose first
eight octets are the big-endian 16-bit encodings of `timestamp`,
`timestamp_reply`, `sock_id` and `flags`, in that order, followed by the
payload unchanged; the text has `8 + |payload|` octets. -/
theorem encode_layout (P : Packet) (session : Session) :
    P.tostring session = session.encrypt ⟨P.direction_seq, P.cleartext⟩ ∧
      P.direction_seq =
        (if P.direction = Direction.TO_CLIENT then 2 ^ 63 else 0) ||| (P.seq &&& (2 ^ 63 - 1)) ∧
      P.direction_seq =
        (if P.direction = Direction.TO_CLIENT then 2 ^ 63 else 0) + P.seq % 2 ^ 63 ∧
      P.cleartext.map Fin.val =
        [P.timestamp / 256 % 256, P.timestamp % 256,
         P.timestamp_reply / 256 % 256, P.timestamp_reply % 256,
         P.sock_id / 256 % 256, P.sock_id % 256,
         P.flags / 256 % 256, P.flags % 256] ++ P.payload.map Fin.val ∧
      P.cleartext.drop 8 = P.payload ∧
      P.cleartext.length = 8 + P.payload.length := by
  refine ⟨rfl, ?_, direction_seq_eq P, ?_, ?_, ?_⟩
  · unfold Packet.direction_seq
    rw [SEQUENCE_MASK_eq]
    by_cases hd : P.direction = Direction.TO_CLIENT
    · rw [if_pos hd, if_pos hd]
      rfl
    · rw [if_neg hd, if_neg hd]
      rfl
  · simp [Packet.cleartext, htobe16, Fin.ofNat]
  · simp [Packet.cleartext, htobe16]
  · simp [Packet.cleartext, htobe16]
    omega

/-- C20 (decode rejection). When the session decrypts the coded string to the
message `m`, the decoding constructor fails exactly when the text of `m` is
shorter than 8 octets. When it succeeds, `direction` is `TO_CLIENT` exactly
when bit 63 of the nonce is set, `seq` is the low 63 bits of the nonce, the
four header fields are the big-endian 16-bit values at octets 0, 2, 4 and 6,
and the payload is the text from octet 8 to the end. -/
theorem decode_rejection (session : Session) (coded : List Byte) (m : Message)
    (hdec : session.decrypt coded = some m) :
    (Packet.decode coded session = none ↔ m.text.length < 8) ∧
      ∀ p, Packet.decode coded session = some p →
        (p.direction = Direction.TO_CLIENT ↔ m.nonce.testBit 63 = true) ∧
        p.seq = m.nonce % 2 ^ 63 ∧
        (∃ d0 d1 d2 d3 d4 d5 d6 d7,
          m.text = d0 :: d1 :: d2 :: d3 :: d4 :: d5 :: d6 :: d7 :: p.payload ∧
          p.timestamp = d0.val * 256 + d1.val ∧ p.timestamp_reply = d2.val * 256 + d3.val ∧
          p.sock_id = d4.val * 256 + d5.val ∧ p.flags = d6.val * 256 + d7.val) ∧
        p.payload = m.text.drop 8 := by
  refine ⟨decode_none_iff coded session m hdec, ?_⟩
  intro p hp
  obtain ⟨m1, d0, d1, d2, d3, d4, d5, d6, d7, hm1, htext, hseq, hdir, h1, h2, h3, h4⟩ :=
    decode_some _ _ _ hp
  rw [hdec, Option.some.injEq] at hm1
  subst hm1
  refine ⟨?_, ?_, ⟨d0, d1, d2, d3, d4, d5, d6, d7, htext, h1, h2, h3, h4⟩, ?_⟩
  · rw [hdir, ← and_DIRECTION_MASK_ne_zero]
    split_ifs with hb
    · simp [hb]
    · simp [hb]
  · rw [hseq, and_SEQUENCE_MASK]
  · rw [htext]
    rfl

/-- Witness of C20: a datagram of sixteen octets through the session that does
not encrypt. -/
theorem decode_rejection_witness :
    (Packet.decode [128, 0, 0, 0, 0, 0, 0, 5, 0, 7, 255, 255, 0, 0, 0, 1] clearSession = none ↔
        (Message.mk (2 ^ 63 + 5) [0, 7, 255, 255, 0, 0, 0, 1]).text.length < 8) ∧
      Packet.decode [128, 0, 0, 0, 0, 0, 0, 5, 0, 7, 255, 255, 0, 0, 0, 1] clearSession
        = some ⟨5, Direction.TO_CLIENT, 7, 65535, 0, 1, []⟩ :=
  ⟨(decode_rejection clearSession [128, 0, 0, 0, 0, 0, 0, 5, 0, 7, 255, 255, 0, 0, 0, 1]
      ⟨2 ^ 63 + 5, [0, 7, 255, 255, 0, 0, 0, 1]⟩ (by decide)).1, by decide⟩

/-! ### The echoed timestamp -/

theorem u64_sub_zero (a : Nat) (ha : a < 2 ^ 64) : u64_sub a 0 = a := by
  unfold u64_sub
  rw [Nat.mod_eq_of_lt ha]
  omega

/-- The reply `new_packet` emits and the slot it leaves, in both cases of its
test. -/
theorem new_packet_reply (direction : Direction) (now : Nat) (sk : Socket) (flags : Nat)
    (payload : List Byte) :
    (u64_sub now sk.saved_timestamp_received_at < 1000 →
      (new_packet direction now sk flags payload).2.timestamp_reply
          = (sk.saved_timestamp + u64_sub now sk.saved_timestamp_received_at) % 65536 ∧
        (new_packet direction now sk flags payload).1.saved_timestamp = 65535 ∧
        (new_packet direction now sk flags payload).1.saved_timestamp_received_at = 0) ∧
      (¬ u64_sub now sk.saved_timestamp_received_at < 1000 →
        (new_packet direction now sk flags payload).2.timestamp_reply = 65535 ∧
        (new_packet direction now sk flags payload).1.saved_timestamp = sk.saved_timestamp ∧
        (new_packet direction now sk flags payload).1.saved_timestamp_received_at
          = sk.saved_timestamp_received_at) := by
  constructor
  · intro h
    simp [new_packet, h]
  · intro h
    simp [new_packet, h]

/-- C12 (echo computation). For every socket whose stored sample is less than
1000 ms old (`now - saved_timestamp_received_at < 1000` in `uint64_t`),
whatever `saved_timestamp` is, `new_packet` produces
`timestamp_reply = (saved_timestamp + (now - saved_timestamp_received_at)) mod 65536`,
gives the packet the old `next_seq` as `seq`, increments `next_seq` by one
(in `uint64_t`) and leaves `saved_timestamp = 0xFFFF`. -/
theorem echo_computation (direction : Direction) (now : Nat) (sk : Socket) (flags : Nat)
    (payload : List Byte) (hrecent : u64_sub now sk.saved_timestamp_received_at < 1000) :
    (new_packet direction now sk flags payload).2.timestamp_reply
        = (sk.saved_timestamp + u64_sub now sk.saved_timestamp_received_at) % 65536 ∧
      (new_packet direction now sk flags payload).2.seq = sk.next_seq ∧
      (new_packet direction now sk flags payload).1.next_seq = (sk.next_seq + 1) % 2 ^ 64 ∧
      (sk.next_seq + 1 < 2 ^ 64 →
        (new_packet direction now sk flags payload).1.next_seq = sk.next_seq + 1) ∧
      (new_packet direction now sk flags payload).1.saved_timestamp = 65535 := by
  have h := (new_packet_reply direction now sk flags payload).1 hrecent
  refine ⟨h.1, ?_, ?_, ?_, h.2.1⟩
  · simp [new_packet, hrecent]
  · simp [new_packet, hrecent]
  · intro hlt
    simp only [new_packet, hrecent, if_true]
    exact Nat.mod_eq_of_lt hlt

/-- Witness of C12: a sample `40000` stored at clock value 70000, echoed at
clock value 70250. -/
theorem echo_computation_witness :
    (new_packet Direction.TO_SERVER 70250
        { Socket.new 0 with saved_timestamp := 40000, saved_timestamp_received_at := 70000 }
        0 []).2.timestamp_reply = 40250 := by
  have h := (echo_computation Direction.TO_SERVER 70250
    { Socket.new 0 with saved_timestamp := 40000, saved_timestamp_received_at := 70000 }
    0 [] (by decide)).1
  rw [h]
  decide

/-- C11, amended (saved-timestamp freshness). A `timestamp_reply` other than
`0xFFFF` is emitted only when `now - saved_timestamp_received_at < 1000`
(in `uint64_t`), whatever `saved_timestamp` is. It clears the slot, so at
every clock value `1000 ≤ now2 < 2 ^ 64` the next `new_packet` on that socket,
with no datagram accepted in between, carries `0xFFFF`, and so does
`new_packet` on a socket that has never stored a sample. -/
theorem saved_timestamp_freshness (direction : Direction) (now now2 : Nat) (sk : Socket)
    (flags flags2 : Nat) (payload payload2 : List Byte) (id : Nat)
    (hlo : 1000 ≤ now2) (hhi : now2 < 2 ^ 64) :
    ((new_packet direction now sk flags payload).2.timestamp_reply ≠ 65535 →
        u64_sub now sk.saved_timestamp_received_at < 1000) ∧
      (u64_sub now sk.saved_timestamp_received_at < 1000 →
        (new_packet direction now2 (new_packet direction now sk flags payload).1
          flags2 payload2).2.timestamp_reply = 65535) ∧
      (new_packet direction now2 (Socket.new id) flags2 payload2).2.timestamp_reply = 65535 := by
  have hz : ¬ u64_sub now2 0 < 1000 := by
    rw [u64_sub_zero now2 hhi]
    omega
  refine ⟨?_, ?_, ?_⟩
  · intro hne
    by_contra hold
    exact hne ((new_packet_reply direction now sk flags payload).2 hold).1
  · intro hrecent
    have h0 := ((new_packet_reply direction now sk flags payload).1 hrecent).2.2
    apply ((new_packet_reply direction now2 _ flags2 payload2).2 ?_).1
    rw [h0]
    exact hz
  · exact ((new_packet_reply direction now2 (Socket.new id) flags2 payload2).2 hz).1

/-- Witness of the amended C11: an echo at clock value 70250, the next packet
at clock value 70300. -/
theorem saved_timestamp_freshness_witness :
    (new_packet Direction.TO_SERVER 70300 (new_packet Direction.TO_SERVER 70250
        { Socket.new 0 with saved_timestamp := 40000, saved_timestamp_received_at := 70000 }
        0 []).1 0 []).2.timestamp_reply = 65535 :=
  (saved_timestamp_freshness Direction.TO_SERVER 70250 70300
    { Socket.new 0 with saved_timestamp := 40000, saved_timestamp_received_at := 70000 }
    0 0 [] [] 0 (by decide) (by decide)).2.1 (by decide)

/-- Counterexample to C11 as stated. On a socket that has never stored a
sample, `new_packet` at clock value 500 emits `timestamp_reply = 499`. And a
client that accepts, at clock value 70000 with congestion signalled, a
datagram with timestamp 499 stores `saved_timestamp = 0xFFFF`; the packet it
sends at clock value 70010 carries `timestamp_reply = 9`. -/
theorem saved_timestamp_freshness_counterexample :
    (new_packet Direction.TO_SERVER 500 (Socket.new 0) 0 []).2.timestamp_reply = 499 ∧
      (run clearSession
          [Op.recv_one 70000 0 false (RecvMsg.datagram false 0 (some 3)
            [128, 0, 0, 0, 0, 0, 0, 0, 1, 243, 255, 255, 0, 0, 0, 0, 42] [127, 0, 0, 1] 4 0)]
          example_client).map
          (fun c => c.heap.map (fun sk => (sk.saved_timestamp, sk.saved_timestamp_received_at)))
        = some [(65535, 70000)] ∧
      (run clearSession
          [Op.recv_one 70000 0 false (RecvMsg.datagram false 0 (some 3)
            [128, 0, 0, 0, 0, 0, 0, 0, 1, 243, 255, 255, 0, 0, 0, 0, 42] [127, 0, 0, 1] 4 0),
           Op.send 70010 ⟨17, 0⟩ [1]]
          example_client).map (fun c => c.wire.map (fun d => d.packet.timestamp_reply))
        = some [9] := by
  decide

/-! ### The accepted path of `recv_one` -/

theorem timestamp16_lt (now : Nat) : timestamp16 now < 65536 := by
  unfold timestamp16
  simp only
  split_ifs <;> omega

theorem timestamp_diff_eq (tsnew tsold : Nat) (hnew : tsnew < 65536) (hold : tsold < 65536) :
    timestamp_diff tsnew tsold = some ((tsnew + 65536 - tsold) % 65536) := by
  unfold timestamp_diff
  simp only
  split_ifs with h1 h2 h3
  · congr 1
    omega
  · omega
  · congr 1
    omega
  · omega

/-- C14 (direction rejection). When `recv_one` decodes a datagram whose
direction is the connection's own outbound one (`TO_CLIENT` on a server,
`TO_SERVER` on a client), it throws, returning no payload, and the connection
it leaves is the one it found. -/
theorem direction_rejection (session : Session) (now sock : Nat) (nb : Bool) (errno : Int)
    (ecn : Option Nat) (data : List Byte) (addr : Addr) (namelen : Nat) (gni : Int)
    (c : Connection) (p : Packet) (hsock : sock < c.heap.length)
    (hdec : Packet.decode data session = some p)
    (hdir : p.direction = if c.server then Direction.TO_CLIENT else Direction.TO_SERVER) :
    recv_one session now sock nb (RecvMsg.datagram false errno ecn data addr namelen gni) c
      = Outcome.throw c Exception.crypto := by
  have hheap : c.heap[sock]? = some (c.heap[sock]) := List.getElem?_eq_getElem hsock
  rw [recv_one_datagram session now sock nb errno ecn data addr namelen gni c _ p hheap hdec]
  have hne : p.direction ≠ (if c.server then Direction.TO_SERVER else Direction.TO_CLIENT) := by
    rw [hdir]
    cases c.server <;> decide
  rw [if_pos hne]

/-- Witness of C14: the client is handed a datagram that says `TO_SERVER`. -/
theorem direction_rejection_witness :
    recv_one clearSession 2000 0 false
        (RecvMsg.datagram false 0 none [0, 0, 0, 0, 0, 0, 0, 5, 0, 7, 255, 255, 0, 0, 0, 0]
          [127, 0, 0, 1] 4 0) example_client
      = Outcome.throw example_client Exception.crypto :=
  direction_rejection clearSession 2000 0 false 0 none
    [0, 0, 0, 0, 0, 0, 0, 5, 0, 7, 255, 255, 0, 0, 0, 0] [127, 0, 0, 1] 4 0 example_client
    ⟨5, Direction.TO_SERVER, 7, 65535, 0, 0, []⟩ (by decide) (by decide) (by decide)

theorem recv_one_accepted_unfold (session : Session) (now sock : Nat) (sk : Socket)
    (cong : Bool) (p : Packet) (addr : Addr) (namelen : Nat) (gni : Int) (c : Connection)
    (sk2 : Socket) (hsk2 : accepted_socket now sk cong p = some sk2) :
    recv_one_accepted session now sock sk cong p addr namelen gni c =
      if p.is_probe then
        if c.server then
          match send_probe session now sock addr c.remote_addr_len
              (accepted_connection now sock sk2 p c) with
          | none => Outcome.abort
          | some c3 => Outcome.ok c3 p.payload
        else Outcome.ok (accepted_connection now sock sk2 p c) p.payload
      else if c.server then
        if c.remote_addr_len ≠ namelen
            ∨ c.remote_addr.take c.remote_addr_len ≠ addr.take c.remote_addr_len then
          if gni ≠ 0 then
            Outcome.throw
              { accepted_connection now sock sk2 p c with
                send_socket := some sock, remote_addr := addr, remote_addr_len := namelen }
              (Exception.network "recv_one: getnameinfo" 0)
          else
            Outcome.ok
              { accepted_connection now sock sk2 p c with
                send_socket := some sock, remote_addr := addr, remote_addr_len := namelen }
              p.payload
        else
          Outcome.ok { accepted_connection now sock sk2 p c with send_socket := some sock }
            p.payload
      else Outcome.ok (accepted_connection now sock sk2 p c) p.payload := by
  unfold accepted_socket at hsk2
  unfold recv_one_accepted
  simp only [hsk2]
  rfl

/-- The three cases of the estimator step. -/
theorem update_rtt_spec (R : ℚ) (sk : Socket) :
    (¬ R < 5000 → update_rtt R sk = sk) ∧
      (R < 5000 → sk.RTT_hit = false →
        update_rtt R sk = { sk with SRTT := R, RTTVAR := R / 2, RTT_hit := true }) ∧
      (R < 5000 → sk.RTT_hit = true →
        update_rtt R sk =
          { sk with RTTVAR := (1 - 1 / 4) * sk.RTTVAR + (1 / 4 * |sk.SRTT - R|)
                    SRTT := (1 - 1 / 8) * sk.SRTT + (1 / 8 * R) }) := by
  refine ⟨?_, ?_, ?_⟩
  · intro h
    simp [update_rtt, h]
  · intro h hhit
    simp [update_rtt, h, hhit]
  · intro h hhit
    simp [update_rtt, h, hhit]

/-- The estimator step touches nothing but the estimator. -/
theorem update_rtt_frame (R : ℚ) (sk : Socket) :
    (update_rtt R sk).saved_timestamp = sk.saved_timestamp ∧
      (update_rtt R sk).saved_timestamp_received_at = sk.saved_timestamp_received_at ∧
      (update_rtt R sk).next_seq = sk.next_seq ∧ (update_rtt R sk).sock_id = sk.sock_id ∧
      (update_rtt R sk).MTU = sk.MTU := by
  unfold update_rtt
  split_ifs <;> simp

/-- The estimator step reads nothing but the estimator. -/
theorem update_rtt_congr (R : ℚ) (sk sk1 : Socket) (h1 : sk1.RTT_hit = sk.RTT_hit)
    (h2 : sk1.SRTT = sk.SRTT) (h3 : sk1.RTTVAR = sk.RTTVAR) :
    (update_rtt R sk1).RTT_hit = (update_rtt R sk).RTT_hit ∧
      (update_rtt R sk1).SRTT = (update_rtt R sk).SRTT ∧
      (update_rtt R sk1).RTTVAR = (update_rtt R sk).RTTVAR := by
  unfold update_rtt
  rw [h1]
  split_ifs <;> simp [h1, h2, h3]

/-- The socket object of an accepted packet: it always exists, its slot holds
the packet's timestamp (less the penalty) when the packet has one, and its
estimator has taken the sample when the packet has an echo. -/
theorem accepted_socket_spec (now : Nat) (sk : Socket) (cong : Bool) (p : Packet)
    (hreply : p.timestamp_reply < 65536) :
    ∃ sk2, accepted_socket now sk cong p = some sk2 ∧
      sk2.next_seq = sk.next_seq ∧ sk2.sock_id = sk.sock_id ∧
      (p.timestamp ≠ 65535 →
        sk2.saved_timestamp = saved_timestamp_for p.timestamp cong ∧
        sk2.saved_timestamp_received_at = now) ∧
      (p.timestamp = 65535 →
        sk2.saved_timestamp = sk.saved_timestamp ∧
        sk2.saved_timestamp_received_at = sk.saved_timestamp_received_at) ∧
      (p.timestamp_reply ≠ 65535 →
        sk2.RTT_hit = (update_rtt
          (((timestamp16 now + 65536 - p.timestamp_reply) % 65536 : Nat) : ℚ) sk).RTT_hit ∧
        sk2.SRTT = (update_rtt
          (((timestamp16 now + 65536 - p.timestamp_reply) % 65536 : Nat) : ℚ) sk).SRTT ∧
        sk2.RTTVAR = (update_rtt
          (((timestamp16 now + 65536 - p.timestamp_reply) % 65536 : Nat) : ℚ) sk).RTTVAR) ∧
      (p.timestamp_reply = 65535 →
        sk2.RTT_hit = sk.RTT_hit ∧ sk2.SRTT = sk.SRTT ∧ sk2.RTTVAR = sk.RTTVAR) := by
  have hdiff := timestamp_diff_eq (timestamp16 now) p.timestamp_reply (timestamp16_lt now) hreply
  by_cases hts : p.timestamp = 65535
  · by_cases hr : p.timestamp_reply = 65535
    · have hacc : accepted_socket now sk cong p = some sk := by
        unfold accepted_socket
        simp [hts, hr]
      exact ⟨sk, hacc, rfl, rfl, fun h => absurd hts h, fun _ => ⟨rfl, rfl⟩,
        fun h => absurd hr h, fun _ => ⟨rfl, rfl, rfl⟩⟩
    · have hf := update_rtt_frame
        (((timestamp16 now + 65536 - p.timestamp_reply) % 65536 : Nat) : ℚ) sk
      have hacc : accepted_socket now sk cong p = some (update_rtt
          (((timestamp16 now + 65536 - p.timestamp_reply) % 65536 : Nat) : ℚ) sk) := by
        unfold accepted_socket
        simp [hts, hr, hdiff]
      exact ⟨_, hacc, hf.2.2.1, hf.2.2.2.1, fun h => absurd hts h, fun _ => ⟨hf.1, hf.2.1⟩,
        fun _ => ⟨rfl, rfl, rfl⟩, fun h => absurd h hr⟩
  · by_cases hr : p.timestamp_reply = 65535
    · have hacc : accepted_socket now sk cong p = some
          { sk with saved_timestamp := saved_timestamp_for p.timestamp cong
                    saved_timestamp_received_at := now } := by
        unfold accepted_socket
        simp [hts, hr]
      exact ⟨_, hacc, rfl, rfl, fun _ => ⟨rfl, rfl⟩, fun h => absurd h hts,
        fun h => absurd hr h, fun _ => ⟨rfl, rfl, rfl⟩⟩
    · have hf := update_rtt_frame
        (((timestamp16 now + 65536 - p.timestamp_reply) % 65536 : Nat) : ℚ)
        { sk with saved_timestamp := saved_timestamp_for p.timestamp cong
                  saved_timestamp_received_at := now }
      have hc := update_rtt_congr
        (((timestamp16 now + 65536 - p.timestamp_reply) % 65536 : Nat) : ℚ) sk
        { sk with saved_timestamp := saved_timestamp_for p.timestamp cong
                  saved_timestamp_received_at := now } rfl rfl rfl
      have hacc : accepted_socket now sk cong p = some (update_rtt
          (((timestamp16 now + 65536 - p.timestamp_reply) % 65536 : Nat) : ℚ)
          { sk with saved_timestamp := saved_timestamp_for p.timestamp cong
                    saved_timestamp_received_at := now }) := by
        unfold accepted_socket
        simp [hts, hr, hdiff]
      exact ⟨_, hacc, hf.2.2.1, hf.2.2.2.1, fun _ => ⟨hf.1, hf.2.1⟩, fun h => absurd h hts,
        fun _ => hc, fun h => absurd h hr⟩

theorem send_probe_eq (session : Session) (now sock : Nat) (addr : Addr) (addr_len : Nat)
    (c : Connection) (sk : Socket) (hsk : c.heap[sock]? = some sk) :
    send_probe session now sock addr addr_len c =
      some { c with
        heap := c.heap.set sock (new_packet c.direction now sk PROBE_FLAG []).1
        wire := c.wire ++ [Datagram.mk sock (new_packet c.direction now sk PROBE_FLAG []).2
          ((new_packet c.direction now sk PROBE_FLAG []).2.tostring session) addr addr_len] } := by
  simp only [send_probe, hsk]

/-- Where `recv_one` hands over to the accepted path. -/
theorem recv_one_gate (session : Session) (now sock : Nat) (nb : Bool) (errno : Int)
    (ecn : Option Nat) (data : List Byte) (addr : Addr) (namelen : Nat) (gni : Int)
    (c : Connection) (sk : Socket) (p : Packet)
    (hsk : c.heap[sock]? = some sk) (hdec : Packet.decode data session = some p)
    (hdir : p.direction = if c.server then Direction.TO_SERVER else Direction.TO_CLIENT)
    (hgate : p.seq ≥ c.expected_receiver_seq.get p.sock_id) :
    recv_one session now sock nb (RecvMsg.datagram false errno ecn data addr namelen gni) c =
      recv_one_accepted session now sock sk
        (match ecn with
          | some o => decide (o &&& 0x03 = 0x03)
          | none => false) p addr namelen gni c := by
  rw [recv_one_datagram session now sock nb errno ecn data addr namelen gni c sk p hsk hdec,
    if_neg (not_not.2 hdir), if_pos hgate]

/-- The connection the accepted path leaves, case by case: on a client the
one built at the probe test; on a server that got a probe the same with the
probe reply sent on `sock`; on a server that got data the same with
`send_socket` and the peer address learnt. -/
theorem recv_one_accepted_state (session : Session) (now sock : Nat) (sk : Socket)
    (cong : Bool) (p : Packet) (addr : Addr) (namelen : Nat) (gni : Int) (c : Connection)
    (sk2 : Socket) (hsock : sock < c.heap.length)
    (hsk2 : accepted_socket now sk cong p = some sk2) :
    ∃ c1, (recv_one_accepted session now sock sk cong p addr namelen gni c).state = some c1 ∧
      (c.server = false → c1 = accepted_connection now sock sk2 p c) ∧
      (c.server = true → p.is_probe = true →
        c1 = { accepted_connection now sock sk2 p c with
          heap := (c.heap.set sock sk2).set sock (new_packet c.direction now sk2 PROBE_FLAG []).1
          wire := c.wire ++ [Datagram.mk sock (new_packet c.direction now sk2 PROBE_FLAG []).2
            ((new_packet c.direction now sk2 PROBE_FLAG []).2.tostring session)
            addr c.remote_addr_len] }) ∧
      (c.server = true → p.is_probe = false →
        c1 = { accepted_connection now sock sk2 p c with
          send_socket := some sock, remote_addr := c1.remote_addr,
          remote_addr_len := c1.remote_addr_len } ∧
        c1.remote_addr_len = namelen ∧ c1.remote_addr.take namelen = addr.take namelen) := by
  rw [recv_one_accepted_unfold session now sock sk cong p addr namelen gni c sk2 hsk2]
  have hheap : (accepted_connection now sock sk2 p c).heap[sock]? = some sk2 := by
    simp only [accepted_connection]
    exact List.getElem?_set_self hsock
  cases hs : c.server with
  | false =>
    cases hp : p.is_probe with
    | false => exact ⟨_, rfl, fun _ => rfl, fun h => absurd h (by simp), fun h => absurd h (by simp)⟩
    | true => exact ⟨_, rfl, fun _ => rfl, fun h => absurd h (by simp), fun h => absurd h (by simp)⟩
  | true =>
    cases hp : p.is_probe with
    | true =>
      simp only [if_true]
      rw [send_probe_eq session now sock addr c.remote_addr_len _ sk2 hheap]
      refine ⟨_, rfl, fun h => absurd h (by simp), fun _ _ => ?_, fun _ h => absurd h (by simp)⟩
      simp only [accepted_connection, hs]
    | false =>
      simp only [Bool.false_eq_true, if_false, if_true]
      by_cases hcond : c.remote_addr_len ≠ namelen
          ∨ c.remote_addr.take c.remote_addr_len ≠ addr.take c.remote_addr_len
      · rw [if_pos hcond]
        by_cases hg : gni ≠ 0
        · rw [if_pos hg]
          exact ⟨_, rfl, fun h => absurd h (by simp), fun _ h => absurd h (by simp),
            fun _ _ => ⟨rfl, rfl, rfl⟩⟩
        · rw [if_neg hg]
          exact ⟨_, rfl, fun h => absurd h (by simp), fun _ h => absurd h (by simp),
            fun _ _ => ⟨rfl, rfl, rfl⟩⟩
      · rw [if_neg hcond]
        rw [not_or, not_not, not_not] at hcond
        refine ⟨_, rfl, fun h => absurd h (by simp), fun _ h => absurd h (by simp),
          fun _ _ => ⟨rfl, ?_, ?_⟩⟩
        · simp only [accepted_connection]
          exact hcond.1
        · simp only [accepted_connection]
          rw [← hcond.1]
          exact hcond.2

theorem new_packet_frame (direction : Direction) (now : Nat) (sk : Socket) (flags : Nat)
    (payload : List Byte) :
    (new_packet direction now sk flags payload).1.RTT_hit = sk.RTT_hit ∧
      (new_packet direction now sk flags payload).1.SRTT = sk.SRTT ∧
      (new_packet direction now sk flags payload).1.RTTVAR = sk.RTTVAR ∧
      (new_packet direction now sk flags payload).1.sock_id = sk.sock_id ∧
      (new_packet direction now sk flags payload).2.direction = direction := by
  unfold new_packet
  simp only
  split_ifs <;> simp

theorem getElem?_lt_length {α : Type} (l : List α) (i : Nat) (a : α) (h : l[i]? = some a) :
    i < l.length := by
  by_contra hge
  rw [List.getElem?_eq_none (Nat.le_of_not_lt hge)] at h
  exact absurd h (by simp)

/-- The socket object behind `sock` after the accepted path: the one built at
the probe test, unless a server answers a probe, in which case it is that one
after `new_packet` and the probe reply is the last datagram sent. -/
theorem recv_one_accepted_socket (session : Session) (now sock : Nat) (sk : Socket)
    (cong : Bool) (p : Packet) (addr : Addr) (namelen : Nat) (gni : Int) (c : Connection)
    (sk2 : Socket) (hsock : sock < c.heap.length)
    (hsk2 : accepted_socket now sk cong p = some sk2) :
    ∃ c1 sk1, (recv_one_accepted session now sock sk cong p addr namelen gni c).state = some c1 ∧
      c1.heap[sock]? = some sk1 ∧
      (sk1.RTT_hit = sk2.RTT_hit ∧ sk1.SRTT = sk2.SRTT ∧ sk1.RTTVAR = sk2.RTTVAR) ∧
      (¬ (c.server = true ∧ p.is_probe = true) → sk1 = sk2 ∧ c1.wire = c.wire) ∧
      (c.server = true ∧ p.is_probe = true →
        sk1 = (new_packet c.direction now sk2 PROBE_FLAG []).1 ∧
        c1.wire = c.wire ++ [Datagram.mk sock (new_packet c.direction now sk2 PROBE_FLAG []).2
            ((new_packet c.direction now sk2 PROBE_FLAG []).2.tostring session)
            addr c.remote_addr_len]) := by
  obtain ⟨c1, hst, hclient, hprobe, hdata⟩ :=
    recv_one_accepted_state session now sock sk cong p addr namelen gni c sk2 hsock hsk2
  have hset : (c.heap.set sock sk2)[sock]? = some sk2 := List.getElem?_set_self hsock
  cases hs : c.server with
  | false =>
    have h1 := hclient hs
    refine ⟨c1, sk2, hst, ?_, ⟨rfl, rfl, rfl⟩, fun _ => ⟨rfl, ?_⟩, fun h => absurd h.1 (by simp)⟩
    · rw [h1]
      exact hset
    · rw [h1]
      rfl
  | true =>
    cases hp : p.is_probe with
    | true =>
      have h1 := hprobe hs hp
      have hnp := new_packet_frame c.direction now sk2 PROBE_FLAG []
      refine ⟨c1, (new_packet c.direction now sk2 PROBE_FLAG []).1, hst, ?_,
        ⟨hnp.1, hnp.2.1, hnp.2.2.1⟩, fun h => absurd ⟨rfl, rfl⟩ h, fun _ => ⟨rfl, ?_⟩⟩
      · rw [h1]
        exact List.getElem?_set_self (by rw [List.length_set]; exact hsock)
      · rw [h1]
    | false =>
      have h1 := (hdata hs hp).1
      refine ⟨c1, sk2, hst, ?_, ⟨rfl, rfl, rfl⟩, fun _ => ⟨rfl, ?_⟩, fun h => absurd h.2 (by simp)⟩
      · rw [h1]
        exact hset
      · rw [h1]
        rfl

/-- C16 (RTT estimator step). For every datagram that `recv_one` accepts with
`timestamp_reply ≠ 0xFFFF`, with `R = timestamp_diff( timestamp16(), timestamp_reply )`:
the call ends with the socket's estimator unchanged when `R ≥ 5000`; with
`SRTT = R`, `RTTVAR = R / 2`, `RTT_hit = true` when `R < 5000` and `RTT_hit` was
false; and with `RTTVAR = (3/4) RTTVAR + (1/4) |SRTT - R|` (old `SRTT`) and
`SRTT = (7/8) SRTT + (1/8) R` when `R < 5000` and `RTT_hit` was true. -/
theorem rtt_estimator_step (session : Session) (now sock : Nat) (nb : Bool) (errno : Int)
    (ecn : Option Nat) (data : List Byte) (addr : Addr) (namelen : Nat) (gni : Int)
    (c : Connection) (sk : Socket) (p : Packet)
    (hsk : c.heap[sock]? = some sk) (hdec : Packet.decode data session = some p)
    (hdir : p.direction = if c.server then Direction.TO_SERVER else Direction.TO_CLIENT)
    (hgate : p.seq ≥ c.expected_receiver_seq.get p.sock_id)
    (hreply : p.timestamp_reply ≠ 65535) :
    ∃ R c1 sk1, timestamp_diff (timestamp16 now) p.timestamp_reply = some R ∧
      (recv_one session now sock nb
        (RecvMsg.datagram false errno ecn data addr namelen gni) c).state = some c1 ∧
      c1.heap[sock]? = some sk1 ∧
      (5000 ≤ R → sk1.RTT_hit = sk.RTT_hit ∧ sk1.SRTT = sk.SRTT ∧ sk1.RTTVAR = sk.RTTVAR) ∧
      (R < 5000 → sk.RTT_hit = false →
        sk1.SRTT = (R : ℚ) ∧ sk1.RTTVAR = (R : ℚ) / 2 ∧ sk1.RTT_hit = true) ∧
      (R < 5000 → sk.RTT_hit = true →
        sk1.RTTVAR = 3 / 4 * sk.RTTVAR + 1 / 4 * |sk.SRTT - (R : ℚ)| ∧
        sk1.SRTT = 7 / 8 * sk.SRTT + 1 / 8 * (R : ℚ) ∧ sk1.RTT_hit = true) := by
  have hlt := (decode_fields_lt _ _ _ hdec).2.1
  have hsock := getElem?_lt_length _ _ _ hsk
  obtain ⟨sk2, hsk2, _, _, _, _, hest, _⟩ :=
    accepted_socket_spec now sk
      (match ecn with
        | some o => decide (o &&& 0x03 = 0x03)
        | none => false) p hlt
  obtain ⟨c1, sk1, hst, hheap, ⟨e1, e2, e3⟩, _, _⟩ :=
    recv_one_accepted_socket session now sock sk _ p addr namelen gni c sk2 hsock hsk2
  obtain ⟨f1, f2, f3⟩ := hest hreply
  have hspec := update_rtt_spec
    (((timestamp16 now + 65536 - p.timestamp_reply) % 65536 : Nat) : ℚ) sk
  refine ⟨(timestamp16 now + 65536 - p.timestamp_reply) % 65536, c1, sk1,
    timestamp_diff_eq _ _ (timestamp16_lt now) hlt, ?_, hheap, ?_, ?_, ?_⟩
  · rw [recv_one_gate session now sock nb errno ecn data addr namelen gni c sk p hsk hdec
      hdir hgate]
    exact hst
  · intro hR
    have hnot : ¬ (((timestamp16 now + 65536 - p.timestamp_reply) % 65536 : Nat) : ℚ) < 5000 := by
      rw [not_lt]
      exact_mod_cast hR
    rw [e1, e2, e3, f1, f2, f3, hspec.1 hnot]
    exact ⟨rfl, rfl, rfl⟩
  · intro hR hhit
    have hyes : (((timestamp16 now + 65536 - p.timestamp_reply) % 65536 : Nat) : ℚ) < 5000 := by
      exact_mod_cast hR
    rw [e1, e2, e3, f1, f2, f3, hspec.2.1 hyes hhit]
    exact ⟨rfl, rfl, rfl⟩
  · intro hR hhit
    have hyes : (((timestamp16 now + 65536 - p.timestamp_reply) % 65536 : Nat) : ℚ) < 5000 := by
      exact_mod_cast hR
    rw [e1, e2, e3, f1, f2, f3, hspec.2.2 hyes hhit]
    refine ⟨?_, ?_, hhit⟩
    · simp only
      ring
    · simp only
      ring

/-- Witness of C16: the first sample of a fresh client, `R = 40`. -/
theorem rtt_estimator_step_witness :
    ∃ c1 sk1, (recv_one clearSession 70000 0 false
        (RecvMsg.datagram false 0 none
          [128, 0, 0, 0, 0, 0, 0, 1, 0, 7, 17, 72, 0, 0, 0, 0, 42] [127, 0, 0, 1] 4 0)
        example_client).state = some c1 ∧
      c1.heap[0]? = some sk1 ∧ sk1.SRTT = 40 ∧ sk1.RTTVAR = 40 / 2 ∧ sk1.RTT_hit = true := by
  obtain ⟨R, c1, sk1, hR, hst, hheap, _, hfirst, _⟩ :=
    rtt_estimator_step clearSession 70000 0 false 0 none
      [128, 0, 0, 0, 0, 0, 0, 1, 0, 7, 17, 72, 0, 0, 0, 0, 42] [127, 0, 0, 1] 4 0
      example_client (Socket.new 0) ⟨1, Direction.TO_CLIENT, 7, 4424, 0, 0, [42]⟩
      rfl (by decide) (by decide) (by decide) (by decide)
  have h40 : R = 40 := by
    have h : timestamp_diff (timestamp16 70000) 4424 = some 40 := by decide
    exact Option.some.inj (hR.symm.trans h)
  subst h40
  obtain ⟨h1, h2, h3⟩ := hfirst (by decide) rfl
  exact ⟨c1, sk1, hst, hheap, by exact_mod_cast h1, by exact_mod_cast h2, h3⟩

/-! ### The range of the smoothed RTT -/

theorem update_rtt_keeps_range (R : Nat) (sk : Socket) (h : 0 ≤ sk.SRTT ∧ sk.SRTT < 5000) :
    0 ≤ (update_rtt (R : ℚ) sk).SRTT ∧ (update_rtt (R : ℚ) sk).SRTT < 5000 := by
  obtain ⟨h1, h2⟩ := h
  have hR : (0 : ℚ) ≤ (R : ℚ) := Nat.cast_nonneg R
  unfold update_rtt
  split_ifs with hlt hhit
  · exact ⟨hR, hlt⟩
  · simp only
    constructor <;> linarith
  · exact ⟨h1, h2⟩

theorem after_samples_in_range (Rs : List Nat) : ∀ sk : Socket,
    (0 ≤ sk.SRTT ∧ sk.SRTT < 5000) →
    0 ≤ (after_samples sk Rs).SRTT ∧ (after_samples sk Rs).SRTT < 5000 := by
  induction Rs with
  | nil => intro sk h; exact h
  | cons R rest ih =>
    intro sk h
    exact ih (update_rtt (R : ℚ) sk) (update_rtt_keeps_range R sk h)

/-- C17, amended (SRTT range). When the estimator of the active socket has
been reached from the defaults through any sequence of RTT samples,
`get_SRTT` returns its `SRTT`, which is at least 0 and below 5000. -/
theorem srtt_range (c : Connection) (h : Nat) (sk : Socket) (id : Nat) (Rs : List Nat)
    (hsock : sock c = some h) (hsk : c.heap[h]? = some sk)
    (hsrtt : sk.SRTT = (after_samples (Socket.new id) Rs).SRTT) :
    get_SRTT c = some sk.SRTT ∧ 0 ≤ sk.SRTT ∧ sk.SRTT < 5000 := by
  have hr := after_samples_in_range Rs (Socket.new id) (by simp only [Socket.new]; norm_num)
  rw [← hsrtt] at hr
  refine ⟨?_, hr⟩
  unfold sock at hsock
  unfold get_SRTT
  split_ifs at hsock
  cases hss : c.send_socket with
  | some h1 =>
    simp only [hss, Option.some.injEq] at hsock
    subst hsock
    simp [hsk]
  | none =>
    simp only [hss] at hsock
    simp [hsock, hsk]

/-- Witness of the amended C17: a fresh client after the samples 40 and 60. -/
theorem srtt_range_witness :
    get_SRTT { example_client with heap := [after_samples (Socket.new 0) [40, 60]] }
        = some (after_samples (Socket.new 0) [40, 60]).SRTT ∧
      0 ≤ (after_samples (Socket.new 0) [40, 60]).SRTT ∧
      (after_samples (Socket.new 0) [40, 60]).SRTT < 5000 :=
  srtt_range { example_client with heap := [after_samples (Socket.new 0) [40, 60]] }
    0 (after_samples (Socket.new 0) [40, 60]) 0 [40, 60] rfl rfl rfl

/-- Counterexample to C17 as stated: a fresh client accepts, at clock value
70000, a datagram that echoes the timestamp 4464 of that very millisecond.
The sample is `R = 0` and `get_SRTT` returns 0, which is not above 0. -/
theorem srtt_range_counterexample :
    ((recv_one clearSession 70000 0 false
        (RecvMsg.datagram false 0 none
          [128, 0, 0, 0, 0, 0, 0, 1, 0, 7, 17, 112, 0, 0, 0, 0, 42] [127, 0, 0, 1] 4 0)
        example_client).state.bind get_SRTT) = some 0 := by
  decide

/-! ### The congestion penalty -/

theorem saved_timestamp_for_eq (ts : Nat) (hts : ts < 65536) :
    saved_timestamp_for ts false = ts ∧
      saved_timestamp_for ts true = (ts + 65536 - 500) % 65536 := by
  unfold saved_timestamp_for CONGESTION_TIMESTAMP_PENALTY
  refine ⟨rfl, ?_⟩
  simp only [if_true]
  omega

/-- The sample the peer computes from an echo of the penalised timestamp is
500 more, modulo 65536, than from an echo of the plain one. -/
theorem penalty_in_sample (ts d n : Nat) (hts : ts < 65536) (hn : n < 65536) :
    ∃ Ru Rc, timestamp_diff n ((saved_timestamp_for ts false + d) % 65536) = some Ru ∧
      timestamp_diff n ((saved_timestamp_for ts true + d) % 65536) = some Rc ∧
      Rc = (Ru + 500) % 65536 := by
  obtain ⟨h1, h2⟩ := saved_timestamp_for_eq ts hts
  rw [h1, h2]
  refine ⟨_, _, timestamp_diff_eq n _ hn (Nat.mod_lt _ (by norm_num)),
    timestamp_diff_eq n _ hn (Nat.mod_lt _ (by norm_num)), ?_⟩
  omega

/-- C18 (congestion penalty). For every datagram accepted through the replay
gate with timestamp `t ≠ 0xFFFF`, `recv_one` stores in `saved_timestamp` the
value `t` when no congestion was signalled and `(t - 500) mod 65536` when the
low bits of the TOS octet were `0b11`: the call ends with that value in the
slot, stamped `now`, unless a server answers a probe, in which case the probe
reply sent within the call echoes that very value. Consequently, for every
dwell below 1000 and every clock value of the peer, the sample the peer
computes from the echo `new_packet` emits is 500 larger modulo 65536 in the
congested case than in the uncongested one. -/
theorem congestion_penalty (session : Session) (now sock : Nat) (nb : Bool) (errno : Int)
    (ecn : Option Nat) (data : List Byte) (addr : Addr) (namelen : Nat) (gni : Int)
    (c : Connection) (sk : Socket) (p : Packet)
    (hsk : c.heap[sock]? = some sk) (hdec : Packet.decode data session = some p)
    (hdir : p.direction = if c.server then Direction.TO_SERVER else Direction.TO_CLIENT)
    (hgate : p.seq ≥ c.expected_receiver_seq.get p.sock_id)
    (hts : p.timestamp ≠ 65535) :
    (saved_timestamp_for p.timestamp false = p.timestamp ∧
      (saved_timestamp_for p.timestamp true : Int) = ((p.timestamp : Int) - 500) % 65536) ∧
    (∃ c1 sk1, (recv_one session now sock nb
        (RecvMsg.datagram false errno ecn data addr namelen gni) c).state = some c1 ∧
      c1.heap[sock]? = some sk1 ∧
      (¬ (c.server = true ∧ p.is_probe = true) →
        sk1.saved_timestamp = saved_timestamp_for p.timestamp
          (match ecn with
            | some o => decide (o &&& 0x03 = 0x03)
            | none => false) ∧
        sk1.saved_timestamp_received_at = now) ∧
      (c.server = true ∧ p.is_probe = true →
        ∃ d, c1.wire = c.wire ++ [d] ∧ d.sock = sock ∧
          d.packet.timestamp_reply = saved_timestamp_for p.timestamp
            (match ecn with
              | some o => decide (o &&& 0x03 = 0x03)
              | none => false))) ∧
    (∀ (dir : Direction) (nowe pnow flags : Nat) (pl : List Byte) (sku skc : Socket),
      sku.saved_timestamp = saved_timestamp_for p.timestamp false →
      skc.saved_timestamp = saved_timestamp_for p.timestamp true →
      skc.saved_timestamp_received_at = sku.saved_timestamp_received_at →
      u64_sub nowe sku.saved_timestamp_received_at < 1000 →
      ∃ Ru Rc,
        timestamp_diff (timestamp16 pnow) (new_packet dir nowe sku flags pl).2.timestamp_reply
          = some Ru ∧
        timestamp_diff (timestamp16 pnow) (new_packet dir nowe skc flags pl).2.timestamp_reply
          = some Rc ∧
        Rc = (Ru + 500) % 65536) := by
  obtain ⟨hlt, hrlt, _, _⟩ := decode_fields_lt _ _ _ hdec
  have hsock := getElem?_lt_length _ _ _ hsk
  have hfor := saved_timestamp_for_eq p.timestamp hlt
  refine ⟨⟨hfor.1, ?_⟩, ?_, ?_⟩
  · rw [hfor.2]
    omega
  · obtain ⟨sk2, hsk2, _, _, hstamp, _, _, _⟩ :=
      accepted_socket_spec now sk
        (match ecn with
          | some o => decide (o &&& 0x03 = 0x03)
          | none => false) p hrlt
    obtain ⟨c1, sk1, hst, hheap, _, hquiet, hprobe⟩ :=
      recv_one_accepted_socket session now sock sk _ p addr namelen gni c sk2 hsock hsk2
    obtain ⟨hs1, hs2⟩ := hstamp hts
    refine ⟨c1, sk1, ?_, hheap, ?_, ?_⟩
    · rw [recv_one_gate session now sock nb errno ecn data addr namelen gni c sk p hsk hdec
        hdir hgate]
      exact hst
    · intro hq
      rw [(hquiet hq).1]
      exact ⟨hs1, hs2⟩
    · intro hp
      refine ⟨_, (hprobe hp).2, rfl, ?_⟩
      have hrecent : u64_sub now sk2.saved_timestamp_received_at < 1000 := by
        rw [hs2, u64_sub_self]
        norm_num
      have hreply := ((new_packet_reply c.direction now sk2 PROBE_FLAG []).1 hrecent).1
      simp only
      rw [hreply, hs1, hs2, u64_sub_self, Nat.add_zero]
      apply Nat.mod_eq_of_lt
      cases (match ecn with
          | some o => decide (o &&& 0x03 = 0x03)
          | none => false) with
      | false => rw [hfor.1]; exact hlt
      | true => rw [hfor.2]; exact Nat.mod_lt _ (by norm_num)
  · intro dir nowe pnow flags pl sku skc hu hc hat hrecent
    have hrecent2 : u64_sub nowe skc.saved_timestamp_received_at < 1000 := by
      rw [hat]
      exact hrecent
    rw [((new_packet_reply dir nowe sku flags pl).1 hrecent).1,
      ((new_packet_reply dir nowe skc flags pl).1 hrecent2).1, hu, hc, hat]
    exact penalty_in_sample p.timestamp _ (timestamp16 pnow) hlt (timestamp16_lt pnow)

/-- Witness of C18: a fresh client accepts, with congestion signalled, a
datagram with timestamp 7, and stores `65043 = (7 - 500) mod 65536`. -/
theorem congestion_penalty_witness :
    ∃ c1 sk1, (recv_one clearSession 70000 0 false
        (RecvMsg.datagram false 0 (some 3)
          [128, 0, 0, 0, 0, 0, 0, 1, 0, 7, 255, 255, 0, 0, 0, 0, 42] [127, 0, 0, 1] 4 0)
        example_client).state = some c1 ∧
      c1.heap[0]? = some sk1 ∧ sk1.saved_timestamp = 65043 ∧
      sk1.saved_timestamp_received_at = 70000 := by
  obtain ⟨c1, sk1, hst, hheap, hquiet, _⟩ :=
    (congestion_penalty clearSession 70000 0 false 0 (some 3)
      [128, 0, 0, 0, 0, 0, 0, 1, 0, 7, 255, 255, 0, 0, 0, 0, 42] [127, 0, 0, 1] 4 0
      example_client (Socket.new 0) ⟨1, Direction.TO_CLIENT, 7, 65535, 0, 0, [42]⟩
      rfl (by decide) (by decide) (by decide) (by decide)).2.1
  obtain ⟨h1, h2⟩ := hquiet (by decide)
  exact ⟨c1, sk1, hst, hheap, h1, h2⟩

/-! ### Roaming -/

theorem recv_one_datagram_ex (session : Session) (now sock : Nat) (nb : Bool) (errno : Int)
    (ecn : Option Nat) (data : List Byte) (addr : Addr) (namelen : Nat) (gni : Int)
    (c : Connection) (sk : Socket) (p : Packet)
    (hsk : c.heap[sock]? = some sk) (hdec : Packet.decode data session = some p) :
    ∃ cong : Bool,
      recv_one session now sock nb (RecvMsg.datagram false errno ecn data addr namelen gni) c =
        if p.direction ≠ (if c.server then Direction.TO_SERVER else Direction.TO_CLIENT) then
          Outcome.throw c Exception.crypto
        else if p.seq ≥ c.expected_receiver_seq.get p.sock_id then
          recv_one_accepted session now sock sk cong p addr namelen gni c
        else Outcome.ok c p.payload :=
  ⟨_, recv_one_datagram session now sock nb errno ecn data addr namelen gni c sk p hsk hdec⟩

/-- How `recv_one` can end: with the connection it found, or through the
accepted path. -/
theorem recv_one_cases (session : Session) (now sock : Nat) (nb : Bool) (msg : RecvMsg)
    (c c1 : Connection) (h : (recv_one session now sock nb msg c).state = some c1) :
    c1 = c ∨
      ∃ sk sk2 cong p addr namelen gni, sock < c.heap.length ∧
        accepted_socket now sk cong p = some sk2 ∧
        (recv_one_accepted session now sock sk cong p addr namelen gni c).state = some c1 := by
  cases hsk : c.heap[sock]? with
  | none =>
    simp only [recv_one, hsk, Outcome.state] at h
    exact absurd h (by simp)
  | some sk =>
    cases msg with
    | failed errno =>
      simp only [recv_one, hsk, Outcome.state, Option.some.injEq] at h
      exact Or.inl h.symm
    | datagram trunc errno ecn data addr namelen gni =>
      cases trunc with
      | true =>
        simp only [recv_one, hsk, if_true, Outcome.state, Option.some.injEq] at h
        exact Or.inl h.symm
      | false =>
        cases hdec : Packet.decode data session with
        | none =>
          simp only [recv_one, hsk, hdec, Bool.false_eq_true, if_false, Outcome.state,
            Option.some.injEq] at h
          exact Or.inl h.symm
        | some p =>
          obtain ⟨cong, hrw⟩ := recv_one_datagram_ex session now sock nb errno ecn data addr
            namelen gni c sk p hsk hdec
          rw [hrw] at h
          by_cases hdir : p.direction ≠
              (if c.server then Direction.TO_SERVER else Direction.TO_CLIENT)
          · rw [if_pos hdir] at h
            simp only [Outcome.state, Option.some.injEq] at h
            exact Or.inl h.symm
          · rw [if_neg hdir] at h
            by_cases hgate : p.seq ≥ c.expected_receiver_seq.get p.sock_id
            · rw [if_pos hgate] at h
              obtain ⟨sk2, hsk2, _⟩ := accepted_socket_spec now sk cong p
                (decode_fields_lt _ _ _ hdec).2.1
              exact Or.inr ⟨sk, sk2, cong, p, addr, namelen, gni,
                getElem?_lt_length _ _ _ hsk, hsk2, h⟩
            · rw [if_neg hgate] at h
              simp only [Outcome.state, Option.some.injEq] at h
              exact Or.inl h.symm

/-- On a client `recv_one` changes neither the sending socket nor the stored
peer address. -/
theorem recv_one_client_frame (session : Session) (now sock : Nat) (nb : Bool) (msg : RecvMsg)
    (c c1 : Connection) (hs : c.server = false)
    (h : (recv_one session now sock nb msg c).state = some c1) :
    c1.send_socket = c.send_socket ∧ c1.remote_addr = c.remote_addr ∧
      c1.remote_addr_len = c.remote_addr_len := by
  rcases recv_one_cases session now sock nb msg c c1 h with h1 |
    ⟨sk, sk2, cong, p, addr, namelen, gni, hsock, hsk2, hacc⟩
  · rw [h1]
    exact ⟨rfl, rfl, rfl⟩
  · obtain ⟨c2, hst, hclient, _, _⟩ :=
      recv_one_accepted_state session now sock sk cong p addr namelen gni c sk2 hsock hsk2
    rw [hacc, Option.some.injEq] at hst
    rw [hst, hclient hs]
    exact ⟨rfl, rfl, rfl⟩

/-- C13, amended (server roaming). For every datagram other than a probe that
a server's `recv_one` accepts through the replay gate on the socket `sock`
from the source address `B`, after the call `send_socket = sock`, the stored
length is the length of `B` and the stored address is `B` over that length.
On a client, `recv_one` never changes `remote_addr`, its length or
`send_socket`. -/
theorem server_roaming (session : Session) (now sock : Nat) (nb : Bool) (errno : Int)
    (ecn : Option Nat) (data : List Byte) (addr : Addr) (namelen : Nat) (gni : Int)
    (c : Connection) (sk : Socket) (p : Packet)
    (hsk : c.heap[sock]? = some sk) (hdec : Packet.decode data session = some p)
    (hdir : p.direction = if c.server then Direction.TO_SERVER else Direction.TO_CLIENT)
    (hgate : p.seq ≥ c.expected_receiver_seq.get p.sock_id) :
    (c.server = true → p.is_probe = false →
      ∃ c1, (recv_one session now sock nb
          (RecvMsg.datagram false errno ecn data addr namelen gni) c).state = some c1 ∧
        c1.send_socket = some sock ∧ c1.remote_addr_len = namelen ∧
        c1.remote_addr.take namelen = addr.take namelen) ∧
      (c.server = false → ∀ (msg : RecvMsg) (c1 : Connection),
        (recv_one session now sock nb msg c).state = some c1 →
        c1.send_socket = c.send_socket ∧ c1.remote_addr = c.remote_addr ∧
          c1.remote_addr_len = c.remote_addr_len) := by
  constructor
  · intro hs hp
    obtain ⟨sk2, hsk2, _⟩ := accepted_socket_spec now sk
      (match ecn with
        | some o => decide (o &&& 0x03 = 0x03)
        | none => false) p (decode_fields_lt _ _ _ hdec).2.1
    obtain ⟨c1, hst, _, _, hdata⟩ :=
      recv_one_accepted_state session now sock sk _ p addr namelen gni c sk2
        (getElem?_lt_length _ _ _ hsk) hsk2
    obtain ⟨h1, h2, h3⟩ := hdata hs hp
    refine ⟨c1, ?_, ?_, h2, h3⟩
    · rw [recv_one_gate session now sock nb errno ecn data addr namelen gni c sk p hsk hdec
        hdir hgate]
      exact hst
    · rw [h1]
  · intro hs msg c1 h
    exact recv_one_client_frame session now sock nb msg c c1 hs h

/-- Witness of the amended C13: a fresh server accepts a data packet from
`10.0.0.2`. -/
theorem server_roaming_witness :
    ∃ c1, (recv_one clearSession 70000 0 false
        (RecvMsg.datagram false 0 none
          [0, 0, 0, 0, 0, 0, 0, 1, 0, 7, 255, 255, 0, 0, 0, 0, 42] [10, 0, 0, 2] 4 0)
        example_server).state = some c1 ∧
      c1.send_socket = some 0 ∧ c1.remote_addr_len = 4 ∧
      c1.remote_addr.take 4 = [10, 0, 0, 2] :=
  (server_roaming clearSession 70000 0 false 0 none
    [0, 0, 0, 0, 0, 0, 0, 1, 0, 7, 255, 255, 0, 0, 0, 0, 42] [10, 0, 0, 2] 4 0
    example_server (Socket.new 0) ⟨1, Direction.TO_SERVER, 7, 65535, 0, 0, [42]⟩
    rfl (by decide) (by decide) (by decide)).1 (by decide) (by decide)

/-- Counterexample to C13 as stated: a fresh server accepts a probe from
`10.0.0.2` through the replay gate (the window of `sock_id` 0 moves to 2 and a
probe reply goes out to `10.0.0.2` on socket 0), and after the call
`send_socket` is still null and no peer address is stored. -/
theorem server_roaming_counterexample :
    (recv_one clearSession 70000 0 false
        (RecvMsg.datagram false 0 none
          [0, 0, 0, 0, 0, 0, 0, 1, 0, 7, 255, 255, 0, 0, 0, 1] [10, 0, 0, 2] 4 0)
        example_server).state.map
        (fun c => (c.send_socket, c.remote_addr.length, c.remote_addr_len))
      = some (none, 0, 0) ∧
    (recv_one clearSession 70000 0 false
        (RecvMsg.datagram false 0 none
          [0, 0, 0, 0, 0, 0, 0, 1, 0, 7, 255, 255, 0, 0, 0, 1] [10, 0, 0, 2] 4 0)
        example_server).state.map
        (fun c => (SeqMap.get c.expected_receiver_seq 0,
          c.wire.map (fun d => (d.sock, d.addr.map Fin.val, d.packet.flags))))
      = some (2, [(0, [10, 0, 0, 2], 1)]) := by
  decide

/-! ### The outbound direction -/

theorem keeps_direction_refl (c : Connection) : keeps_direction c c :=
  ⟨rfl, rfl, [], (List.append_nil _).symm, fun _ h => absurd h (List.not_mem_nil _)⟩

theorem keeps_direction_of_eq (c c1 : Connection) (hs : c1.server = c.server)
    (hd : c1.direction = c.direction) (hw : c1.wire = c.wire) : keeps_direction c c1 :=
  ⟨hs, hd, [], by rw [hw, List.append_nil], fun _ h => absurd h (List.not_mem_nil _)⟩

theorem keeps_direction_trans (c c1 c2 : Connection) (h1 : keeps_direction c c1)
    (h2 : keeps_direction c1 c2) : keeps_direction c c2 := by
  obtain ⟨s1, d1, ds1, w1, a1⟩ := h1
  obtain ⟨s2, d2, ds2, w2, a2⟩ := h2
  refine ⟨s2.trans s1, d2.trans d1, ds1 ++ ds2, by rw [w2, w1, List.append_assoc], ?_⟩
  intro d hd
  rcases List.mem_append.1 hd with h | h
  · exact a1 d h
  · rw [← d1]
    exact a2 d h

theorem send_probe_keeps_direction (session : Session) (now sock : Nat) (addr : Addr)
    (addr_len : Nat) (c c1 : Connection)
    (h : send_probe session now sock addr addr_len c = some c1) : keeps_direction c c1 := by
  cases hsk : c.heap[sock]? with
  | none => simp [send_probe, hsk] at h
  | some sk =>
    rw [send_probe_eq session now sock addr addr_len c sk hsk, Option.some.injEq] at h
    rw [← h]
    refine ⟨rfl, rfl, _, rfl, ?_⟩
    intro d hd
    rw [List.mem_singleton] at hd
    rw [hd]
    exact (new_packet_frame c.direction now sk PROBE_FLAG []).2.2.2.2

theorem send_probes_loop_keeps_direction (session : Session) (now : Nat) (l : List Nat) :
    ∀ c c1 : Connection, send_probes_loop session now l c = some c1 → keeps_direction c c1 := by
  induction l with
  | nil =>
    intro c c1 h
    simp only [send_probes_loop, Option.some.injEq] at h
    rw [← h]
    exact keeps_direction_refl c
  | cons it rest ih =>
    intro c c1 h
    simp only [send_probes_loop] at h
    split_ifs at h
    · split at h
      · exact absurd h (by simp)
      · rename_i c2 hp
        have h1 := send_probe_keeps_direction _ _ _ _ _ _ _ hp
        exact keeps_direction_trans c c2 c1 h1 (ih c2 c1 h)
    · exact ih c c1 h

theorem hop_port_keeps_direction (now : Nat) (c c1 : Connection)
    (h : hop_port now c = some c1) : keeps_direction c c1 := by
  obtain ⟨hs, hl⟩ := hop_port_some now c c1 h
  rw [hop_port_eq now c hs hl, Option.some.injEq] at h
  rw [← h, prune_sockets_eq]
  exact keeps_direction_of_eq _ _ rfl rfl rfl

theorem send_keeps_direction (session : Session) (now : Nat) (os : SendtoResult)
    (s : List Byte) (c c1 : Connection) (h : send session now os s c = some c1) :
    keeps_direction c c1 := by
  cases hss : c.send_socket with
  | none =>
    simp only [send, hss, Option.some.injEq] at h
    rw [← h]
    exact keeps_direction_refl c
  | some hd =>
    cases hsk : c.heap[hd]? with
    | none => simp [send, hss, hsk] at h
    | some sk =>
      have hpk := (new_packet_frame c.direction now sk 0 s).2.2.2.2
      have hone : ∀ d ∈ [Datagram.mk hd (new_packet c.direction now sk 0 s).2
          ((new_packet c.direction now sk 0 s).2.tostring session) c.remote_addr
          c.remote_addr_len], d.packet.direction = c.direction := by
        intro d hmem
        rw [List.mem_singleton] at hmem
        rw [hmem]
        exact hpk
      simp only [send, hss, hsk] at h
      split_ifs at h
      all_goals first
        | (simp only [Option.some.injEq] at h
           rw [← h]
           exact ⟨rfl, rfl, _, rfl, hone⟩)
        | (refine keeps_direction_trans c _ c1 ?_ (hop_port_keeps_direction _ _ _ h)
           exact ⟨rfl, rfl, _, rfl, hone⟩)

theorem recv_one_keeps_direction (session : Session) (now sock : Nat) (nb : Bool)
    (msg : RecvMsg) (c c1 : Connection)
    (h : (recv_one session now sock nb msg c).state = some c1) : keeps_direction c c1 := by
  rcases recv_one_cases session now sock nb msg c c1 h with h1 |
    ⟨sk, sk2, cong, p, addr, namelen, gni, hsock, hsk2, hacc⟩
  · rw [h1]
    exact keeps_direction_refl c
  · obtain ⟨c2, hst, hclient, hprobe, hdata⟩ :=
      recv_one_accepted_state session now sock sk cong p addr namelen gni c sk2 hsock hsk2
    rw [hacc, Option.some.injEq] at hst
    subst hst
    cases hs : c.server with
    | false =>
      rw [hclient hs]
      exact keeps_direction_of_eq _ _ rfl rfl rfl
    | true =>
      cases hp : p.is_probe with
      | true =>
        rw [hprobe hs hp]
        refine ⟨rfl, rfl, _, rfl, ?_⟩
        intro d hmem
        rw [List.mem_singleton] at hmem
        rw [hmem]
        exact (new_packet_frame c.direction now sk2 PROBE_FLAG []).2.2.2.2
      | false =>
        have h1 := (hdata hs hp).1
        exact keeps_direction_of_eq _ _
          ((congrArg Connection.server h1).trans rfl)
          ((congrArg Connection.direction h1).trans rfl)
          ((congrArg Connection.wire h1).trans rfl)

theorem recv_loop_keeps_direction (session : Session) (now : Nat) (rx : Nat → RecvMsg)
    (l : List Nat) : ∀ c c1 : Connection, (recv_loop session now rx l c).state = some c1 →
      keeps_direction c c1 := by
  induction l with
  | nil =>
    intro c c1 h
    exact absurd h (by simp [recv_loop, Outcome.state])
  | cons it rest ih =>
    intro c c1 h
    simp only [recv_loop] at h
    split at h
    · rename_i c2 payload hr
      simp only [Outcome.state, Option.some.injEq] at h
      have h2 := recv_one_keeps_direction session now it _ (rx it) c c2 (by rw [hr]; rfl)
      rw [← h, prune_sockets_eq]
      exact keeps_direction_trans c c2 _ h2 (keeps_direction_of_eq _ _ rfl rfl rfl)
    · rename_i c2 function the_errno hr
      have h2 := recv_one_keeps_direction session now it _ (rx it) c c2 (by rw [hr]; rfl)
      split_ifs at h
      · exact absurd h (by simp [Outcome.state])
      · exact keeps_direction_trans c c2 c1 h2 (ih c2 c1 h)
      · simp only [Outcome.state, Option.some.injEq] at h
        rw [← h]
        exact h2
    · rename_i c2 hr
      have h2 := recv_one_keeps_direction session now it _ (rx it) c c2 (by rw [hr]; rfl)
      simp only [Outcome.state, Option.some.injEq] at h
      rw [← h]
      exact h2
    · exact absurd h (by simp [Outcome.state])

theorem step_keeps_direction (session : Session) (op : Op) (c c1 : Connection)
    (h : step session op c = some c1) : keeps_direction c c1 := by
  cases op with
  | send now os s => exact send_keeps_direction session now os s c c1 h
  | send_probes now => exact send_probes_loop_keeps_direction session now c.socks c c1 h
  | recv now rx =>
    simp only [step, recv] at h
    split_ifs at h
    · exact absurd h (by simp [Outcome.state])
    · exact recv_loop_keeps_direction session now rx c.socks c c1 h
  | recv_one now sock nb msg => exact recv_one_keeps_direction session now sock nb msg c c1 h
  | hop_port now => exact hop_port_keeps_direction now c c1 h
  | prune_sockets now =>
    simp only [step, Option.some.injEq] at h
    rw [← h, prune_sockets_eq]
    exact keeps_direction_of_eq _ _ rfl rfl rfl
  | set_last_roundtrip_success v =>
    simp only [step, Option.some.injEq] at h
    rw [← h]
    exact keeps_direction_of_eq _ _ rfl rfl rfl

theorem run_keeps_direction (session : Session) (ops : List Op) :
    ∀ c c1 : Connection, run session ops c = some c1 → keeps_direction c c1 := by
  induction ops with
  | nil =>
    intro c c1 h
    simp only [run, Option.some.injEq] at h
    rw [← h]
    exact keeps_direction_refl c
  | cons op rest ih =>
    intro c c1 h
    simp only [run] at h
    split at h
    · exact absurd h (by simp)
    · rename_i c2 hs
      exact keeps_direction_trans c c2 c1 (step_keeps_direction session op c c2 hs) (ih c2 c1 h)

theorem try_bind_frame (env : BindEnv) (port_low port_high : Int) (c c1 : Connection)
    (h : (try_bind env port_low port_high c).state = some c1) :
    c1.server = c.server ∧ c1.direction = c.direction ∧ c1.wire = c.wire := by
  unfold try_bind at h
  simp only at h
  split_ifs at h
  all_goals try split at h
  all_goals first
    | (simp only [Outcome.state, Option.some.injEq] at h
       rw [← h]
       exact ⟨rfl, rfl, rfl⟩)
    | (simp [Outcome.state] at h)

/-- What the server constructor hands over: a server whose direction is
`TO_CLIENT` and which has sent nothing. -/
theorem as_server_init (now : Nat) (e : Int) (ip port : Option (List Char))
    (env_ip env_any : BindEnv) (c0 : Connection)
    (h : Connection.as_server now e ip port env_ip env_any = Outcome.ok c0 ()) :
    c0.server = true ∧ c0.direction = Direction.TO_CLIENT ∧ c0.wire = [] := by
  have hany : ∀ (lo hi : Int) (c2 c3 : Connection) (b : Bool),
      c2.server = true ∧ c2.direction = Direction.TO_CLIENT ∧ c2.wire = [] →
      try_bind env_any lo hi c2 = Outcome.ok c3 b →
      c3.server = true ∧ c3.direction = Direction.TO_CLIENT ∧ c3.wire = [] := by
    intro lo hi c2 c3 b h2 heq
    have h3 := try_bind_frame env_any lo hi c2 c3 (by rw [heq]; rfl)
    rw [h3.1, h3.2.1, h3.2.2]
    exact h2
  cases ip with
  | none =>
    unfold Connection.as_server at h
    simp only at h
    split at h
    · exact absurd h (by simp)
    · rename_i lo hi _
      split at h
      · rename_i c3 heq3
        simp only [Outcome.ok.injEq, and_true] at h
        rw [← h]
        exact hany lo hi _ c3 true ⟨rfl, rfl, rfl⟩ heq3
      all_goals exact absurd h (by simp)
  | some a =>
    unfold Connection.as_server at h
    simp only at h
    split at h
    · exact absurd h (by simp)
    · rename_i lo hi _
      split at h
      · rename_i c2 heq
        simp only [Outcome.ok.injEq, and_true] at h
        have h2 := try_bind_frame env_ip lo hi _ c2 (by rw [heq]; rfl)
        rw [← h]
        exact h2
      · exact absurd h (by simp)
      · exact absurd h (by simp)
      · rename_i c2 heq
        have h2 := try_bind_frame env_ip lo hi _ c2 (by rw [heq]; rfl)
        split at h
        · rename_i c3 heq3
          simp only [Outcome.ok.injEq, and_true] at h
          rw [← h]
          exact hany lo hi c2 c3 true h2 heq3
        all_goals exact absurd h (by simp)
      · rename_i c2 f en heq
        have h2 := try_bind_frame env_ip lo hi _ c2 (by rw [heq]; rfl)
        split at h
        · rename_i c3 heq3
          simp only [Outcome.ok.injEq, and_true] at h
          rw [← h]
          exact hany lo hi c2 c3 true h2 heq3
        all_goals exact absurd h (by simp)

/-- The packets sent between two states of a run carry the direction the
connection started with, which it keeps. -/
theorem run_wire_direction (session : Session) (ops : List Op) (c0 c : Connection)
    (dir : Direction) (hdir : c0.direction = dir) (hwire : c0.wire = [])
    (hrun : run session ops c0 = some c) :
    c.server = c0.server ∧ c.direction = dir ∧ ∀ d ∈ c.wire, d.packet.direction = dir := by
  obtain ⟨hs, hd, ds, hw, hall⟩ := run_keeps_direction session ops c0 c hrun
  refine ⟨hs, hd.trans hdir, ?_⟩
  intro d hmem
  rw [hw, hwire, List.nil_append] at hmem
  rw [← hdir]
  exact hall d hmem

/-- C15 (outbound direction). In every state reached from the client
constructor by any sequence of calls, the connection is a client with
direction `TO_SERVER`, and every packet it has built and sent (through `send`,
`send_probes` or a probe reply) has direction `TO_SERVER` and a nonce with
bit 63 clear. In every state reached from a constructed server the connection
is a server with direction `TO_CLIENT`, and every packet it has sent has
direction `TO_CLIENT` and a nonce with bit 63 set. -/
theorem outbound_direction (session : Session) (ops : List Op) (c : Connection) :
    (∀ (now : Nat) (addr : Addr) (addr_len : Nat),
      run session ops (Connection.client now addr addr_len) = some c →
      c.server = false ∧ c.direction = Direction.TO_SERVER ∧
        ∀ d ∈ c.wire, d.packet.direction = Direction.TO_SERVER ∧
          d.packet.direction_seq.testBit 63 = false) ∧
    (∀ (now : Nat) (e : Int) (ip port : Option (List Char)) (env_ip env_any : BindEnv)
      (c0 : Connection),
      Connection.as_server now e ip port env_ip env_any = Outcome.ok c0 () →
      run session ops c0 = some c →
      c.server = true ∧ c.direction = Direction.TO_CLIENT ∧
        ∀ d ∈ c.wire, d.packet.direction = Direction.TO_CLIENT ∧
          d.packet.direction_seq.testBit 63 = true) := by
  constructor
  · intro now addr addr_len hrun
    obtain ⟨hs, hd, hall⟩ := run_wire_direction session ops _ c Direction.TO_SERVER rfl rfl hrun
    refine ⟨hs, hd, ?_⟩
    intro d hmem
    refine ⟨hall d hmem, ?_⟩
    rw [direction_seq_testBit, hall d hmem]
    rfl
  · intro now e ip port env_ip env_any c0 hinit hrun
    obtain ⟨i1, i2, i3⟩ := as_server_init now e ip port env_ip env_any c0 hinit
    obtain ⟨hs, hd, hall⟩ := run_wire_direction session ops c0 c Direction.TO_CLIENT i2 i3 hrun
    refine ⟨hs.trans i1, hd, ?_⟩
    intro d hmem
    refine ⟨hall d hmem, ?_⟩
    rw [direction_seq_testBit, hall d hmem]
    rfl

/-- Witness of C15: a client that receives and sends, and a server that
answers a probe, accepts a data packet and sends. -/
theorem outbound_direction_witness :
    (example_client_replied.server = false ∧
      example_client_replied.direction = Direction.TO_SERVER ∧
      ∀ d ∈ example_client_replied.wire, d.packet.direction = Direction.TO_SERVER ∧
        d.packet.direction_seq.testBit 63 = false) ∧
    (example_server_attached.server = true ∧
      example_server_attached.direction = Direction.TO_CLIENT ∧
      ∀ d ∈ example_server_attached.wire, d.packet.direction = Direction.TO_CLIENT ∧
        d.packet.direction_seq.testBit 63 = true) :=
  ⟨(outbound_direction clearSession
      [Op.recv_one 500 0 false (example_datagram 5 42), Op.send 1000 ⟨17, 0⟩ [1]]
      example_client_replied).1 0 [127, 0, 0, 1] 4 (by rfl),
   (outbound_direction clearSession
      [Op.recv_one 70000 0 false (RecvMsg.datagram false 0 none
          [0, 0, 0, 0, 0, 0, 0, 1, 0, 7, 255, 255, 0, 0, 0, 1] [10, 0, 0, 2] 4 0),
        Op.recv_one 70001 0 false (RecvMsg.datagram false 0 none
          [0, 0, 0, 0, 0, 0, 0, 2, 0, 8, 255, 255, 0, 0, 0, 0, 42] [10, 0, 0, 2] 4 0),
        Op.send 70002 ⟨17, 0⟩ [1]]
      example_server_attached).2 0 0 none none example_bind_env
      example_bind_env example_server (by rfl) (by rfl)⟩

/-- The two datagrams `example_server_attached` has sent: the probe reply and
the data packet, both on socket 0. -/
theorem example_server_attached_wire :
    example_server_attached.wire.map (fun d => (d.sock, d.packet.flags, d.packet.seq))
      = [(0, 1, 0), (0, 0, 1)] := by
  decide

/-! ### The 16-bit clock -/

/-- C24 (16-bit timestamp). For every clock value `t`, `timestamp16` returns
`t mod 65536`, except that it returns 0 when `t mod 65536 = 65535`; so it never
returns the sentinel `0xFFFF`. -/
theorem timestamp16_value (t : Nat) :
    timestamp16 t = (if t % 65536 = 65535 then 0 else t % 65536) ∧
      timestamp16 t ≠ 65535 ∧ timestamp16 t < 65536 := by
  unfold timestamp16
  simp only
  split_ifs with h
  · rw [h]
    exact ⟨by decide, by decide, by decide⟩
  · exact ⟨rfl, h, Nat.mod_lt _ (by norm_num)⟩

/-- C25 (timestamp difference). For all 16-bit `tsnew` and `tsold`, both
assertions of `timestamp_diff` hold, so it returns, and what it returns is
`(tsnew - tsold) mod 65536`, a value in `[0, 65535]`; and
`timestamp_diff( (tsold + d) mod 65536, tsold ) = d` for every `0 ≤ d ≤ 65535`. -/
theorem timestamp_diff_value (tsnew tsold : Nat) (hnew : tsnew < 65536)
    (hold : tsold < 65536) :
    (∃ R, timestamp_diff tsnew tsold = some R ∧
      (R : Int) = ((tsnew : Int) - (tsold : Int)) % 65536 ∧ R ≤ 65535) ∧
      ∀ d, d ≤ 65535 → timestamp_diff ((tsold + d) % 65536) tsold = some d := by
  constructor
  · refine ⟨_, timestamp_diff_eq tsnew tsold hnew hold, ?_, ?_⟩ <;> omega
  · intro d hd
    rw [timestamp_diff_eq _ tsold (Nat.mod_lt _ (by norm_num)) hold]
    congr 1
    omega

/-- Witness of C25: from 65530 to 4 the clock has advanced by 10. -/
theorem timestamp_diff_value_witness :
    (∃ R, timestamp_diff 4 65530 = some R ∧
      (R : Int) = (((4 : Nat) : Int) - ((65530 : Nat) : Int)) % 65536 ∧ R ≤ 65535) ∧
      ∀ d, d ≤ 65535 → timestamp_diff ((65530 + d) % 65536) 65530 = some d :=
  timestamp_diff_value 4 65530 (by decide) (by decide)

/-! ### The search range of `try_bind` -/

theorem try_bind_loop_runs (env : BindEnv) (search_high : Int) :
    ∀ (n : Nat) (i : Int), 0 < n → i + (n : Int) = search_high + 1 →
      try_bind_loop env search_high n i ≠ BindLoop.fell_through := by
  intro n
  induction n with
  | zero => intro i h; exact absurd h (Nat.lt_irrefl 0)
  | succ n ih =>
    intro i _ hsum
    unfold try_bind_loop
    split_ifs with h1 h2 h3
    · decide
    · decide
    · decide
    · apply ih (i + 1)
      · by_contra hn
        have : n = 0 := by omega
        subst this
        apply h3
        push_cast at hsum
        omega
      · push_cast at hsum ⊢
        omega

/-- With a search range that is not empty, `try_bind` does not reach its
`assert( false )`. -/
theorem try_bind_not_aborted (env : BindEnv) (port_low port_high : Int) (c : Connection)
    (hrange : (if port_low ≠ 0 then port_low else PORT_RANGE_LOW)
      ≤ (if port_high ≠ 0 then port_high else PORT_RANGE_HIGH)) :
    (try_bind env port_low port_high c).aborted = false := by
  unfold try_bind
  by_cases hg : env.getaddrinfo_errcode ≠ 0
  · rw [if_pos hg]
    rfl
  · rw [if_neg hg]
    simp only
    generalize (if port_low ≠ 0 then port_low else PORT_RANGE_LOW) = lo at hrange ⊢
    generalize (if port_high ≠ 0 then port_high else PORT_RANGE_HIGH) = hi at hrange ⊢
    have hrun := try_bind_loop_runs env hi (hi + 1 - lo).toNat lo (by omega) (by omega)
    cases hr : try_bind_loop env hi (hi + 1 - lo).toNat lo with
    | bound => rfl
    | unknown_family => rfl
    | last_failed =>
      simp only
      split_ifs <;> rfl
    | fell_through => exact absurd hr hrun

/-- C26, the code at a failing input: the port request `0:5`. Whatever the C
library, `parse_portrange` accepts it as `(0, 5)`; `try_bind` then searches
from `PORT_RANGE_LOW = 60001` up to 5, its loop does not run and it ends on
`assert( false )`, and so does the server constructor. -/
theorem bind_search_empty :
    parse_portrange 0 ['0', ':', '5'] = some (0, 5) ∧
      parse_portrange EINVAL ['0', ':', '5'] = some (0, 5) ∧
      (try_bind example_bind_env 0 5 example_server).aborted = true ∧
      (Connection.as_server 0 0 (some ['1', '2', '7', '.', '0', '.', '0', '.', '1'])
        (some ['0', ':', '5']) example_bind_env example_bind_env).aborted = true := by
  decide

/-! ### The echo and the sentinel -/

/-- C27, the code at a failing input: a client accepts, at clock value 70000
and without congestion, a datagram with timestamp 65525, and sends 10 ms
later. The slot holds 65525, and the packet sent carries
`timestamp_reply = (65525 + 10) mod 65536 = 0xFFFF`, the sentinel. -/
theorem echo_collides_with_sentinel :
    (run clearSession
        [Op.recv_one 70000 0 false (RecvMsg.datagram false 0 none
          [128, 0, 0, 0, 0, 0, 0, 0, 255, 245, 255, 255, 0, 0, 0, 0, 42] [127, 0, 0, 1] 4 0)]
        example_client).map
        (fun c => c.heap.map (fun sk => (sk.saved_timestamp, sk.saved_timestamp_received_at)))
      = some [(65525, 70000)] ∧
    (run clearSession
        [Op.recv_one 70000 0 false (RecvMsg.datagram false 0 none
          [128, 0, 0, 0, 0, 0, 0, 0, 255, 245, 255, 255, 0, 0, 0, 0, 42] [127, 0, 0, 1] 4 0),
         Op.send 70010 ⟨17, 0⟩ [1]]
        example_client).map (fun c => c.wire.map (fun d => d.packet.timestamp_reply))
      = some [65535] := by
  decide

/-! ### The housekeeping after `send` -/

/-- The body of `send` on a connection that has a sending socket. -/
theorem send_eq (session : Session) (now : Nat) (os : SendtoResult) (s : List Byte)
    (c : Connection) (h : Nat) (sk : Socket) (hss : c.send_socket = some h)
    (hsk : c.heap[h]? = some sk) (hsocks : c.socks ≠ []) :
    send session now os s c =
      if c.server then
        if u64_sub now c.last_heard > SERVER_ASSOCIATION_TIMEOUT then
          some { send_posted session now os s h sk c with send_socket := none }
        else some (send_posted session now os s h sk c)
      else if u64_sub now c.last_port_choice > PORT_HOP_INTERVAL
          ∧ u64_sub now c.last_roundtrip_success > PORT_HOP_INTERVAL then
        hop_port now (send_posted session now os s h sk c)
      else some (send_posted session now os s h sk c) := by
  unfold send send_posted
  simp only [hss, hsk, hsocks, if_false]
  by_cases hb : os.bytes_sent = ((new_packet c.direction now sk 0 s).2.tostring session).length
  · simp only [hb, if_true]
  · simp only [hb, if_false]

/-- What `send_posted` keeps of the connection. -/
theorem send_posted_frame (session : Session) (now : Nat) (os : SendtoResult) (s : List Byte)
    (h : Nat) (sk : Socket) (c : Connection) :
    (send_posted session now os s h sk c).server = c.server ∧
      (send_posted session now os s h sk c).send_socket = c.send_socket ∧
      (send_posted session now os s h sk c).socks = c.socks ∧
      (send_posted session now os s h sk c).remote_addr_len = c.remote_addr_len ∧
      (send_posted session now os s h sk c).last_port_choice = c.last_port_choice ∧
      (send_posted session now os s h sk c).heap.length = c.heap.length ∧
      (send_posted session now os s h sk c).next_sock_id = c.next_sock_id := by
  unfold send_posted
  simp only
  split_ifs <;> simp

/-- C22 (server detach). For every server state with a non-null `send_socket`,
`send` at clock value `now` returns, and afterwards `send_socket` is null
exactly when `now - last_heard > 40000` (the `uint64_t` difference, which is
the plain difference when `last_heard ≤ now`) and is unchanged otherwise. And `send` on a connection whose `send_socket` is null
returns the connection as it was, no packet built. -/
theorem server_detach (session : Session) (now : Nat) (os : SendtoResult) (s : List Byte)
    (c : Connection) (h : Nat) (sk : Socket) (hserver : c.server = true)
    (hss : c.send_socket = some h) (hsk : c.heap[h]? = some sk) (hsocks : c.socks ≠ []) :
    (∃ c1, send session now os s c = some c1 ∧
      (c1.send_socket = none ↔ u64_sub now c.last_heard > 40000) ∧
      (¬ u64_sub now c.last_heard > 40000 → c1.send_socket = c.send_socket) ∧
      (c.last_heard ≤ now → now < 2 ^ 64 →
        (c1.send_socket = none ↔ now - c.last_heard > 40000))) ∧
    (∀ c0 : Connection, c0.send_socket = none → send session now os s c0 = some c0) := by
  constructor
  · rw [send_eq session now os s c h sk hss hsk hsocks, if_pos hserver]
    have hf := (send_posted_frame session now os s h sk c).2.1
    unfold SERVER_ASSOCIATION_TIMEOUT
    by_cases hold : u64_sub now c.last_heard > 40000
    · rw [if_pos hold]
      refine ⟨_, rfl, ⟨fun _ => hold, fun _ => rfl⟩, fun hn => absurd hold hn, ?_⟩
      intro hle hlt
      rw [u64_sub_eq now c.last_heard hle hlt] at hold
      exact ⟨fun _ => hold, fun _ => rfl⟩
    · rw [if_neg hold]
      have hne : (send_posted session now os s h sk c).send_socket ≠ none := by
        rw [hf, hss]
        simp
      refine ⟨_, rfl, ⟨fun h0 => absurd h0 hne, fun h1 => absurd h1 hold⟩, fun _ => hf, ?_⟩
      intro hle hlt
      rw [u64_sub_eq now c.last_heard hle hlt] at hold
      exact ⟨fun h0 => absurd h0 hne, fun h1 => absurd h1 hold⟩
  · intro c0 h0
    simp only [send, h0]

/-- Witness of C22: the server that has heard from its client sends again
50 s later and detaches. -/
theorem server_detach_witness :
    ∃ c1, send clearSession 120001 ⟨17, 0⟩ [1] example_server_attached = some c1 ∧
      c1.send_socket = none := by
  obtain ⟨c1, hsend, hiff, _, _⟩ :=
    (server_detach clearSession 120001 ⟨17, 0⟩ [1] example_server_attached 0
      (example_server_attached.heap.getD 0 (Socket.new 0)) (by decide) (by decide) (by rfl)
      (by decide)).1
  exact ⟨c1, hsend, hiff.2 (by decide)⟩

/-- C23, amended (client hop trigger). For every client state with a sending
socket, `send` at clock value `now` returns, and it has invoked `hop_port`
(one more socket object, the new one last in `socks`, `last_port_choice = now`)
exactly when `now - last_port_choice > 10000` and
`now - last_roundtrip_success > 10000`, both differences taken in `uint64_t`;
otherwise `socks` and `last_port_choice` are unchanged. In particular no hop
happens when `last_roundtrip_success` is at most `now` and within 10000 of it. -/
theorem client_hop_trigger (session : Session) (now : Nat) (os : SendtoResult)
    (s : List Byte) (c : Connection) (h : Nat) (sk : Socket) (hclient : c.server = false)
    (hss : c.send_socket = some h) (hsk : c.heap[h]? = some sk) (hsocks : c.socks ≠ [])
    (hlen : c.remote_addr_len ≠ 0) :
    ∃ c1, send session now os s c = some c1 ∧
      ((u64_sub now c.last_port_choice > 10000 ∧
          u64_sub now c.last_roundtrip_success > 10000) →
        c1.heap.length = c.heap.length + 1 ∧ c1.socks.getLast? = some c.heap.length ∧
          c1.last_port_choice = now) ∧
      (¬ (u64_sub now c.last_port_choice > 10000 ∧
          u64_sub now c.last_roundtrip_success > 10000) →
        c1.heap.length = c.heap.length ∧ c1.socks = c.socks ∧
          c1.last_port_choice = c.last_port_choice) ∧
      (c.last_roundtrip_success ≤ now → now < 2 ^ 64 →
        now - c.last_roundtrip_success ≤ 10000 → c1.socks = c.socks) := by
  have hf := send_posted_frame session now os s h sk c
  rw [send_eq session now os s c h sk hss hsk hsocks]
  simp only [hclient, Bool.false_eq_true, if_false]
  unfold PORT_HOP_INTERVAL
  by_cases hhop : u64_sub now c.last_port_choice > 10000 ∧
      u64_sub now c.last_roundtrip_success > 10000
  · rw [if_pos hhop]
    have hs1 : (send_posted session now os s h sk c).server = false := by rw [hf.1, hclient]
    have hl1 : (send_posted session now os s h sk c).remote_addr_len ≠ 0 := by
      rw [hf.2.2.2.1]
      exact hlen
    have he := hop_port_eq now _ hs1 hl1
    obtain ⟨_, hlast, hheap, hlpc⟩ := hop_port_send_socket now _ _ he
    refine ⟨_, he, fun _ => ⟨?_, ?_, hlpc⟩, fun hn => absurd hhop hn, ?_⟩
    · rw [hheap, List.length_append, List.length_singleton, hf.2.2.2.2.2.1]
    · rw [hlast, hf.2.2.2.2.2.1]
    · intro hle hlt hnear
      exfalso
      rw [u64_sub_eq now c.last_roundtrip_success hle hlt] at hhop
      omega
  · rw [if_neg hhop]
    exact ⟨_, rfl, fun hy => absurd hy hhop, fun _ => ⟨hf.2.2.2.2.2.1, hf.2.2.1, hf.2.2.2.2.1⟩,
      fun _ _ _ => hf.2.2.1⟩

/-- Witness of the amended C23: a fresh client whose round trip succeeded at
clock value 15000 sends at clock value 20000 and does not hop. -/
theorem client_hop_trigger_witness :
    ∃ c1, send clearSession 20000 ⟨17, 0⟩ [1]
        (set_last_roundtrip_success 15000 example_client) = some c1 ∧
      c1.socks = [0] := by
  obtain ⟨c1, hsend, _, _, hnear⟩ :=
    client_hop_trigger clearSession 20000 ⟨17, 0⟩ [1]
      (set_last_roundtrip_success 15000 example_client) 0 (Socket.new 0)
      (by decide) (by decide) (by rfl) (by decide) (by decide)
  exact ⟨c1, hsend, hnear (by decide) (by decide) (by decide)⟩

/-- Counterexample to C23 as stated: on a fresh client `last_roundtrip_success`
is still `2 ^ 64 - 1`, so at clock value 20000 the integer difference
`now - last_roundtrip_success` is negative, not above 10000; yet `send` hops:
the `uint64_t` difference is 20001. -/
theorem client_hop_trigger_counterexample :
    ¬ ((20000 : Int) - (example_client.last_roundtrip_success : Int) > 10000) ∧
      u64_sub 20000 example_client.last_roundtrip_success = 20001 ∧
      (send clearSession 20000 ⟨17, 0⟩ [1] example_client).map
        (fun c => (c.socks, c.heap.length, c.last_port_choice)) = some ([0, 1], 2, 20000) := by
  decide

/-! ### The sequence numbers of one socket -/

theorem new_packet_seq (direction : Direction) (now : Nat) (sk : Socket) (flags : Nat)
    (payload : List Byte) :
    (new_packet direction now sk flags payload).2.seq = sk.next_seq ∧
      (new_packet direction now sk flags payload).1.next_seq = (sk.next_seq + 1) % 2 ^ 64 := by
  unfold new_packet
  simp only
  split_ifs <;> exact ⟨rfl, rfl⟩

theorem sent_on_append (h : Nat) (wire : List Datagram) (d : Datagram) :
    sent_on h (wire ++ [d]) = sent_on h wire ++ (if d.sock = h then [d.packet] else []) := by
  unfold sent_on
  rw [List.filter_append, List.map_append]
  by_cases hd : d.sock = h
  · simp [hd]
  · simp [hd]

theorem sent_on_nil_of_ge (h : Nat) (wire : List Datagram) (n : Nat)
    (hall : ∀ d ∈ wire, d.sock < n) (hge : n ≤ h) : sent_on h wire = [] := by
  unfold sent_on
  rw [List.map_eq_nil_iff, List.filter_eq_nil_iff]
  intro d hd
  have := hall d hd
  simp only [decide_eq_true_eq]
  omega

/-- Building and sending a packet on the socket `h` keeps the numbering. -/
theorem seq_invariant_emit (heap : List Socket) (wire : List Datagram) (h : Nat) (sk : Socket)
    (direction : Direction) (now flags : Nat) (payload coded : List Byte) (addr : Addr)
    (addr_len : Nat) (hsk : heap[h]? = some sk) (hinv : seq_invariant heap wire) :
    seq_invariant (heap.set h (new_packet direction now sk flags payload).1)
      (wire ++ [Datagram.mk h (new_packet direction now sk flags payload).2 coded addr
        addr_len]) := by
  obtain ⟨hall, hnum⟩ := hinv
  have hlt := getElem?_lt_length _ _ _ hsk
  obtain ⟨hseq, hnext⟩ := new_packet_seq direction now sk flags payload
  constructor
  · intro d hd
    rw [List.length_set]
    rcases List.mem_append.1 hd with hd | hd
    · exact hall d hd
    · rw [List.mem_singleton] at hd
      rw [hd]
      exact hlt
  · intro h1 sk1 hsk1
    rw [sent_on_append]
    by_cases heq : h = h1
    · subst heq
      rw [List.getElem?_set_self hlt, Option.some.injEq] at hsk1
      obtain ⟨hn, hk⟩ := hnum h sk hsk
      simp only [if_true, List.length_append, List.length_singleton]
      constructor
      · rw [← hsk1, hnext, hn]
        omega
      · intro k p hp
        by_cases hklt : k < (sent_on h wire).length
        · rw [List.getElem?_append_left hklt] at hp
          exact hk k p hp
        · rw [List.getElem?_append_right (Nat.le_of_not_lt hklt)] at hp
          have hk0 : k - (sent_on h wire).length = 0 := by
            by_contra hne
            rw [List.getElem?_eq_none (by
              rw [List.length_singleton]; omega)] at hp
            exact absurd hp (by simp)
          rw [hk0] at hp
          simp only [List.getElem?_cons_zero, Option.some.injEq] at hp
          rw [← hp, hseq, hn]
          congr 1
          omega
    · rw [List.getElem?_set_ne heq] at hsk1
      simp only [heq, if_false, List.append_nil]
      exact hnum h1 sk1 hsk1

/-- Replacing a socket object by one with the same `next_seq` keeps the
numbering. -/
theorem seq_invariant_touch (heap : List Socket) (wire : List Datagram) (h : Nat)
    (sk sk1 : Socket) (hsk : heap[h]? = some sk) (hnext : sk1.next_seq = sk.next_seq)
    (hinv : seq_invariant heap wire) : seq_invariant (heap.set h sk1) wire := by
  obtain ⟨hall, hnum⟩ := hinv
  have hlt := getElem?_lt_length _ _ _ hsk
  constructor
  · intro d hd
    rw [List.length_set]
    exact hall d hd
  · intro h1 sk2 hsk2
    by_cases heq : h = h1
    · subst heq
      rw [List.getElem?_set_self hlt, Option.some.injEq] at hsk2
      rw [← hsk2, hnext]
      exact hnum h sk hsk
    · rw [List.getElem?_set_ne heq] at hsk2
      exact hnum h1 sk2 hsk2

/-- A newly created socket object keeps the numbering. -/
theorem seq_invariant_grow (heap : List Socket) (wire : List Datagram) (id : Nat)
    (hinv : seq_invariant heap wire) : seq_invariant (heap ++ [Socket.new id]) wire := by
  obtain ⟨hall, hnum⟩ := hinv
  constructor
  · intro d hd
    rw [List.length_append, List.length_singleton]
    exact Nat.lt_succ_of_lt (hall d hd)
  · intro h sk hsk
    by_cases hlt : h < heap.length
    · rw [List.getElem?_append_left hlt] at hsk
      exact hnum h sk hsk
    · rw [List.getElem?_append_right (Nat.le_of_not_lt hlt)] at hsk
      have hnil := sent_on_nil_of_ge h wire heap.length hall (Nat.le_of_not_lt hlt)
      have h0 : h - heap.length = 0 := by
        by_contra hne
        rw [List.getElem?_eq_none (by rw [List.length_singleton]; omega)] at hsk
        exact absurd hsk (by simp)
      rw [h0] at hsk
      simp only [List.getElem?_cons_zero, Option.some.injEq] at hsk
      rw [hnil, ← hsk]
      refine ⟨rfl, ?_⟩
      intro k p hp
      exact absurd hp (by simp)

theorem send_probe_seq (session : Session) (now sock : Nat) (addr : Addr) (addr_len : Nat)
    (c c1 : Connection) (hinv : seq_invariant c.heap c.wire)
    (h : send_probe session now sock addr addr_len c = some c1) :
    seq_invariant c1.heap c1.wire := by
  cases hsk : c.heap[sock]? with
  | none => simp [send_probe, hsk] at h
  | some sk =>
    rw [send_probe_eq session now sock addr addr_len c sk hsk, Option.some.injEq] at h
    rw [← h]
    exact seq_invariant_emit c.heap c.wire sock sk c.direction now PROBE_FLAG [] _ addr addr_len
      hsk hinv

theorem send_probes_loop_seq (session : Session) (now : Nat) (l : List Nat) :
    ∀ c c1 : Connection, seq_invariant c.heap c.wire →
      send_probes_loop session now l c = some c1 → seq_invariant c1.heap c1.wire := by
  induction l with
  | nil =>
    intro c c1 hinv h
    simp only [send_probes_loop, Option.some.injEq] at h
    rw [← h]
    exact hinv
  | cons it rest ih =>
    intro c c1 hinv h
    simp only [send_probes_loop] at h
    split_ifs at h
    · split at h
      · exact absurd h (by simp)
      · rename_i c2 hp
        exact ih c2 c1 (send_probe_seq _ _ _ _ _ _ _ hinv hp) h
    · exact ih c c1 hinv h

theorem hop_port_seq (now : Nat) (c c1 : Connection) (hinv : seq_invariant c.heap c.wire)
    (h : hop_port now c = some c1) : seq_invariant c1.heap c1.wire := by
  obtain ⟨hs, hl⟩ := hop_port_some now c c1 h
  rw [hop_port_eq now c hs hl, Option.some.injEq] at h
  rw [← h, prune_sockets_eq]
  exact seq_invariant_grow c.heap c.wire c.next_sock_id hinv

theorem send_posted_seq (session : Session) (now : Nat) (os : SendtoResult) (s : List Byte)
    (h : Nat) (sk : Socket) (c : Connection) (hsk : c.heap[h]? = some sk)
    (hinv : seq_invariant c.heap c.wire) :
    seq_invariant (send_posted session now os s h sk c).heap
      (send_posted session now os s h sk c).wire := by
  have hemit := seq_invariant_emit c.heap c.wire h sk c.direction now 0 s
    ((new_packet c.direction now sk 0 s).2.tostring session) c.remote_addr c.remote_addr_len
    hsk hinv
  have hset : (c.heap.set h (new_packet c.direction now sk 0 s).1)[h]?
      = some (new_packet c.direction now sk 0 s).1 :=
    List.getElem?_set_self (getElem?_lt_length _ _ _ hsk)
  unfold send_posted
  simp only
  split_ifs
  · exact hemit
  · exact seq_invariant_touch _ _ h _ { (new_packet c.direction now sk 0 s).1 with MTU := 500 }
      hset rfl hemit
  · exact hemit

theorem send_seq (session : Session) (now : Nat) (os : SendtoResult) (s : List Byte)
    (c c1 : Connection) (hinv : seq_invariant c.heap c.wire)
    (h : send session now os s c = some c1) : seq_invariant c1.heap c1.wire := by
  cases hss : c.send_socket with
  | none =>
    simp only [send, hss, Option.some.injEq] at h
    rw [← h]
    exact hinv
  | some hd =>
    cases hsk : c.heap[hd]? with
    | none => simp [send, hss, hsk] at h
    | some sk =>
      by_cases hsocks : c.socks = []
      · simp [send, hss, hsk, hsocks] at h
      · have hp := send_posted_seq session now os s hd sk c hsk hinv
        rw [send_eq session now os s c hd sk hss hsk hsocks] at h
        split_ifs at h
        · simp only [Option.some.injEq] at h
          rw [← h]
          exact hp
        · simp only [Option.some.injEq] at h
          rw [← h]
          exact hp
        · exact hop_port_seq now _ c1 hp h
        · simp only [Option.some.injEq] at h
          rw [← h]
          exact hp

theorem accepted_socket_next_seq (now : Nat) (sk sk2 : Socket) (cong : Bool) (p : Packet)
    (h : accepted_socket now sk cong p = some sk2) : sk2.next_seq = sk.next_seq := by
  unfold accepted_socket at h
  simp only at h
  split_ifs at h with h1 h2
  all_goals first
    | (simp only [Option.some.injEq] at h
       rw [← h])
    | (split at h
       · exact absurd h (by simp)
       · simp only [Option.some.injEq] at h
         rw [← h]
         exact (update_rtt_frame _ _).2.2.1)

/-- How `recv_one` can end, with the socket object it read: with the
connection it found, or through the accepted path on that object. -/
theorem recv_one_cases_socket (session : Session) (now sock : Nat) (nb : Bool) (msg : RecvMsg)
    (c c1 : Connection) (h : (recv_one session now sock nb msg c).state = some c1) :
    c1 = c ∨
      ∃ sk sk2 cong p addr namelen gni, c.heap[sock]? = some sk ∧
        accepted_socket now sk cong p = some sk2 ∧
        (recv_one_accepted session now sock sk cong p addr namelen gni c).state = some c1 := by
  cases hsk : c.heap[sock]? with
  | none =>
    simp only [recv_one, hsk, Outcome.state] at h
    exact absurd h (by simp)
  | some sk =>
    cases msg with
    | failed errno =>
      simp only [recv_one, hsk, Outcome.state, Option.some.injEq] at h
      exact Or.inl h.symm
    | datagram trunc errno ecn data addr namelen gni =>
      cases trunc with
      | true =>
        simp only [recv_one, hsk, if_true, Outcome.state, Option.some.injEq] at h
        exact Or.inl h.symm
      | false =>
        cases hdec : Packet.decode data session with
        | none =>
          simp only [recv_one, hsk, hdec, Bool.false_eq_true, if_false, Outcome.state,
            Option.some.injEq] at h
          exact Or.inl h.symm
        | some p =>
          obtain ⟨cong, hrw⟩ := recv_one_datagram_ex session now sock nb errno ecn data addr
            namelen gni c sk p hsk hdec
          rw [hrw] at h
          by_cases hdir : p.direction ≠
              (if c.server then Direction.TO_SERVER else Direction.TO_CLIENT)
          · rw [if_pos hdir] at h
            simp only [Outcome.state, Option.some.injEq] at h
            exact Or.inl h.symm
          · rw [if_neg hdir] at h
            by_cases hgate : p.seq ≥ c.expected_receiver_seq.get p.sock_id
            · rw [if_pos hgate] at h
              obtain ⟨sk2, hsk2, _⟩ := accepted_socket_spec now sk cong p
                (decode_fields_lt _ _ _ hdec).2.1
              exact Or.inr ⟨sk, sk2, cong, p, addr, namelen, gni, rfl, hsk2, h⟩
            · rw [if_neg hgate] at h
              simp only [Outcome.state, Option.some.injEq] at h
              exact Or.inl h.symm

theorem recv_one_seq (session : Session) (now sock : Nat) (nb : Bool) (msg : RecvMsg)
    (c c1 : Connection) (hinv : seq_invariant c.heap c.wire)
    (h : (recv_one session now sock nb msg c).state = some c1) :
    seq_invariant c1.heap c1.wire := by
  rcases recv_one_cases_socket session now sock nb msg c c1 h with h1 |
    ⟨sk, sk2, cong, p, addr, namelen, gni, hsk, hsk2, hacc⟩
  · rw [h1]
    exact hinv
  · have hsock := getElem?_lt_length _ _ _ hsk
    obtain ⟨c2, hst, hclient, hprobe, hdata⟩ :=
      recv_one_accepted_state session now sock sk cong p addr namelen gni c sk2 hsock hsk2
    rw [hacc, Option.some.injEq] at hst
    subst hst
    have htouch := seq_invariant_touch c.heap c.wire sock sk sk2 hsk
      (accepted_socket_next_seq now sk sk2 cong p hsk2) hinv
    cases hs : c.server with
    | false =>
      rw [hclient hs]
      exact htouch
    | true =>
      cases hp : p.is_probe with
      | true =>
        rw [hprobe hs hp]
        exact seq_invariant_emit (c.heap.set sock sk2) c.wire sock sk2 c.direction now
          PROBE_FLAG [] _ addr c.remote_addr_len (List.getElem?_set_self hsock) htouch
      | false =>
        have h1 := (hdata hs hp).1
        have hh : c1.heap = c.heap.set sock sk2 := (congrArg Connection.heap h1).trans rfl
        have hw : c1.wire = c.wire := (congrArg Connection.wire h1).trans rfl
        rw [hh, hw]
        exact htouch

theorem recv_loop_seq (session : Session) (now : Nat) (rx : Nat → RecvMsg) (l : List Nat) :
    ∀ c c1 : Connection, seq_invariant c.heap c.wire →
      (recv_loop session now rx l c).state = some c1 → seq_invariant c1.heap c1.wire := by
  induction l with
  | nil =>
    intro c c1 _ h
    exact absurd h (by simp [recv_loop, Outcome.state])
  | cons it rest ih =>
    intro c c1 hinv h
    simp only [recv_loop] at h
    split at h
    · rename_i c2 payload hr
      simp only [Outcome.state, Option.some.injEq] at h
      have h2 := recv_one_seq session now it _ (rx it) c c2 hinv (by rw [hr]; rfl)
      rw [← h, prune_sockets_eq]
      exact h2
    · rename_i c2 function the_errno hr
      have h2 := recv_one_seq session now it _ (rx it) c c2 hinv (by rw [hr]; rfl)
      split_ifs at h
      · exact absurd h (by simp [Outcome.state])
      · exact ih c2 c1 h2 h
      · simp only [Outcome.state, Option.some.injEq] at h
        rw [← h]
        exact h2
    · rename_i c2 hr
      have h2 := recv_one_seq session now it _ (rx it) c c2 hinv (by rw [hr]; rfl)
      simp only [Outcome.state, Option.some.injEq] at h
      rw [← h]
      exact h2
    · exact absurd h (by simp [Outcome.state])

theorem step_seq (session : Session) (op : Op) (c c1 : Connection)
    (hinv : seq_invariant c.heap c.wire) (h : step session op c = some c1) :
    seq_invariant c1.heap c1.wire := by
  cases op with
  | send now os s => exact send_seq session now os s c c1 hinv h
  | send_probes now => exact send_probes_loop_seq session now c.socks c c1 hinv h
  | recv now rx =>
    simp only [step, recv] at h
    split_ifs at h
    · exact absurd h (by simp [Outcome.state])
    · exact recv_loop_seq session now rx c.socks c c1 hinv h
  | recv_one now sock nb msg => exact recv_one_seq session now sock nb msg c c1 hinv h
  | hop_port now => exact hop_port_seq now c c1 hinv h
  | prune_sockets now =>
    simp only [step, Option.some.injEq] at h
    rw [← h, prune_sockets_eq]
    exact hinv
  | set_last_roundtrip_success v =>
    simp only [step, Option.some.injEq] at h
    rw [← h]
    exact hinv

theorem run_seq (session : Session) (ops : List Op) :
    ∀ c c1 : Connection, seq_invariant c.heap c.wire → run session ops c = some c1 →
      seq_invariant c1.heap c1.wire := by
  induction ops with
  | nil =>
    intro c c1 hinv h
    simp only [run, Option.some.injEq] at h
    rw [← h]
    exact hinv
  | cons op rest ih =>
    intro c c1 hinv h
    simp only [run] at h
    split at h
    · exact absurd h (by simp)
    · rename_i c2 hs
      exact ih c2 c1 (step_seq session op c c2 hinv hs) h

theorem try_bind_seq (env : BindEnv) (port_low port_high : Int) (c c1 : Connection)
    (hinv : seq_invariant c.heap c.wire)
    (h : (try_bind env port_low port_high c).state = some c1) :
    seq_invariant c1.heap c1.wire := by
  have hgrow := seq_invariant_grow c.heap c.wire c.next_sock_id hinv
  unfold try_bind at h
  simp only at h
  split_ifs at h
  all_goals try split at h
  all_goals first
    | (simp only [Outcome.state, Option.some.injEq] at h
       rw [← h]
       first | exact hinv | exact hgrow)
    | (simp [Outcome.state] at h)

theorem seq_invariant_nil : seq_invariant [] [] := by
  constructor
  · intro d hd
    exact absurd hd (List.not_mem_nil d)
  · intro h sk hsk
    exact absurd hsk (by simp)

theorem client_seq (now : Nat) (addr : Addr) (addr_len : Nat) :
    seq_invariant (Connection.client now addr addr_len).heap
      (Connection.client now addr addr_len).wire :=
  seq_invariant_grow [] [] 0 seq_invariant_nil

theorem as_server_seq (now : Nat) (e : Int) (ip port : Option (List Char))
    (env_ip env_any : BindEnv) (c0 : Connection)
    (h : Connection.as_server now e ip port env_ip env_any = Outcome.ok c0 ()) :
    seq_invariant c0.heap c0.wire := by
  have hany : ∀ (lo hi : Int) (c2 c3 : Connection) (b : Bool),
      seq_invariant c2.heap c2.wire → try_bind env_any lo hi c2 = Outcome.ok c3 b →
      seq_invariant c3.heap c3.wire := by
    intro lo hi c2 c3 b h2 heq
    exact try_bind_seq env_any lo hi c2 c3 h2 (by rw [heq]; rfl)
  cases ip with
  | none =>
    unfold Connection.as_server at h
    simp only at h
    split at h
    · exact absurd h (by simp)
    · rename_i lo hi _
      split at h
      · rename_i c3 heq3
        simp only [Outcome.ok.injEq, and_true] at h
        rw [← h]
        exact hany lo hi _ c3 true seq_invariant_nil heq3
      all_goals exact absurd h (by simp)
  | some a =>
    unfold Connection.as_server at h
    simp only at h
    split at h
    · exact absurd h (by simp)
    · rename_i lo hi _
      split at h
      · rename_i c2 heq
        simp only [Outcome.ok.injEq, and_true] at h
        have h2 := try_bind_seq env_ip lo hi _ c2 seq_invariant_nil (by rw [heq]; rfl)
        rw [← h]
        exact h2
      · exact absurd h (by simp)
      · exact absurd h (by simp)
      · rename_i c2 heq
        have h2 := try_bind_seq env_ip lo hi _ c2 seq_invariant_nil (by rw [heq]; rfl)
        split at h
        · rename_i c3 heq3
          simp only [Outcome.ok.injEq, and_true] at h
          rw [← h]
          exact hany lo hi c2 c3 true h2 heq3
        all_goals exact absurd h (by simp)
      · rename_i c2 f en heq
        have h2 := try_bind_seq env_ip lo hi _ c2 seq_invariant_nil (by rw [heq]; rfl)
        split at h
        · rename_i c3 heq3
          simp only [Outcome.ok.injEq, and_true] at h
          rw [← h]
          exact hany lo hi c2 c3 true h2 heq3
        all_goals exact absurd h (by simp)

/-- What the numbering `seq = k mod 2 ^ 64` of a list of packets gives: the
`k`-th packet has `seq = k`, the numbers increase strictly, and among at most
`2 ^ 63` packets no two carry the same nonce. -/
theorem numbering_consequences (l : List Packet)
    (hnum : ∀ k p, l[k]? = some p → p.seq = k % 2 ^ 64) :
    (∀ k p, l[k]? = some p → k < 2 ^ 64 → p.seq = k) ∧
      (∀ (i j : Nat) (pi pj : Packet), l[i]? = some pi → l[j]? = some pj → i < j → j < 2 ^ 64 →
        pi.seq < pj.seq) ∧
      (l.length ≤ 2 ^ 63 → ∀ (i j : Nat) (pi pj : Packet), l[i]? = some pi → l[j]? = some pj → i ≠ j →
        pi.direction_seq ≠ pj.direction_seq) := by
  refine ⟨?_, ?_, ?_⟩
  · intro k p hp hk
    rw [hnum k p hp, Nat.mod_eq_of_lt hk]
  · intro i j pi pj hi hj hij hjlt
    rw [hnum i pi hi, hnum j pj hj, Nat.mod_eq_of_lt hjlt,
      Nat.mod_eq_of_lt (Nat.lt_trans hij hjlt)]
    exact hij
  · intro hlen i j pi pj hi hj hij heq
    have hil := getElem?_lt_length _ _ _ hi
    have hjl := getElem?_lt_length _ _ _ hj
    have h1 := direction_seq_mod pi
    have h2 := direction_seq_mod pj
    rw [heq, h2, hnum i pi hi, hnum j pj hj] at h1
    apply hij
    omega

/-- C21 (per-socket sequence monotonicity). In every state reached from the
client constructor or from a constructed server by any sequence of calls, on
every socket the `k`-th packet built and sent (`k = 0, 1, 2, ...`, below
`2 ^ 64`) has `seq = k`; so the `seq` values of one socket increase strictly,
and as long as at most `2 ^ 63` packets have been built on a socket no two of
them carry the same nonce. -/
theorem per_socket_sequence (session : Session) (ops : List Op) (c : Connection) (h : Nat) :
    (∀ (now : Nat) (addr : Addr) (addr_len : Nat),
      run session ops (Connection.client now addr addr_len) = some c →
      (∀ k p, (sent_on h c.wire)[k]? = some p → k < 2 ^ 64 → p.seq = k) ∧
      (∀ (i j : Nat) (pi pj : Packet), (sent_on h c.wire)[i]? = some pi → (sent_on h c.wire)[j]? = some pj →
        i < j → j < 2 ^ 64 → pi.seq < pj.seq) ∧
      ((sent_on h c.wire).length ≤ 2 ^ 63 → ∀ (i j : Nat) (pi pj : Packet),
        (sent_on h c.wire)[i]? = some pi → (sent_on h c.wire)[j]? = some pj → i ≠ j →
        pi.direction_seq ≠ pj.direction_seq)) ∧
    (∀ (now : Nat) (e : Int) (ip port : Option (List Char)) (env_ip env_any : BindEnv)
      (c0 : Connection),
      Connection.as_server now e ip port env_ip env_any = Outcome.ok c0 () →
      run session ops c0 = some c →
      (∀ k p, (sent_on h c.wire)[k]? = some p → k < 2 ^ 64 → p.seq = k) ∧
      (∀ (i j : Nat) (pi pj : Packet), (sent_on h c.wire)[i]? = some pi → (sent_on h c.wire)[j]? = some pj →
        i < j → j < 2 ^ 64 → pi.seq < pj.seq) ∧
      ((sent_on h c.wire).length ≤ 2 ^ 63 → ∀ (i j : Nat) (pi pj : Packet),
        (sent_on h c.wire)[i]? = some pi → (sent_on h c.wire)[j]? = some pj → i ≠ j →
        pi.direction_seq ≠ pj.direction_seq)) := by
  have hkey : seq_invariant c.heap c.wire →
      ∀ k p, (sent_on h c.wire)[k]? = some p → p.seq = k % 2 ^ 64 := by
    intro hinv k p hp
    by_cases hlt : h < c.heap.length
    · exact ((hinv.2 h _ (List.getElem?_eq_getElem hlt)).2) k p hp
    · rw [sent_on_nil_of_ge h c.wire c.heap.length hinv.1 (Nat.le_of_not_lt hlt)] at hp
      exact absurd hp (by simp)
  constructor
  · intro now addr addr_len hrun
    exact numbering_consequences _
      (hkey (run_seq session ops _ c (client_seq now addr addr_len) hrun))
  · intro now e ip port env_ip env_any c0 hinit hrun
    exact numbering_consequences _
      (hkey (run_seq session ops c0 c (as_server_seq now e ip port env_ip env_any c0 hinit)
        hrun))

/-- Witness of C21: the server that has sent a probe reply and a data packet
on socket 0; they carry `seq` 0 and 1. -/
theorem per_socket_sequence_witness :
    (sent_on 0 example_server_attached.wire).map Packet.seq = [0, 1] ∧
      ∃ p, (sent_on 0 example_server_attached.wire)[1]? = some p ∧ 1 < 2 ^ 64 ∧ p.seq = 1 :=
  ⟨by decide, _, rfl, by norm_num,
   ((per_socket_sequence clearSession
      [Op.recv_one 70000 0 false (RecvMsg.datagram false 0 none
          [0, 0, 0, 0, 0, 0, 0, 1, 0, 7, 255, 255, 0, 0, 0, 1] [10, 0, 0, 2] 4 0),
        Op.recv_one 70001 0 false (RecvMsg.datagram false 0 none
          [0, 0, 0, 0, 0, 0, 0, 2, 0, 8, 255, 255, 0, 0, 0, 0, 42] [10, 0, 0, 2] 4 0),
        Op.send 70002 ⟨17, 0⟩ [1]]
      example_server_attached 0).2 0 0 none none example_bind_env
      example_bind_env example_server (by rfl) (by rfl)).1 1 _ rfl (by norm_num)⟩

end Network
